import Mathlib

/-!
# PaddleFlow run controller

A shallow embedding of `pkg/apiserver/controller/run/run.go`, of the link
checks of `pkg/fs/server/api/handler/link.go` and of the construction of the
file system handler in `pkg/apiserver/handler/fs_handler.go` and
`pkg/fs/client/fs/client.go`.

* Go values of type `error` are `Option GoError` (`none` is `nil`).
* Go maps are association lists; the order of the list is the order in which
  a `range` loop happens to visit the entries.
* Collaborators outside the file (persistence, filesystem, workflow runtime,
  image handler) are fields of `Env`.  Every call to a stateful collaborator is
  appended to `World.calls`, and the collaborator's answer may depend on all
  calls made before it.
* Logging is not modelled.
* The goroutine of `resumeActiveRuns` is modelled by the loop it runs, taken
  to its end; its interleaving with other requests is not modelled.
* Package pipeline (workflow source, topological sort, run steps, validation)
  is not part of the material; it is modelled from the specification and from
  `workflow_test.go`, in the sections "Package pipeline", "Runtime status and
  restart" and "Parameter overrides".
* A Go panic (index out of range, nil pointer) is the result `none` of a
  function that returns an `Option`; `time.Sleep` is a call of the trace.
-/

namespace PaddleFlow

/-! ## Go values -/

/-- A non-nil Go `error`; `msg` is the text returned by `Error()`. -/
structure GoError where
  msg : String
deriving DecidableEq, Repr

/-- Go map read `m[k]` on an association list. -/
def mapGet {α : Type} (m : List (String × α)) (k : String) : Option α :=
  match m with
  | [] => none
  | (k1, v1) :: rest => if k1 = k then some v1 else mapGet rest k

/-- Go map write `m[k] = v` on an association list: an existing key keeps its place. -/
def mapSet {α : Type} (m : List (String × α)) (k : String) (v : α) : List (String × α) :=
  match m with
  | [] => [(k, v)]
  | (k1, v1) :: rest => if k1 = k then (k, v) :: rest else (k1, v1) :: mapSet rest k v

/-- The keys of a Go map, in iteration order. -/
def mapKeys {α : Type} (m : List (String × α)) : List String :=
  m.map Prod.fst

/-! ## Constants of packages `common`, `schema` and `config` -/

/-- Modelled from the spec: run status wire value `initiating` (§6); the constant is declared in package common. -/
def StatusRunInitiating : String := "initiating"

/-- Modelled from the spec: run status wire value `pending` (§6). -/
def StatusRunPending : String := "pending"

/-- Modelled from the spec: run status wire value `running` (§6). -/
def StatusRunRunning : String := "running"

/-- Modelled from the spec: run status wire value `terminating` (§6). -/
def StatusRunTerminating : String := "terminating"

/-- Modelled from the spec: run status wire value `succeeded` (§6). -/
def StatusRunSucceeded : String := "succeeded"

/-- Modelled from the spec: run status wire value `failed` (§6). -/
def StatusRunFailed : String := "failed"

/-- Modelled from the spec: run status wire value `terminated` (§6). -/
def StatusRunTerminated : String := "terminated"

/-- Modelled from the spec: final = {Succeeded, Failed, Terminated} (§3); declared in package common. -/
def RunFinalStatus : List String :=
  [StatusRunSucceeded, StatusRunFailed, StatusRunTerminated]

/-- Modelled from the spec: a status is final when it is one of `RunFinalStatus` (§3). -/
def IsRunFinalStatus (status : String) : Bool :=
  RunFinalStatus.contains status

/-- Modelled from the spec: JobView status `Running` (§3); the constants are declared in package schema. -/
def StatusJobRunning : String := "running"

/-- Modelled from the spec: JobView status `Succeeded` (§3). -/
def StatusJobSucceeded : String := "succeeded"

/-- Modelled from the spec: JobView status `Failed` (§3). -/
def StatusJobFailed : String := "failed"

/-- Modelled from the spec: JobView status `Terminating` (§3). -/
def StatusJobTerminating : String := "terminating"

/-- Modelled from the spec: JobView status `Terminated` (§3). -/
def StatusJobTerminated : String := "terminated"

/-- Modelled from the spec: JobView status `Cancelled` (§3). -/
def StatusJobCancelled : String := "cancelled"

/-- Modelled from the spec: error kind `ActionNotAllowed` (§7); the code constants are declared in package common. -/
def ActionNotAllowed : String := "ActionNotAllowed"

/-- Modelled from the spec: error kind `InternalError` (§7). -/
def InternalError : String := "InternalError"

/-- Modelled from the spec: error kind `AccessDenied` (§7). -/
def AccessDenied : String := "AccessDenied"

/-- Modelled from the spec: error kind `RunNotFound` (§7). -/
def RunNotFound : String := "RunNotFound"

/-- Modelled from the spec: error kind `MalformedYaml` (§7). -/
def MalformedYaml : String := "MalformedYaml"

/-- Modelled from the spec: error kind `InvalidNamePattern` (§7). -/
def InvalidNamePattern : String := "InvalidNamePattern"

/-- Modelled from the spec: error kind `IOOperationFailure` (§7). -/
def IOOperationFailure : String := "IOOperationFailure"

/-- Modelled from the spec: default path `./run.yaml` of the run YAML (§4.F); declared in package config. -/
def DefaultRunYamlPath : String := "./run.yaml"

/-! ## Data model -/

/-- Modelled from the spec: JobView (§3): job-id, status, start-time, end-time, cache-run-id; the type is declared in package schema. -/
structure JobView where
  JobID : String := ""
  Status : String := ""
  StartTime : String := ""
  EndTime : String := ""
  CacheRunID : String := ""
deriving DecidableEq, Repr

/-- The type `schema.RuntimeView`: step name to JobView. -/
abbrev RuntimeView := List (String × JobView)

/-- Modelled from the spec: a scalar value of a parameter (§3): a string, or a
numeric literal held as it is written; the type is declared in package schema. -/
inductive ParamScalar where
  | str (s : String)
  | num (literal : String)
deriving DecidableEq, Repr

/-- Modelled from the spec: a parameter value (§3) is a direct value or a
DictParam with a type and an optional default. -/
inductive ParamValue where
  | direct (v : ParamScalar)
  | dict (type : String) (default : Option ParamScalar)
deriving DecidableEq, Repr

/-- Modelled from the spec: input artifacts (name to reference string) and
output artifacts (name to path or reference) of a step (§3). -/
structure Artifacts where
  Input : List (String × String) := []
  Output : List (String × String) := []
deriving DecidableEq, Repr

/-- Modelled from the spec: a step of a workflow source (§3, §6): command,
comma-joined dependency list, docker-env override, parameters, environment and
artifacts. -/
structure WorkflowSourceStep where
  Command : String := ""
  Deps : String := ""
  DockerEnv : String := ""
  Parameters : List (String × ParamValue) := []
  Env : List (String × String) := []
  Artifacts : Artifacts := {}
deriving DecidableEq, Repr

/-- Modelled from the spec: WorkflowSource (§3, §4.A) with YAML keys name, desc, entry_points, docker_env. -/
structure WorkflowSource where
  Name : String := ""
  Desc : String := ""
  EntryPoints : List (String × WorkflowSourceStep) := []
  DockerEnv : String := ""
deriving DecidableEq, Repr

/-- The fields of `models.Run` that run.go reads or writes; the type is declared in package models. -/
structure Run where
  Pk : Int := 0
  ID : String := ""
  Name : String := ""
  Source : String := ""
  UserName : String := ""
  FsName : String := ""
  FsID : String := ""
  Description : String := ""
  Param : List (String × String) := []
  RunYaml : String := ""
  WorkflowSource : WorkflowSource := {}
  Runtime : RuntimeView := []
  Entry : String := ""
  ImageUrl : String := ""
  Message : String := ""
  Status : String := ""
  CreateTime : String := ""
  ActivateTime : String := ""
deriving DecidableEq, Repr

/-- The fields of `models.Pipeline` that run.go reads. -/
structure Pipeline where
  ID : String := ""
  UserName : String := ""
  PipelineYaml : String := ""
deriving DecidableEq, Repr

/-- A `*pipeline.Workflow`: only the identity of the pointer matters to the controller. -/
abbrev WfPtr := Nat

/-- The request body of CreateRun. -/
structure CreateRunRequest where
  FsName : String := ""
  UserName : String := ""
  Name : String := ""
  Description : String := ""
  Entry : String := ""
  Parameters : List (String × String) := []
  DockerEnv : String := ""
  RunYamlRaw : String := ""
  PipelineID : String := ""
  RunYamlPath : String := ""
deriving DecidableEq, Repr

/-- The response body of CreateRun. -/
structure CreateRunResponse where
  RunID : String := ""
deriving DecidableEq, Repr

/-- The fields of `logger.RequestContext` that the controller uses. -/
structure RequestContext where
  UserName : String := ""
  ErrorCode : String := ""
deriving DecidableEq, Repr

/-! ## Collaborators -/

/-- A call to a stateful collaborator, with its arguments. -/
inductive Call where
  | models_GetRunByID (runID : String)
  | models_UpdateRunStatus (runID status : String)
  | models_UpdateRun (runID : String) (run : Run)
  | models_DeleteRun (runID : String)
  | models_CreateRun (run : Run)
  | models_GetPipelineByID (pipelineID : String)
  | models_ListImageIDsByFsID (fsID : String)
  | updateRunStatusAndMsg (runID status msg : String)
  | handler_ReadFileFromFs (fsID path : String)
  | handler_HandleImage (dockerEnv runID fsID host : String) (port : Int) (imageIDs : List String)
  | pipeline_NewWorkflow (wfs : WorkflowSource) (runID entry : String)
      (params extraInfo : List (String × String))
  | Workflow_Start (wf : WfPtr)
  | Workflow_Stop (wf : WfPtr)
  | Workflow_Restart (wf : WfPtr)
  | Workflow_SetWorkflowRuntime (wf : WfPtr) (view : RuntimeView)
  | models_ListRun (pk maxKeys : Int) (userFilter fsFilter runFilter nameFilter : List String)
  | models_GetLastRun
  | models_ListRunsByStatus (statusList : List String)
  | handler_InitPFImageHandler
deriving DecidableEq, Repr

/-- The state the controller acts on: the calls made so far to the
collaborators, oldest first, and the package variable `wfMap`. -/
structure World where
  calls : List Call := []
  wfMap : List (String × WfPtr) := []
deriving DecidableEq, Repr

/-- The code of this repository and of its libraries that run.go calls and
that is not part of run.go.  A stateful collaborator receives the calls made
before the current one. -/
structure Env where
  /-- Function `common.IsRootUser`. -/
  IsRootUser : String → Bool
  /-- Function `schema.CheckReg`. -/
  CheckReg : String → String → Bool
  /-- Constant `common.RegPatternRunName`. -/
  RegPatternRunName : String
  /-- Constant `common.MalformedJSON`, an error code. -/
  MalformedJSON : String
  /-- Constant `common.ResourceTypeRun`. -/
  ResourceTypeRun : String
  /-- Constant `common.ResourceTypePipeline`. -/
  ResourceTypePipeline : String
  /-- Constant `pipeline.WfExtraInfoKeySource`. -/
  WfExtraInfoKeySource : String
  /-- Constant `pipeline.WfExtraInfoKeyFsID`. -/
  WfExtraInfoKeyFsID : String
  /-- Constant `pipeline.WfExtraInfoKeyUserName`. -/
  WfExtraInfoKeyUserName : String
  /-- Constant `pipeline.WfExtraInfoKeyFsName`. -/
  WfExtraInfoKeyFsName : String
  /-- Function `common.NotFoundError`; the error it builds is never nil. -/
  NotFoundError : String → String → GoError
  /-- Function `common.NoAccessError`; the error it builds is never nil. -/
  NoAccessError : String → String → String → GoError
  /-- Function `common.InvalidNamePatternError`; the error it builds is never nil. -/
  InvalidNamePatternError : String → String → String → GoError
  /-- The test `errors.Is(err, gorm.ErrRecordNotFound)`. -/
  isErrRecordNotFound : GoError → Bool
  /-- Function `fs.ID` of package `fs/server/utils/fs`. -/
  fs_ID : String → String → String
  /-- Function `base64.StdEncoding.DecodeString`; the bytes are held in a string. -/
  base64_DecodeString : String → String × Option GoError
  /-- Function `common.GetMD5Hash`. -/
  GetMD5Hash : String → String
  /-- Function `yaml.Unmarshal` into an empty `schema.WorkflowSource`. -/
  yaml_Unmarshal : String → WorkflowSource × Option GoError
  /-- Method `(*models.Run).Encode`: the run after the call and the error. -/
  Run_Encode : Run → Run × Option GoError
  /-- Function `handler.NeedHandleImage`. -/
  NeedHandleImage : String → Bool
  /-- Variable `config.FsServerHost`. -/
  FsServerHost : String
  /-- Variable `config.FsServerPort`. -/
  FsServerPort : Int
  models_GetRunByID : List Call → String → Run × Option GoError
  models_UpdateRunStatus : List Call → String → String → Option GoError
  models_UpdateRun : List Call → String → Run → Option GoError
  models_DeleteRun : List Call → String → Option GoError
  /-- Function `models.CreateRun`: the run behind the pointer after the call
  (its ID is back filled), the run id and the error. -/
  models_CreateRun : List Call → Run → Run × String × Option GoError
  models_GetPipelineByID : List Call → String → Pipeline × Option GoError
  models_ListImageIDsByFsID : List Call → String → List String × Option GoError
  /-- Function `updateRunStatusAndMsg` of package run, defined outside run.go. -/
  updateRunStatusAndMsg : List Call → String → String → String → Option GoError
  handler_ReadFileFromFs : List Call → String → String → String × Option GoError
  /-- Method `PFImageHandler.HandleImage`; the callback it is given is the
  package function `handleImageCallbackFunc`. -/
  handler_HandleImage : List Call → String → String → String → String → Int → List String →
    Option GoError
  /-- Function `pipeline.NewWorkflow`: the pointer (`none` is nil) and the error. -/
  pipeline_NewWorkflow : List Call → WorkflowSource → String → String →
    List (String × String) → List (String × String) → Option WfPtr × Option GoError
  /-- Method `(*pipeline.Workflow).SetWorkflowRuntime`. -/
  Workflow_SetWorkflowRuntime : List Call → WfPtr → RuntimeView → Option GoError
  /-- Constant `common.InvalidMarker`, an error code. -/
  InvalidMarker : String
  /-- Variable `common.RunActiveStatus`. -/
  RunActiveStatus : List String
  /-- Function `common.DecryptPk`. -/
  DecryptPk : String → Int × Option GoError
  /-- Function `common.EncryptPk`. -/
  EncryptPk : Int → String × Option GoError
  /-- The test `database.GetErrorCode(err) == database.ErrorRecordNotFound`. -/
  isDbRecordNotFound : GoError → Bool
  models_ListRun : List Call → Int → Int → List String → List String → List String →
    List String → List Run × Option GoError
  models_GetLastRun : List Call → Run × Option GoError
  models_ListRunsByStatus : List Call → List String → List Run × Option GoError
  /-- Function `handler.InitPFImageHandler`: the pointer to the image handler
  (`none` is nil) and the error. -/
  handler_InitPFImageHandler : List Call → Option Nat × Option GoError

/-- Record a call. -/
def World.call (w : World) (c : Call) : World :=
  { w with calls := w.calls ++ [c] }

/-! ## run.go -/

/-- Function `runYamlAndReqToWfs`. -/
def runYamlAndReqToWfs (env : Env) (ctx : RequestContext) (runYaml : String)
    (req : CreateRunRequest) : WorkflowSource × Option GoError × RequestContext :=
  -- parse yaml -> WorkflowSource
  match env.yaml_Unmarshal runYaml with
  | (_, some err) => ({}, some err, { ctx with ErrorCode := MalformedYaml })
  | (wfs, none) =>
    -- replace name & dockerEnv by request
    let wfs1 := if req.Name ≠ "" then { wfs with Name := req.Name } else wfs
    let wfs2 := if req.DockerEnv ≠ "" then { wfs1 with DockerEnv := req.DockerEnv } else wfs1
    (wfs2, none, ctx)

/-- The results of `buildWorkflowSource`, with the request context and the world after the call. -/
structure BuildResult where
  wfs : WorkflowSource := {}
  source : String := ""
  runYaml : String := ""
  err : Option GoError := none
  ctx : RequestContext
  world : World
deriving DecidableEq, Repr

/-- Function `buildWorkflowSource`, from the point where source and runYaml are known. -/
def buildWorkflowSourceToWfs (env : Env) (ctx : RequestContext) (req : CreateRunRequest)
    (source runYaml : String) (w : World) : BuildResult :=
  match runYamlAndReqToWfs env ctx runYaml req with
  | (_, some err, ctx1) => { err := some err, ctx := ctx1, world := w }
  | (wfs, none, ctx1) => { wfs := wfs, source := source, runYaml := runYaml, ctx := ctx1, world := w }

/-- Function `buildWorkflowSource`. -/
def buildWorkflowSource (env : Env) (ctx : RequestContext) (req : CreateRunRequest)
    (fsID : String) (w : World) : BuildResult :=
  -- retrieve source and runYaml
  if req.RunYamlRaw ≠ "" then
    -- high priority: wfs delivered by request
    match env.base64_DecodeString req.RunYamlRaw with
    | (_, some err) => { err := some err, ctx := ctx, world := w }
    | (sDec, none) => buildWorkflowSourceToWfs env ctx req (env.GetMD5Hash sDec) sDec w
  else if req.PipelineID ≠ "" then
    -- medium priority: wfs in pipeline
    let w1 := w.call (Call.models_GetPipelineByID req.PipelineID)
    match env.models_GetPipelineByID w.calls req.PipelineID with
    | (_, some err) => { err := some err, ctx := ctx, world := w1 }
    | (ppl, none) =>
      if !env.IsRootUser ctx.UserName && ppl.UserName ≠ ctx.UserName then
        { err := some (env.NoAccessError ctx.UserName env.ResourceTypePipeline ppl.ID),
          ctx := { ctx with ErrorCode := AccessDenied }, world := w1 }
      else
        buildWorkflowSourceToWfs env ctx req ppl.ID ppl.PipelineYaml w1
  else
    -- low priority: wfs in fs, read from runYamlPath
    let runYamlPath := if req.RunYamlPath = "" then DefaultRunYamlPath else req.RunYamlPath
    let w1 := w.call (Call.handler_ReadFileFromFs fsID runYamlPath)
    match env.handler_ReadFileFromFs w.calls fsID runYamlPath with
    | (_, some err) =>
      { err := some err, ctx := { ctx with ErrorCode := IOOperationFailure }, world := w1 }
    | (runYamlByte, none) => buildWorkflowSourceToWfs env ctx req runYamlPath runYamlByte w1

/-- Function `newWorkflowByRun`: the pointer (`none` is nil), the error and the world after the call. -/
def newWorkflowByRun (env : Env) (run : Run) (w : World) : Option WfPtr × Option GoError × World :=
  let extraInfo : List (String × String) :=
    [(env.WfExtraInfoKeySource, run.Source), (env.WfExtraInfoKeyFsID, run.FsID),
     (env.WfExtraInfoKeyUserName, run.UserName), (env.WfExtraInfoKeyFsName, run.FsName)]
  let w1 := w.call (Call.pipeline_NewWorkflow run.WorkflowSource run.ID run.Entry run.Param extraInfo)
  match env.pipeline_NewWorkflow w.calls run.WorkflowSource run.ID run.Entry run.Param extraInfo with
  | (_, some err) => (none, some err, w1)
  | (none, none) => (none, some ⟨"NewWorkflow ptr for run[" ++ run.ID ++ "] is nil"⟩, w1)
  | (some wfPtr, none) =>
    if run.ID ≠ "" then
      -- validate has run.ID == "". do not record
      (some wfPtr, none, { w1 with wfMap := mapSet w1.wfMap run.ID wfPtr })
    else
      (some wfPtr, none, w1)

/-- Function `handleImageAndStartWf`. -/
def handleImageAndStartWf (env : Env) (run : Run) (isResume : Bool) (w : World) :
    Option GoError × World :=
  if !env.NeedHandleImage run.WorkflowSource.DockerEnv then
    -- init workflow and start
    match newWorkflowByRun env run w with
    | (_, some err, w1) =>
      (env.updateRunStatusAndMsg w1.calls run.ID StatusRunFailed err.msg,
        w1.call (Call.updateRunStatusAndMsg run.ID StatusRunFailed err.msg))
    | (none, none, w1) =>
      -- not reached: newWorkflowByRun returns a pointer whenever its error is nil
      (none, w1)
    | (some wfPtr, none, w1) =>
      let upd : Run := { ImageUrl := run.WorkflowSource.DockerEnv, Status := StatusRunPending }
      if !isResume then
        -- start workflow with image url
        let w2 := w1.call (Call.Workflow_Start wfPtr)
        (env.models_UpdateRun w2.calls run.ID upd, w2.call (Call.models_UpdateRun run.ID upd))
      else
        -- set runtime and restart
        let w2 := w1.call (Call.Workflow_SetWorkflowRuntime wfPtr run.Runtime)
        match env.Workflow_SetWorkflowRuntime w1.calls wfPtr run.Runtime with
        | some err => (some err, w2)
        | none =>
          let w3 := w2.call (Call.Workflow_Restart wfPtr)
          (env.models_UpdateRun w3.calls run.ID upd, w3.call (Call.models_UpdateRun run.ID upd))
  else
    let w1 := w.call (Call.models_ListImageIDsByFsID run.FsID)
    match env.models_ListImageIDsByFsID w.calls run.FsID with
    | (_, some err) =>
      (env.updateRunStatusAndMsg w1.calls run.ID StatusRunFailed err.msg,
        w1.call (Call.updateRunStatusAndMsg run.ID StatusRunFailed err.msg))
    | (imageIDs, none) =>
      let w2 := w1.call (Call.handler_HandleImage run.WorkflowSource.DockerEnv run.ID run.FsID
        env.FsServerHost env.FsServerPort imageIDs)
      match env.handler_HandleImage w1.calls run.WorkflowSource.DockerEnv run.ID run.FsID
          env.FsServerHost env.FsServerPort imageIDs with
      | some err =>
        (env.updateRunStatusAndMsg w2.calls run.ID StatusRunFailed err.msg,
          w2.call (Call.updateRunStatusAndMsg run.ID StatusRunFailed err.msg))
      | none => (none, w2)

/-- The assignments of `resetRunSteps` to a job view that is reset. -/
def resetJobView (jobView : JobView) : JobView :=
  { jobView with JobID := "", Status := "", StartTime := "", EndTime := "" }

/-- The test of `resetRunSteps` that selects the job views to reset. -/
def needsReset (jobView : JobView) : Bool :=
  jobView.Status == StatusJobCancelled ||
    jobView.Status == StatusJobFailed ||
    jobView.Status == StatusJobTerminated

/-- The range loop of `resetRunSteps`: `todo` holds the entries of the map
still to be visited, `runtime` is the map `run.Runtime` as written so far. -/
def resetRunStepsLoop (runID : String) :
    List (String × JobView) → RuntimeView → Option GoError × RuntimeView
  | [], runtime => (none, runtime)
  | (stepName, jobView) :: todo, runtime =>
    let jobView1 := if needsReset jobView then resetJobView jobView else jobView
    let runtime1 := if needsReset jobView then mapSet runtime stepName jobView1 else runtime
    if jobView1.Status == StatusJobRunning || jobView1.Status == StatusJobTerminating then
      (some ⟨"step[" ++ stepName ++ "] has invalid status[" ++ jobView1.Status ++
        "]. failed to retry run[" ++ runID ++ "]"⟩, runtime1)
    else
      resetRunStepsLoop runID todo runtime1

/-- Function `resetRunSteps`: the error, the run behind the pointer after the call, and the world. -/
def resetRunSteps (env : Env) (run : Run) (w : World) : Option GoError × Run × World :=
  match resetRunStepsLoop run.ID run.Runtime run.Runtime with
  | (some err, runtime) => (some err, { run with Runtime := runtime }, w)
  | (none, runtime) =>
    match env.Run_Encode { run with Runtime := runtime } with
    | (run1, some err) => (some err, run1, w)
    | (run1, none) =>
      (env.models_UpdateRun w.calls run1.ID run1, run1, w.call (Call.models_UpdateRun run1.ID run1))

/-- Function `resumeRun`. -/
def resumeRun (env : Env) (run : Run) (w : World) : Option GoError × World :=
  match env.yaml_Unmarshal run.RunYaml with
  | (_, some err) => (some err, w)
  | (wfs, none) =>
    let wfs1 := if run.ImageUrl ≠ "" then { wfs with DockerEnv := run.ImageUrl } else wfs
    -- patch run.WorkflowSource to invoke func handleImageAndStartWf
    let run1 := { run with WorkflowSource := wfs1 }
    (none, (handleImageAndStartWf env run1 true w).2)

/-- Function `GetRunByID`. -/
def GetRunByID (env : Env) (ctx : RequestContext) (runID : String) (w : World) :
    Run × Option GoError × RequestContext × World :=
  let w1 := w.call (Call.models_GetRunByID runID)
  match env.models_GetRunByID w.calls runID with
  | (_, some _) =>
    ({}, some (env.NotFoundError env.ResourceTypeRun runID), { ctx with ErrorCode := RunNotFound }, w1)
  | (run, none) =>
    if !env.IsRootUser ctx.UserName && ctx.UserName ≠ run.UserName then
      ({}, some (env.NoAccessError ctx.UserName env.ResourceTypeRun runID),
        { ctx with ErrorCode := AccessDenied }, w1)
    else
      (run, none, ctx, w1)

/-- Function `StopRun`. -/
def StopRun (env : Env) (ctx : RequestContext) (runID : String) (w : World) :
    Option GoError × RequestContext × World :=
  -- check run exist
  match GetRunByID env ctx runID w with
  | (_, some err, ctx1, w1) => (some err, ctx1, w1)
  | (run, none, ctx1, w1) =>
    -- check user access right
    if !env.IsRootUser ctx1.UserName && ctx1.UserName ≠ run.UserName then
      (none, { ctx1 with ErrorCode := AccessDenied }, w1)
    -- check run current status
    else if run.Status == StatusRunTerminating || IsRunFinalStatus run.Status then
      (some ⟨"cannot stop run[" ++ runID ++ "] as run is already in status[" ++ run.Status ++ "]"⟩,
        { ctx1 with ErrorCode := ActionNotAllowed }, w1)
    else
      match mapGet w1.wfMap runID with
      | none =>
        (some ⟨"run[" ++ runID ++ "]'s workflow ptr is lost"⟩,
          { ctx1 with ErrorCode := InternalError }, w1)
      | some wf =>
        let w2 := w1.call (Call.models_UpdateRunStatus runID StatusRunTerminating)
        match env.models_UpdateRunStatus w1.calls runID StatusRunTerminating with
        | some _ => (some ⟨"stop run failed updating db"⟩, { ctx1 with ErrorCode := InternalError }, w2)
        | none => (none, ctx1, w2.call (Call.Workflow_Stop wf))

/-- Function `RetryRun`. -/
def RetryRun (env : Env) (ctx : RequestContext) (runID : String) (w : World) :
    Option GoError × RequestContext × World :=
  -- check run exist
  match GetRunByID env ctx runID w with
  | (_, some err, ctx1, w1) => (some err, ctx1, w1)
  | (run, none, ctx1, w1) =>
    -- check user access right
    if !env.IsRootUser ctx1.UserName && ctx1.UserName ≠ run.UserName then
      (none, { ctx1 with ErrorCode := AccessDenied }, w1)
    -- only failed or terminated runs can retry
    else if !(run.Status == StatusRunFailed || run.Status == StatusRunTerminated) then
      (some ⟨"run[" ++ runID ++ "] has status[" ++ run.Status ++ "], no need to retry"⟩,
        { ctx1 with ErrorCode := ActionNotAllowed }, w1)
    else
      -- reset run steps
      match resetRunSteps env run w1 with
      | (some err, _, w2) => (some err, { ctx1 with ErrorCode := InternalError }, w2)
      | (none, run1, w2) =>
        -- resume
        (none, ctx1, (resumeRun env run1 w2).2)

/-- Function `DeleteRun`. -/
def DeleteRun (env : Env) (ctx : RequestContext) (id : String) (w : World) :
    Option GoError × RequestContext × World :=
  let w1 := w.call (Call.models_GetRunByID id)
  match env.models_GetRunByID w.calls id with
  | (_, some err) =>
    if env.isErrRecordNotFound err then
      (some ⟨"delete run[" ++ id ++ "] failed. not exist"⟩, { ctx with ErrorCode := RunNotFound }, w1)
    else
      (some err, { ctx with ErrorCode := InternalError }, w1)
  | (run, none) =>
    -- check permission
    if !env.IsRootUser ctx.UserName && ctx.UserName ≠ run.UserName then
      (some ⟨"delete run[" ++ id ++ "] failed. Access denied"⟩,
        { ctx with ErrorCode := AccessDenied }, w1)
    -- check final status
    else if !IsRunFinalStatus run.Status then
      (some ⟨"run[" ++ run.ID ++ "] is in status[" ++ run.Status ++
        "]. only runs in final status: [" ++ " ".intercalate RunFinalStatus ++ "] can be deleted"⟩,
        { ctx with ErrorCode := ActionNotAllowed }, w1)
    else
      -- delete
      let w2 := w1.call (Call.models_DeleteRun id)
      match env.models_DeleteRun w1.calls id with
      | some err => (some err, { ctx with ErrorCode := InternalError }, w2)
      | none => (none, ctx, w2)

/-- The fs-id that `CreateRun` computes first. -/
def createRunFsID (env : Env) (ctx : RequestContext) (request : CreateRunRequest) : String :=
  if env.IsRootUser ctx.UserName && request.UserName ≠ "" then
    -- root user can select fs under other users
    env.fs_ID request.UserName request.FsName
  else
    env.fs_ID ctx.UserName request.FsName

/-- The run that `CreateRun` assembles after the workflow source is built. -/
def createRunRecord (ctx : RequestContext) (request : CreateRunRequest) (fsID : String)
    (wfs : WorkflowSource) (source runYaml : String) : Run :=
  { ID := "", -- to be back filled according to db pk
    Name := wfs.Name,
    Source := source,
    UserName := ctx.UserName,
    FsName := request.FsName,
    FsID := fsID,
    Description := request.Description,
    Param := request.Parameters,
    RunYaml := runYaml,
    WorkflowSource := wfs,
    Entry := request.Entry,
    Status := StatusRunInitiating }

/-- Function `CreateRun`. -/
def CreateRun (env : Env) (ctx : RequestContext) (request : CreateRunRequest) (w : World) :
    CreateRunResponse × Option GoError × RequestContext × World :=
  -- concatenate fsID
  let fsID := createRunFsID env ctx request
  let b := buildWorkflowSource env ctx request fsID w
  match b.err with
  | some err => ({}, some err, b.ctx, b.world)
  | none =>
    -- check name pattern
    if b.wfs.Name ≠ "" && !env.CheckReg b.wfs.Name env.RegPatternRunName then
      ({}, some (env.InvalidNamePatternError b.wfs.Name env.ResourceTypeRun env.RegPatternRunName),
        { b.ctx with ErrorCode := InvalidNamePattern }, b.world)
    else
      -- create run in db after run.yaml validated
      match env.Run_Encode (createRunRecord ctx request fsID b.wfs b.source b.runYaml) with
      | (_, some err) => ({}, some err, { b.ctx with ErrorCode := env.MalformedJSON }, b.world)
      | (run, none) =>
        -- validate workflow in func NewWorkflow
        match newWorkflowByRun env run b.world with
        | (_, some err, w1) => ({}, some err, { b.ctx with ErrorCode := MalformedYaml }, w1)
        | (_, none, w1) =>
          -- create run in db and update run's ID by pk
          let w2 := w1.call (Call.models_CreateRun run)
          match env.models_CreateRun w1.calls run with
          | (_, _, some err) => ({}, some err, { b.ctx with ErrorCode := InternalError }, w2)
          | (run1, runID, none) =>
            -- to wfs again to revise previous wf replacement
            match runYamlAndReqToWfs env b.ctx run1.RunYaml request with
            | (_, some err, ctx1) => ({}, some err, ctx1, w2)
            | (wfs, none, ctx1) =>
              -- handler image
              ({ RunID := runID }, none, ctx1,
                (handleImageAndStartWf env { run1 with WorkflowSource := wfs } false w2).2)

/-- The type `RunBrief`. -/
structure RunBrief where
  ID : String := ""
  Name : String := ""
  Source : String := ""
  UserName : String := ""
  FsName : String := ""
  Message : String := ""
  Status : String := ""
  CreateTime : String := ""
  ActivateTime : String := ""
deriving DecidableEq, Repr

/-- The type `ListRunResponse`; the first three fields are those of the
embedded `common.MarkerInfo` that run.go assigns. -/
structure ListRunResponse where
  NextMarker : String := ""
  IsTruncated : Bool := false
  MaxKeys : Int := 0
  RunList : List RunBrief := []
deriving DecidableEq, Repr

/-- Method `(*RunBrief).modelToListResp`, on an empty brief. -/
def modelToListResp (run : Run) : RunBrief :=
  { ID := run.ID
    Name := run.Name
    Source := run.Source
    UserName := run.UserName
    FsName := run.FsName
    Message := run.Message
    Status := run.Status
    CreateTime := run.CreateTime
    ActivateTime := run.ActivateTime }

/-- Function `isLastRunPk`. -/
def isLastRunPk (env : Env) (pk : Int) (w : World) : Bool × World :=
  ((env.models_GetLastRun w.calls).1.Pk == pk, w.call Call.models_GetLastRun)

/-- The user filter that `ListRun` hands to `models.ListRun`. -/
def listRunUserFilter (env : Env) (ctx : RequestContext) (userFilter : List String) : List String :=
  -- normal user list its own
  if !env.IsRootUser ctx.UserName then [ctx.UserName] else userFilter

/-- Function `ListRun`. -/
def ListRun (env : Env) (ctx : RequestContext) (marker : String) (maxKeys : Int)
    (userFilter fsFilter runFilter nameFilter : List String) (w : World) :
    ListRunResponse × Option GoError × RequestContext × World :=
  match (if marker ≠ "" then env.DecryptPk marker else (0, none)) with
  | (_, some err) => ({}, some err, { ctx with ErrorCode := env.InvalidMarker }, w)
  | (pk, none) =>
    let userFilter1 := listRunUserFilter env ctx userFilter
    -- model list
    let w1 := w.call (Call.models_ListRun pk maxKeys userFilter1 fsFilter runFilter nameFilter)
    let listed := env.models_ListRun w.calls pk maxKeys userFilter1 fsFilter runFilter nameFilter
    let runList := listed.1
    let ctx1 := if listed.2.isSome then { ctx with ErrorCode := InternalError } else ctx
    -- append run briefs
    let briefs := runList.map modelToListResp
    -- get next marker
    match runList.getLast? with
    | none => ({ IsTruncated := false, MaxKeys := maxKeys, RunList := briefs }, none, ctx1, w1)
    | some run =>
      let last := isLastRunPk env run.Pk w1
      if !last.1 then
        match env.EncryptPk run.Pk with
        | (_, some err) => ({}, some err, { ctx1 with ErrorCode := InternalError }, last.2)
        | (nextMarker, none) =>
          ({ NextMarker := nextMarker, IsTruncated := true, MaxKeys := maxKeys, RunList := briefs },
            none, ctx1, last.2)
      else
        ({ IsTruncated := false, MaxKeys := maxKeys, RunList := briefs }, none, ctx1, last.2)

/-- The loop that `resumeActiveRuns` starts in a goroutine, run to its end:
the runs handed to `resumeRun` with the error each call returned, in the order
of the calls, and the world after the loop. -/
def resumeActiveRunsLoop (env : Env) : List Run → World → List (Run × Option GoError) × World
  | [], w => ([], w)
  | run :: rest, w =>
    match resumeRun env run w with
    | (some err, w1) =>
      -- failed to resume. skipped.
      let r := resumeActiveRunsLoop env rest w1
      ((run, some err) :: r.1, r.2)
    | (none, w1) =>
      let r := resumeActiveRunsLoop env rest w1
      ((run, none) :: r.1, r.2)

/-- Function `resumeActiveRuns`: the error, the world when it returns, and
the list of runs over which the goroutine it started loops (`none` when it
starts no goroutine). -/
def resumeActiveRuns (env : Env) (w : World) : Option GoError × World × Option (List Run) :=
  let w1 := w.call (Call.models_ListRunsByStatus env.RunActiveStatus)
  match env.models_ListRunsByStatus w.calls env.RunActiveStatus with
  | (_, some err) =>
    if env.isDbRecordNotFound err then
      (none, w1, none)
    else
      (some err, w1, none)
  | (runList, none) => (none, w1, some runList)

/-- Function `InitAndResumeRuns`: the image handler, the error, the world
when it returns, and the list of runs of the goroutine of `resumeActiveRuns`. -/
def InitAndResumeRuns (env : Env) (w : World) :
    Option Nat × Option GoError × World × Option (List Run) :=
  let w1 := w.call Call.handler_InitPFImageHandler
  match env.handler_InitPFImageHandler w.calls with
  | (_, some err) => (none, some err, w1, none)
  | (imageHandler, none) =>
    -- do not handle resume errors
    let r := resumeActiveRuns env w1
    (imageHandler, none, r.2.1, r.2.2)

/-- The ways in which `wfMap` changes: it stays as it is, or an entry is
written under a run id that is not empty. -/
inductive WfMapGrows : List (String × WfPtr) → List (String × WfPtr) → Prop where
  | refl (m : List (String × WfPtr)) : WfMapGrows m m
  | set (m m1 : List (String × WfPtr)) (runID : String) (wf : WfPtr) :
      runID ≠ "" → WfMapGrows m m1 → WfMapGrows m (mapSet m1 runID wf)

/-- The workflow source that `CreateRun` builds first. -/
def createRunBuilt (env : Env) (ctx : RequestContext) (request : CreateRunRequest) (w : World) :
    BuildResult :=
  buildWorkflowSource env ctx request (createRunFsID env ctx request) w

/-- The result of the call of `run.Encode` in `CreateRun`. -/
def createRunEncoded (env : Env) (ctx : RequestContext) (request : CreateRunRequest) (w : World) :
    Run × Option GoError :=
  env.Run_Encode (createRunRecord ctx request (createRunFsID env ctx request)
    (createRunBuilt env ctx request w).wfs (createRunBuilt env ctx request w).source
    (createRunBuilt env ctx request w).runYaml)

/-- A step status on which `resetRunSteps` gives up. -/
def blocksRetry (jobView : JobView) : Prop :=
  jobView.Status = StatusJobRunning ∨ jobView.Status = StatusJobTerminating

instance (jobView : JobView) : Decidable (blocksRetry jobView) :=
  inferInstanceAs (Decidable (_ ∨ _))

/-- What the loop of `resetRunSteps` does to one entry that it passes. -/
def resetEntry (e : String × JobView) : String × JobView :=
  (e.1, if needsReset e.2 then resetJobView e.2 else e.2)

/-! ## Package pipeline

The sources of package pipeline are not part of the material; what follows is
modelled from the specification (§3, §4.A to §4.C) and from the calls and
assertions of `workflow_test.go`. -/

/-- Modelled from the spec: splitting of a comma-joined list of step names
(§6: deps is a list or comma-joined string of step names); blanks are dropped. -/
def splitDeps : List Char → List Char → List String
  | [], cur => [String.mk cur.reverse]
  | c :: cs, cur =>
    if c = ',' then String.mk cur.reverse :: splitDeps cs []
    else if c = ' ' then splitDeps cs cur
    else splitDeps cs (c :: cur)

/-- Modelled from the spec: method `GetDeps` of a step, the list of the steps
it depends on (§3: dependency list; §6: comma-joined string). -/
def WorkflowSourceStep.GetDeps (step : WorkflowSourceStep) : List String :=
  (splitDeps step.Deps.data []).filter (fun d => d ≠ "")

/-- Modelled from the spec: the dependency list of the step called `name`
(§3); empty when there is no such step. -/
def stepDeps (entrypoints : List (String × WorkflowSourceStep)) (name : String) : List String :=
  match mapGet entrypoints name with
  | some step => step.GetDeps
  | none => []

/-- A dependency edge of the graph of `entrypoints`: step `a` lists `b` in its
dependencies and `b` is a step. -/
def DependsOn (entrypoints : List (String × WorkflowSourceStep)) (a b : String) : Prop :=
  b ∈ stepDeps entrypoints a ∧ b ∈ mapKeys entrypoints

instance (entrypoints : List (String × WorkflowSourceStep)) (a b : String) :
    Decidable (DependsOn entrypoints a b) :=
  inferInstanceAs (Decidable (_ ∧ _))

/-- The dependency graph has no cycle. -/
def Acyclic (entrypoints : List (String × WorkflowSourceStep)) : Prop :=
  ∀ name, ¬ Relation.TransGen (DependsOn entrypoints) name name

/-- Modelled from the spec: lexicographic order on the characters of two step
names (§4.C: ties are broken by lexicographic step name). -/
def nameLt : List Char → List Char → Bool
  | _, [] => false
  | [], _ :: _ => true
  | a :: as, b :: bs =>
    if a.toNat < b.toNat then true else if b.toNat < a.toNat then false else nameLt as bs

/-- Modelled from the spec: insertion of a step name in a list of names in
lexicographic order (§4.C). -/
def insertName (name : String) : List String → List String
  | [] => [name]
  | m :: rest => if nameLt m.data name.data then m :: insertName name rest else name :: m :: rest

/-- Modelled from the spec: the step names in lexicographic order (§4.C: ties
are broken by lexicographic step name). -/
def sortNames : List String → List String
  | [] => []
  | name :: rest => insertName name (sortNames rest)

/-- Modelled from the spec: a step can be emitted by Kahn's algorithm when none
of its dependencies is among the steps still to emit (§4.C step 3). -/
def stepReady (entrypoints : List (String × WorkflowSourceStep)) (remaining : List String)
    (name : String) : Bool :=
  (stepDeps entrypoints name).all (fun d => !remaining.contains d)

/-- Modelled from the spec: a step that takes part in a cycle (§4.C: a cycle
yields CycleDetected naming one participating step), found by following
dependencies that are still to emit. -/
def cycleStep (entrypoints : List (String × WorkflowSourceStep)) (remaining : List String) :
    Nat → String → String
  | 0, name => name
  | n + 1, name =>
    match (stepDeps entrypoints name).find? (fun d => remaining.contains d) with
    | some d => cycleStep entrypoints remaining n d
    | none => name

/-- Modelled from the spec: the rounds of Kahn's algorithm (§4.C step 3): each
round emits the first step in lexicographic order that is ready; when no step
is ready there is a cycle. -/
def topologicalSortRounds (entrypoints : List (String × WorkflowSourceStep)) :
    Nat → List String → List String → List String × Option GoError
  | 0, _, sorted => (sorted, none)
  | n + 1, remaining, sorted =>
    match remaining.find? (stepReady entrypoints remaining) with
    | none =>
      ([], some ⟨"CycleDetected: step[" ++
        cycleStep entrypoints remaining remaining.length (remaining.headD "") ++
        "] is part of a dependency cycle"⟩)
    | some name =>
      topologicalSortRounds entrypoints n (remaining.erase name) (sorted ++ [name])

/-- Modelled from the spec: method `topologicalSort` of BaseWorkflow (§4.C
step 3), called in `workflow_test.go` with the entry points of the source:
Kahn's algorithm on the dependency edges, one round per step. -/
def topologicalSort (entrypoints : List (String × WorkflowSourceStep)) :
    List String × Option GoError :=
  topologicalSortRounds entrypoints entrypoints.length (sortNames (mapKeys entrypoints)) []

/-- Modelled from the spec: one round of the closure of a set of steps under
dependencies (§3 invariant 5), kept in the order of `names`. -/
def closureRound (entrypoints : List (String × WorkflowSourceStep)) (names acc : List String) :
    List String :=
  names.filter (fun s => decide (s ∈ acc) || acc.any (fun a => decide (s ∈ stepDeps entrypoints a)))

/-- Modelled from the spec: `n` rounds of the closure under dependencies. -/
def closureRounds (entrypoints : List (String × WorkflowSourceStep)) (names : List String) :
    Nat → List String → List String
  | 0, acc => acc
  | n + 1, acc => closureRounds entrypoints names n (closureRound entrypoints names acc)

/-- Modelled from the spec: the step `entry` together with the steps it
depends on, directly or through other steps (§3 invariant 5: the closure of the
entry step); one round per step suffices. -/
def upstreamClosure (entrypoints : List (String × WorkflowSourceStep)) (entry : String) :
    List String :=
  closureRounds entrypoints (mapKeys entrypoints) entrypoints.length
    ((mapKeys entrypoints).filter (fun s => decide (s = entry)))

/-- The fields of `BaseWorkflow` that `workflow_test.go` sets and reads, and
the run id that `NewBaseWorkflow` receives. -/
structure BaseWorkflow where
  Name : String := ""
  Desc : String := ""
  RunID : String := ""
  Entry : String := ""
  Source : WorkflowSource := {}
  Params : List (String × ParamValue) := []
  Extra : List (String × String) := []
deriving DecidableEq, Repr

/-- Modelled from the spec: function `NewBaseWorkflow(wfs, runID, entry,
params, extra)`, as `workflow_test.go` calls it. -/
def NewBaseWorkflow (wfs : WorkflowSource) (runID entry : String)
    (params : List (String × ParamValue)) (extra : List (String × String)) : BaseWorkflow :=
  { Name := wfs.Name
    Desc := wfs.Desc
    RunID := runID
    Entry := entry
    Source := wfs
    Params := params
    Extra := extra }

/-- Modelled from the spec: method `getRunSteps` of BaseWorkflow (§4.C step 2):
all the steps, or, with an entry, the entry and the steps it depends on. -/
def getRunSteps (bwf : BaseWorkflow) : List (String × WorkflowSourceStep) :=
  if bwf.Entry = "" then bwf.Source.EntryPoints
  else bwf.Source.EntryPoints.filter
    (fun e => decide (e.1 ∈ upstreamClosure bwf.Source.EntryPoints bwf.Entry))

/-- Modelled from the spec: the state of a step of a runtime (§4.D), as
`workflow_test.go` reads it. -/
structure Step where
  info : WorkflowSourceStep := {}
  done : Bool := false
  submitted : Bool := false
deriving DecidableEq, Repr

/-- Modelled from the spec: the step map that `newWorkflowRuntime` builds, one
step of the runtime for each run step (§4.E). -/
def newWorkflowRuntimeSteps (bwf : BaseWorkflow) : List (String × Step) :=
  (getRunSteps bwf).map (fun e => (e.1, { info := e.2 }))

/-- Modelled from the spec: the fixed set of system variables (§3). -/
def SysParamNames : List String :=
  ["PF_RUN_ID", "PF_FS_ID", "PF_FS_NAME", "PF_USER_NAME", "PF_STEP_NAME"]

/-- Modelled from the spec: a character of the class `[A-Za-z0-9_]` (§3 invariant 1). -/
def isNameChar (c : Char) : Bool :=
  (decide (65 ≤ c.toNat) && decide (c.toNat ≤ 90)) ||
    (decide (97 ≤ c.toNat) && decide (c.toNat ≤ 122)) ||
    (decide (48 ≤ c.toNat) && decide (c.toNat ≤ 57)) || decide (c.toNat = 95)

/-- Modelled from the spec: the pattern `[A-Za-z0-9_]+` of step, parameter and
env names (§3 invariant 1). -/
def checkName (name : String) : Bool :=
  !name.data.isEmpty && name.data.all isNameChar

/-- Modelled from the spec: a character of a path value, `[A-Za-z0-9_/\-.]` (§3). -/
def isPathChar (c : Char) : Bool :=
  isNameChar c || decide (c.toNat = 47) || decide (c.toNat = 45) || decide (c.toNat = 46)

/-- Modelled from the spec: a white space character, the WS of the reference
pattern (§3): a blank, a tab, a line feed, a vertical tab, a form feed or a
carriage return. -/
def isBlank (c : Char) : Bool :=
  decide (c.toNat = 32) || (decide (9 ≤ c.toNat) && decide (c.toNat ≤ 13))

/-- Modelled from the spec: a character of the name of a reference (§3): the
name is a system variable or `step.param`, made of the characters of names
(§3 invariant 1) and of dots. -/
def isRefChar (c : Char) : Bool :=
  isNameChar c || decide (c.toNat = 46)

/-- Modelled from the spec: the reference pattern `\x7b\x7b WS name WS \x7d\x7d`
(§3): the text `value` holds a reference to `name` when it holds two opening
braces, white space or none, the name, white space or none, and two closing
braces, one after the other. -/
def IsReference (value name : List Char) : Prop :=
  ∃ pre ws1 ws2 post,
    value = pre ++ '\x7b' :: '\x7b' :: (ws1 ++ (name ++ (ws2 ++ '\x7d' :: '\x7d' :: post))) ∧
    (∀ c ∈ ws1, isBlank c = true) ∧ (∀ c ∈ ws2, isBlank c = true) ∧
    name ≠ [] ∧ ∀ c ∈ name, isRefChar c = true

/-- Modelled from the spec: the states of the scan of a string for references
(§3, parameter reference pattern): outside a reference, after one opening
brace, right after two opening braces, in the white space after them, in the
name, in the white space after the name, and after one closing brace.  The
states in and after the name hold the name read so far, last character
first. -/
inductive RefScan where
  | text
  | brace
  | opened
  | blank
  | name (acc : List Char)
  | after (acc : List Char)
  | close (acc : List Char)
deriving DecidableEq, Repr

/-- Modelled from the spec: the references of a string (§3), found in one pass
(§9, textual reference substitution), in the order they occur.  When a
character does not continue the pattern, the scan goes on from the opening
braces that could still start a reference: both of them when a third opening
brace follows two, the brace just read otherwise. -/
def scanRefs : RefScan → List Char → List String
  | _, [] => []
  | RefScan.text, c :: cs =>
    if c = '\x7b' then scanRefs RefScan.brace cs else scanRefs RefScan.text cs
  | RefScan.brace, c :: cs =>
    if c = '\x7b' then scanRefs RefScan.opened cs else scanRefs RefScan.text cs
  | RefScan.opened, c :: cs =>
    if c = '\x7b' then scanRefs RefScan.opened cs
    else if isBlank c then scanRefs RefScan.blank cs
    else if isRefChar c then scanRefs (RefScan.name [c]) cs
    else scanRefs RefScan.text cs
  | RefScan.blank, c :: cs =>
    if c = '\x7b' then scanRefs RefScan.brace cs
    else if isBlank c then scanRefs RefScan.blank cs
    else if isRefChar c then scanRefs (RefScan.name [c]) cs
    else scanRefs RefScan.text cs
  | RefScan.name acc, c :: cs =>
    if c = '\x7b' then scanRefs RefScan.brace cs
    else if isRefChar c then scanRefs (RefScan.name (c :: acc)) cs
    else if isBlank c then scanRefs (RefScan.after acc) cs
    else if c = '\x7d' then scanRefs (RefScan.close acc) cs
    else scanRefs RefScan.text cs
  | RefScan.after acc, c :: cs =>
    if c = '\x7b' then scanRefs RefScan.brace cs
    else if isBlank c then scanRefs (RefScan.after acc) cs
    else if c = '\x7d' then scanRefs (RefScan.close acc) cs
    else scanRefs RefScan.text cs
  | RefScan.close acc, c :: cs =>
    if c = '\x7b' then scanRefs RefScan.brace cs
    else if c = '\x7d' then String.mk acc.reverse :: scanRefs RefScan.text cs
    else scanRefs RefScan.text cs

/-- The text read so far in a state of the scan: the part of the reference
pattern that the state stands for ends the text. -/
def Pending : RefScan → List Char → Prop
  | RefScan.text, _ => True
  | RefScan.brace, done => ∃ pre, done = pre ++ ['\x7b']
  | RefScan.opened, done => ∃ pre, done = pre ++ ['\x7b', '\x7b']
  | RefScan.blank, done =>
    ∃ pre ws, done = pre ++ '\x7b' :: '\x7b' :: ws ∧ ∀ c ∈ ws, isBlank c = true
  | RefScan.name acc, done =>
    ∃ pre ws, done = pre ++ '\x7b' :: '\x7b' :: (ws ++ acc.reverse) ∧
      (∀ c ∈ ws, isBlank c = true) ∧ acc ≠ [] ∧ ∀ c ∈ acc, isRefChar c = true
  | RefScan.after acc, done =>
    ∃ pre ws ws2, done = pre ++ '\x7b' :: '\x7b' :: (ws ++ (acc.reverse ++ ws2)) ∧
      (∀ c ∈ ws, isBlank c = true) ∧ (∀ c ∈ ws2, isBlank c = true) ∧
      acc ≠ [] ∧ ∀ c ∈ acc, isRefChar c = true
  | RefScan.close acc, done =>
    ∃ pre ws ws2, done = pre ++ '\x7b' :: '\x7b' :: (ws ++ (acc.reverse ++ (ws2 ++ ['\x7d']))) ∧
      (∀ c ∈ ws, isBlank c = true) ∧ (∀ c ∈ ws2, isBlank c = true) ∧
      acc ≠ [] ∧ ∀ c ∈ acc, isRefChar c = true

/-- Modelled from the spec: the references of a string value (§3). -/
def refsOf (value : String) : List String :=
  scanRefs RefScan.text value.data

/-- Modelled from the spec: splitting of `step.param` at the first dot (§3);
`none` when there is no dot. -/
def splitAtDot : List Char → List Char → Option (String × String)
  | [], _ => none
  | c :: cs, acc => if c = '.' then some (String.mk acc.reverse, String.mk cs) else splitAtDot cs (c :: acc)

/-- Modelled from the spec: the cross-step part of a reference (§3): for
`step.param` with a step name, the step and the name it refers to. -/
def crossRef (ref : String) : Option (String × String) :=
  match splitAtDot ref.data [] with
  | some (step, param) => if step = "" then none else some (step, param)
  | none => none

/-- Modelled from the spec: the cross-step references of a string value (§3). -/
def crossRefsOf (value : String) : List (String × String) :=
  (refsOf value).filterMap crossRef

/-- Modelled from the spec: the text `value` holds a cross-step reference to
`s.p` (§3): a reference whose name is the step name `s`, a dot, and `p`. -/
def IsCrossReference (value s p : String) : Prop :=
  s ≠ "" ∧ '.' ∉ s.data ∧ IsReference value.data (s.data ++ '.' :: p.data)

/-- Modelled from the spec: step `s` is a transitive dependency of step `t`
(§3 invariant 3), decided on the closure of `t`. -/
def isUpstream (steps : List (String × WorkflowSourceStep)) (t s : String) : Bool :=
  decide (s ≠ t) && decide (s ∈ upstreamClosure steps t)

/-- Modelled from the spec: the text of a reference to `name`, as it is written
in a source (§3). -/
def refText (name : String) : String :=
  "\x7b\x7b " ++ name ++ " \x7d\x7d"

/-- Modelled from the spec: the text of a parameter value in an error message. -/
def ParamScalar.text : ParamScalar → String
  | ParamScalar.str s => s
  | ParamScalar.num literal => literal

/-- Modelled from the spec: the check of a DictParam (§3, §4.B coerceDict): the
type is one of string, float and path, and the default is present and fits the
type; the result is the default.  The order of the checks and the texts of the
errors follow the assertions of `TestValidateWorkflow__DictParam`. -/
def checkDictParam (name type : String) (default : Option ParamScalar) :
    ParamScalar × Option GoError :=
  if type = "" then
    (ParamScalar.str "", some ⟨"type[] is not supported for dict param[name: " ++ name ++ "]"⟩)
  else
    match default with
    | none =>
      (ParamScalar.str "", some ⟨"invalid value[<nil>] in dict param[name: " ++ name ++ "]"⟩)
    | some (ParamScalar.str "") =>
      (ParamScalar.str "", some ⟨"invalid value[] in dict param[name: " ++ name ++ "]"⟩)
    | some v =>
      if type = "string" then
        match v with
        | ParamScalar.str _ => (v, none)
        | ParamScalar.num _ =>
          (v, some ⟨"the type of parameter[" ++ v.text ++ "] should be string"⟩)
      else if type = "float" then
        match v with
        | ParamScalar.num _ => (v, none)
        | ParamScalar.str _ =>
          (v, some ⟨"the type of parameter[" ++ v.text ++ "] should be float"⟩)
      else if type = "path" then
        match v with
        | ParamScalar.str p =>
          if p.data.all isPathChar then (v, none)
          else (v, some ⟨"invalid path value[" ++ p ++ "] in parameter[" ++ name ++ "]"⟩)
        | ParamScalar.num _ =>
          (v, some ⟨"the type of parameter[" ++ v.text ++ "] should be path"⟩)
      else
        (v, some ⟨"type[" ++ type ++ "] is not supported for dict param[name: " ++ name ++ "]"⟩)

/-- Modelled from the spec: normalization of the parameters of a step (§4.C
step 4): a DictParam is replaced by its default, a direct value is kept. -/
def normalizeParams : List (String × ParamValue) → List (String × ParamValue) × Option GoError
  | [] => ([], none)
  | (name, ParamValue.direct v) :: rest =>
    match normalizeParams rest with
    | (_, some err) => ([], some err)
    | (out, none) => ((name, ParamValue.direct v) :: out, none)
  | (name, ParamValue.dict type default) :: rest =>
    match checkDictParam name type default with
    | (_, some err) => ([], some err)
    | (v, none) =>
      match normalizeParams rest with
      | (_, some err) => ([], some err)
      | (out, none) => ((name, ParamValue.direct v) :: out, none)

/-- Modelled from the spec: the check of one reference of a parameter of step
`t` (§3 invariants 3 and 4): a system variable of the fixed set, or a declared
parameter of a transitive dependency of `t`. -/
def checkParamRef (steps : List (String × WorkflowSourceStep)) (t ref : String) : Option GoError :=
  match splitAtDot ref.data [] with
  | none =>
    if ref ∈ SysParamNames then none
    else some ⟨"unsupported SysParamName[" ++ ref ++ "] for param[" ++ refText ref ++ "]"⟩
  | some (s, p) =>
    if s = "" then
      if p ∈ SysParamNames then none
      else some ⟨"unsupported SysParamName[" ++ p ++ "] for param[" ++ refText ref ++ "]"⟩
    else
      match mapGet steps s with
      | some step =>
        if isUpstream steps t s && decide (p ∈ mapKeys step.Parameters) then none
        else some ⟨"invalid parameters reference " ++ refText ref ++ " in step " ++ t⟩
      | none => some ⟨"invalid parameters reference " ++ refText ref ++ " in step " ++ t⟩

/-- Modelled from the spec: the check of one reference of an input artifact of
step `t` (§3 invariant 3): an output artifact of a transitive dependency of `t`. -/
def checkInputRef (steps : List (String × WorkflowSourceStep)) (t ref : String) : Option GoError :=
  match splitAtDot ref.data [] with
  | none => some ⟨"unsupported RefParamName[" ++ ref ++ "] for param[" ++ refText ref ++ "]"⟩
  | some (s, p) =>
    if s = "" then
      some ⟨"unsupported RefParamName[" ++ p ++ "] for param[" ++ refText ref ++ "]"⟩
    else
      match mapGet steps s with
      | some step =>
        if isUpstream steps t s && decide (p ∈ mapKeys step.Artifacts.Output) then none
        else some ⟨"invalid inputArtifacts reference " ++ refText ref ++ " in step " ++ t⟩
      | none => some ⟨"invalid inputArtifacts reference " ++ refText ref ++ " in step " ++ t⟩

/-- Modelled from the spec: the check of one reference of an output artifact
(§4.C step 5): output artifacts cannot refer to upstream artifacts. -/
def checkOutputRef (ref : String) : Option GoError :=
  match splitAtDot ref.data [] with
  | none => some ⟨"unsupported RefParamName[" ++ ref ++ "] for param[" ++ refText ref ++ "]"⟩
  | some (_, _) => some ⟨"output artifact[" ++ refText ref ++ "] cannot refer upstream artifact"⟩

/-- Modelled from the spec: the first error of a check over a list (§7: a
validation error is returned to the caller as soon as it is found). -/
def firstError {α : Type} (check : α → Option GoError) : List α → Option GoError
  | [] => none
  | a :: rest =>
    match check a with
    | some err => some err
    | none => firstError check rest

/-- Modelled from the spec: the string of a parameter value in which
references are looked for (§4.B); a number holds none. -/
def ParamValue.refString : ParamValue → String
  | ParamValue.direct (ParamScalar.str s) => s
  | _ => ""

/-- Modelled from the spec: the checks of one step (§4.C steps 4 and 5): the
format of its name and of the names of its parameters and env, the
normalization of its DictParams, the references of its normalized parameters
and of its input artifacts, and its output artifacts. -/
def checkStep (steps : List (String × WorkflowSourceStep)) (t : String)
    (step : WorkflowSourceStep) : Option GoError :=
  if !checkName t then
    some ⟨"format of stepName[" ++ t ++ "] incorrect, should be in [a-zA-z0-9_]"⟩
  else
    match firstError (fun k => if checkName k then none else
        some ⟨"format of parameters[" ++ k ++ "] in step[" ++ t ++
          "] incorrect, should be in [a-zA-z0-9_]"⟩) (mapKeys step.Parameters) with
    | some err => some err
    | none =>
      match firstError (fun k => if checkName k then none else
          some ⟨"format of env[" ++ k ++ "] in step[" ++ t ++
            "] incorrect, should be in [a-zA-z0-9_]"⟩) (mapKeys step.Env) with
      | some err => some err
      | none =>
        match normalizeParams step.Parameters with
        | (_, some err) => some err
        | (params, none) =>
          match firstError (checkParamRef steps t)
              (params.flatMap (fun kv => refsOf kv.2.refString)) with
          | some err => some err
          | none =>
            match firstError (checkInputRef steps t)
                (step.Artifacts.Input.flatMap (fun kv => refsOf kv.2)) with
            | some err => some err
            | none =>
              firstError checkOutputRef (step.Artifacts.Output.flatMap (fun kv => refsOf kv.2))

/-- Modelled from the spec: the checks of the run steps in topological order
(§4.C steps 4 and 5); the first error ends them. -/
def checkSteps (steps : List (String × WorkflowSourceStep)) (order : List String) :
    Option GoError :=
  firstError (fun t =>
    match mapGet steps t with
    | some step => checkStep steps t step
    | none => none) order

/-- Modelled from the spec: a step with its DictParams replaced by their
defaults (§4.C step 4). -/
def normalizeStep (step : WorkflowSourceStep) : WorkflowSourceStep :=
  match normalizeParams step.Parameters with
  | (params, none) => { step with Parameters := params }
  | (_, some _) => step

/-- Modelled from the spec: the assignment of `value` to parameter `paramName`
of step `stepName` (§4.C step 1). -/
def setStepParam (entrypoints : List (String × WorkflowSourceStep)) (stepName paramName : String)
    (value : ParamValue) : List (String × WorkflowSourceStep) :=
  match mapGet entrypoints stepName with
  | some step =>
    mapSet entrypoints stepName { step with Parameters := mapSet step.Parameters paramName value }
  | none => entrypoints

/-- Modelled from the spec: one parameter override (§4.C step 1, §3 invariant
6): a key `step.name` sets that parameter of that step, which must be
declared; a bare name must match the declared parameter of exactly one step of
the whole source. -/
def replaceRunParam (entrypoints : List (String × WorkflowSourceStep)) (key : String)
    (value : ParamValue) : List (String × WorkflowSourceStep) × Option GoError :=
  match splitAtDot key.data [] with
  | some (stepName, paramName) =>
    match mapGet entrypoints stepName with
    | some step =>
      if paramName ∈ mapKeys step.Parameters then
        (setStepParam entrypoints stepName paramName value, none)
      else
        (entrypoints, some ⟨"param[" ++ key ++ "] does not exist in source"⟩)
    | none => (entrypoints, some ⟨"param[" ++ key ++ "] does not exist in source"⟩)
  | none =>
    match (mapKeys entrypoints).filter (fun stepName =>
        match mapGet entrypoints stepName with
        | some step => decide (key ∈ mapKeys step.Parameters)
        | none => false) with
    | [] => (entrypoints, some ⟨"param[" ++ key ++ "] does not exist in source"⟩)
    | [stepName] => (setStepParam entrypoints stepName key value, none)
    | _ :: _ :: _ =>
      (entrypoints, some ⟨"param[" ++ key ++ "] matches more than one step"⟩)

/-- Modelled from the spec: the parameter overrides of a request, applied one
after the other (§4.C step 1); the first error ends them. -/
def replaceRunParams (entrypoints : List (String × WorkflowSourceStep)) :
    List (String × ParamValue) → List (String × WorkflowSourceStep) × Option GoError
  | [] => (entrypoints, none)
  | (key, value) :: rest =>
    match replaceRunParam entrypoints key value with
    | (_, some err) => (entrypoints, some err)
    | (entrypoints1, none) => replaceRunParams entrypoints1 rest

/-- A workflow with other entry points. -/
def BaseWorkflow.withEntryPoints (bwf : BaseWorkflow)
    (entrypoints : List (String × WorkflowSourceStep)) : BaseWorkflow :=
  { bwf with Source := { bwf.Source with EntryPoints := entrypoints } }

/-- Modelled from the spec: the checks of `validate` that follow the parameter
overrides (§4.C steps 2 to 5): the run steps are selected, sorted, and checked
in that order. -/
def validateRunSteps (bwf : BaseWorkflow) : Option GoError :=
  match topologicalSort (getRunSteps bwf) with
  | (_, some err) => some err
  | (order, none) => checkSteps (getRunSteps bwf) order

/-- Modelled from the spec: method `validate` of BaseWorkflow (§4.C): the
parameter overrides are applied to the source, then the run steps are checked;
when there is no error the run steps keep their normalized parameters.  The
result is the workflow after the call and the error. -/
def validate (bwf : BaseWorkflow) : BaseWorkflow × Option GoError :=
  match replaceRunParams bwf.Source.EntryPoints bwf.Params with
  | (_, some err) => (bwf, some err)
  | (entrypoints, none) =>
    match validateRunSteps (bwf.withEntryPoints entrypoints) with
    | some err => (bwf.withEntryPoints entrypoints, some err)
    | none =>
      (bwf.withEntryPoints (entrypoints.map (fun e =>
        if e.1 ∈ mapKeys (getRunSteps (bwf.withEntryPoints entrypoints)) then
          (e.1, normalizeStep e.2)
        else e)), none)

/-- The source of the scenarios of the spec (§8): the three steps
data_preprocess, main and validate, each depending on the one before. -/
def sampleSource : WorkflowSource :=
  { Name := "myproject"
    DockerEnv := "images/training.tgz"
    EntryPoints :=
      [("data_preprocess",
        { Command := "python data_preprocess.py"
          Parameters :=
            [("data_path", ParamValue.direct (ParamScalar.str "./LINK/mybos_dir/data")),
             ("process_data_file", ParamValue.direct (ParamScalar.str "./data/pre"))]
          Env := [("PF_JOB_QUEUE", "CPU-32G")]
          Artifacts := { Output := [("train_data", "/path/to/train"),
                                    ("validate_data", "/path/to/validate")] } }),
       ("main",
        { Command := "python train.py"
          Deps := "data_preprocess"
          Parameters :=
            [("data_file",
               ParamValue.direct (ParamScalar.str "\x7b\x7b data_preprocess.process_data_file \x7d\x7d")),
             ("model", ParamValue.direct (ParamScalar.str "./data/model")),
             ("p3", ParamValue.dict "string" (some (ParamScalar.str "dictparam"))),
             ("p4", ParamValue.dict "float" (some (ParamScalar.num "0.66"))),
             ("p5", ParamValue.dict "path" (some (ParamScalar.str "/path/to/anywhere")))]
          Artifacts :=
            { Input := [("train_data", "\x7b\x7b data_preprocess.train_data \x7d\x7d")]
              Output := [("train_model", "/path/to/model")] } }),
       ("validate",
        { Command := "python validate.py"
          Deps := "main"
          Parameters :=
            [("report_name", ParamValue.direct (ParamScalar.str "report")),
             ("refSystem", ParamValue.direct (ParamScalar.str "\x7b\x7b PF_RUN_ID \x7d\x7d")),
             ("model_path", ParamValue.direct (ParamScalar.str "\x7b\x7b main.model \x7d\x7d"))]
          Artifacts := { Input := [("model", "\x7b\x7b main.train_model \x7d\x7d")] } })] }

/-- The sample source with another value of parameter `paramName` of step `stepName`. -/
def sampleSourceWith (stepName paramName value : String) : WorkflowSource :=
  { sampleSource with
    EntryPoints := match mapGet sampleSource.EntryPoints stepName with
      | some step =>
        mapSet sampleSource.EntryPoints stepName
          { step with
            Parameters := mapSet step.Parameters paramName (ParamValue.direct (ParamScalar.str value)) }
      | none => sampleSource.EntryPoints }

/-- The sample source with the dependency that closes a cycle: data_preprocess depends on validate. -/
def sampleCircleSource : WorkflowSource :=
  { sampleSource with
    EntryPoints := match mapGet sampleSource.EntryPoints "data_preprocess" with
      | some step => mapSet sampleSource.EntryPoints "data_preprocess" { step with Deps := "validate" }
      | none => sampleSource.EntryPoints }

/-! ## A concrete environment -/

/-- A failed run of alice with a step that is still running. -/
def sampleStuckRun : Run :=
  { ID := "run-000005"
    UserName := "alice"
    Status := StatusRunFailed
    Runtime :=
      [("data_preprocess", { JobID := "job-1", Status := StatusJobSucceeded }),
       ("main", { JobID := "job-2", Status := StatusJobRunning })] }

/-- The job view of a failed step. -/
def sampleFailedJob : JobView :=
  { JobID := "job-2"
    Status := StatusJobFailed
    StartTime := "2021-12-01 10:00:00"
    EndTime := "2021-12-01 10:05:00"
    CacheRunID := "run-000001" }

/-- A failed run of alice whose step main failed. -/
def sampleFailedRun : Run :=
  { ID := "run-000003"
    UserName := "alice"
    Status := StatusRunFailed
    Runtime :=
      [("data_preprocess", { JobID := "job-1", Status := StatusJobSucceeded }),
       ("main", sampleFailedJob)] }

/-- A small persistence fixture: runs owned by alice. -/
def sampleRuns : List (String × Run) :=
  [("run-000001", { ID := "run-000001", UserName := "alice", Status := StatusRunRunning }),
   ("run-000002", { ID := "run-000002", UserName := "alice", Status := StatusRunSucceeded }),
   ("run-000003", sampleFailedRun),
   ("run-000005", sampleStuckRun)]

/-- An environment in which every collaborator succeeds. -/
def sampleEnv : Env where
  IsRootUser := fun u => u == "root"
  CheckReg := fun _ _ => true
  RegPatternRunName := "^[A-Za-z_][A-Za-z0-9_]+$"
  MalformedJSON := "MalformedJSON"
  ResourceTypeRun := "run"
  ResourceTypePipeline := "pipeline"
  WfExtraInfoKeySource := "Source"
  WfExtraInfoKeyFsID := "FsID"
  WfExtraInfoKeyUserName := "UserName"
  WfExtraInfoKeyFsName := "FsName"
  NotFoundError := fun _ id => ⟨"not found " ++ id⟩
  NoAccessError := fun u _ id => ⟨"no access " ++ u ++ " " ++ id⟩
  InvalidNamePatternError := fun n _ _ => ⟨"invalid name " ++ n⟩
  isErrRecordNotFound := fun e => e.msg == "record not found"
  fs_ID := fun u n => "fs-" ++ u ++ "-" ++ n
  base64_DecodeString := fun s => (s, none)
  GetMD5Hash := fun s => "md5:" ++ s
  yaml_Unmarshal := fun y => ({ Name := y }, none)
  Run_Encode := fun r => (r, none)
  NeedHandleImage := fun _ => false
  FsServerHost := "localhost"
  FsServerPort := 8999
  models_GetRunByID := fun _ id =>
    match mapGet sampleRuns id with
    | some r => (r, none)
    | none => ({}, some ⟨"record not found"⟩)
  models_UpdateRunStatus := fun _ _ _ => none
  models_UpdateRun := fun _ _ _ => none
  models_DeleteRun := fun _ _ => none
  models_CreateRun := fun _ r => ({ r with ID := "run-000004" }, "run-000004", none)
  models_GetPipelineByID := fun _ id => ({ ID := id, UserName := "alice", PipelineYaml := "ppl" }, none)
  models_ListImageIDsByFsID := fun _ _ => ([], none)
  updateRunStatusAndMsg := fun _ _ _ _ => none
  handler_ReadFileFromFs := fun _ _ path => ("file:" ++ path, none)
  handler_HandleImage := fun _ _ _ _ _ _ _ => none
  pipeline_NewWorkflow := fun calls _ _ _ _ _ => (some calls.length, none)
  Workflow_SetWorkflowRuntime := fun _ _ _ => none
  InvalidMarker := "InvalidMarker"
  RunActiveStatus := [StatusRunInitiating, StatusRunPending, StatusRunRunning, StatusRunTerminating]
  DecryptPk := fun m => (m.length, none)
  EncryptPk := fun pk => ("marker-" ++ toString pk, none)
  isDbRecordNotFound := fun e => e.msg == "record not found"
  models_ListRun := fun _ _ _ users _ _ _ =>
    ((sampleRuns.map Prod.snd).filter (fun r => users.isEmpty || users.contains r.UserName), none)
  models_GetLastRun := fun _ => (sampleStuckRun, none)
  models_ListRunsByStatus := fun _ _ => ([], none)
  handler_InitPFImageHandler := fun _ => (some 1, none)

/-- The sample environment with a name check that rejects every name. -/
def sampleEnvBadName : Env :=
  { sampleEnv with CheckReg := fun _ _ => false }

/-- The sample environment with a runtime that refuses every runtime view. -/
def sampleEnvBadRuntime : Env :=
  { sampleEnv with Workflow_SetWorkflowRuntime := fun _ _ _ => some ⟨"invalid runtime view"⟩ }

/-- A run of alice that was running when the server stopped. -/
def sampleActiveRun : Run :=
  { ID := "run-000006"
    UserName := "alice"
    FsID := "fs-alice-home"
    Status := StatusRunRunning
    WorkflowSource := { Name := "demo", DockerEnv := "images/demo:1" }
    Runtime := [("data_preprocess", { JobID := "job-1", Status := StatusJobSucceeded })] }

/-- The sample environment with a YAML parser that rejects the text `bad`. -/
def sampleEnvBadYaml : Env :=
  { sampleEnv with
    yaml_Unmarshal := fun y => if y = "bad" then ({}, some ⟨"yaml: bad"⟩) else ({ Name := y }, none) }

/-- An active run whose stored YAML does not parse. -/
def sampleBrokenRun : Run :=
  { ID := "run-000007"
    UserName := "alice"
    Status := StatusRunPending
    RunYaml := "bad" }

/-- The step main of the sample source with a parameter whose name is not well formed. -/
def sampleWrongParamStep : WorkflowSourceStep :=
  { Command := "python train.py"
    Deps := "data_preprocess"
    Parameters := [("invalid-name", ParamValue.direct (ParamScalar.str "xxx"))] }

/-- The step validate of the sample source. -/
def sampleValidateStep : WorkflowSourceStep :=
  { Command := "python validate.py"
    Deps := "main"
    Parameters :=
      [("report_name", ParamValue.direct (ParamScalar.str "report")),
       ("refSystem", ParamValue.direct (ParamScalar.str "\x7b\x7b PF_RUN_ID \x7d\x7d")),
       ("model_path", ParamValue.direct (ParamScalar.str "\x7b\x7b main.model \x7d\x7d"))]
    Artifacts := { Input := [("model", "\x7b\x7b main.train_model \x7d\x7d")] } }

/-- The sample source in which step main refers to a parameter of step validate. -/
def sampleDownstreamRefSource : WorkflowSource :=
  sampleSourceWith "main" "invalidRef" "\x7b\x7b validate.refSystem \x7d\x7d"

/-- The step main of the sample source in which it refers to step validate. -/
def sampleDownstreamRefStep : WorkflowSourceStep :=
  match mapGet sampleDownstreamRefSource.EntryPoints "main" with
  | some step => step
  | none => {}

/-- The sample source in which step main refers to a step that does not
exist, after three opening braces and with tabs as white space. -/
def sampleUnknownRefSource : WorkflowSource :=
  sampleSourceWith "main" "invalidRef" "\x7b\x7b\x7b\tnosuchstep.p\t\x7d\x7d"

/-- The step main of the sample source in which it refers to a step that does not exist. -/
def sampleUnknownRefStep : WorkflowSourceStep :=
  match mapGet sampleUnknownRefSource.EntryPoints "main" with
  | some step => step
  | none => {}

/-- The sample environment with a persistence that refuses every status update. -/
def sampleEnvBadUpdate : Env :=
  { sampleEnv with models_UpdateRunStatus := fun _ _ _ => some ⟨"db is down"⟩ }

/-- The sample environment with a persistence whose listing fails after it
has read two runs. -/
def sampleEnvBadList : Env :=
  { sampleEnv with
    models_ListRun := fun _ _ _ _ _ _ _ =>
      ([{ Pk := 1, ID := "run-000001", UserName := "alice" },
        { Pk := 2, ID := "run-000002", UserName := "alice" }], some ⟨"db is down"⟩)
    models_GetLastRun := fun _ => ({ Pk := 2 }, none) }

/-! ## link.go and fs_handler.go -/

/-- The constants and functions of other packages that `checkLinkURLFormat`
and `checkLinkProperties` use. -/
structure LinkEnv where
  /-- Constant `fs.HDFS` of package `fs/server/utils/fs`. -/
  HDFS : String
  /-- Constant `fs.SFTP`. -/
  SFTP : String
  /-- Constant `fs.Local`. -/
  Local : String
  /-- Constant `fs.S3`. -/
  S3 : String
  /-- Constant `fs.S3SplitLen`. -/
  S3SplitLen : Nat
  /-- Constant `fs.S3EndpointSplit`. -/
  S3EndpointSplit : Nat
  /-- Constant `base.Bucket`. -/
  Bucket : String
  /-- Constant `base.KeyTabData`. -/
  KeyTabData : String
  /-- Constant `base.UserKey`. -/
  UserKey : String
  /-- Constant `base.Group`. -/
  Group : String
  /-- Constant `base.AccessKey`. -/
  AccessKey : String
  /-- Constant `base.SecretKey`. -/
  SecretKey : String
  /-- Constant `base.Endpoint`. -/
  Endpoint : String
  /-- Constant `base.Region`. -/
  Region : String
  /-- Constant `base.Password`. -/
  Password : String
  /-- Constant `apicommon.AESEncryptKey`. -/
  AESEncryptKey : String
  /-- Function `common.InvalidField`; the error it builds is never nil. -/
  InvalidField : String → String → GoError
  /-- Function `fs.CheckKerberosProperties`. -/
  CheckKerberosProperties : List (String × String) → Option GoError
  /-- Function `apicommon.AesEncrypt`. -/
  AesEncrypt : String → String → String × Option GoError

/-- Function `strings.Split(s, "/")` on the characters of `s`; `cur` holds the
segment that is being read, last character first. -/
def splitOnSlash : List Char → List Char → List String
  | [], cur => [String.mk cur.reverse]
  | c :: cs, cur =>
    if c = '/' then String.mk cur.reverse :: splitOnSlash cs [] else splitOnSlash cs (c :: cur)

/-- Function `strings.Split(url, "/")`. -/
def strings_Split_slash (url : String) : List String :=
  splitOnSlash url.data []

/-- Go map read `m[k]` of a `map[string]string`: the empty string when the key is absent. -/
def propGet (m : List (String × String)) (k : String) : String :=
  (mapGet m k).getD ""

/-- Function `checkLinkURLFormat`.  The properties are `none` for a nil map.
The result is `none` when the call panics on an index out of range, and
otherwise the error together with the properties after the call. -/
def checkLinkURLFormat (env : LinkEnv) (fsType url : String)
    (properties : Option (List (String × String))) :
    Option (Option GoError × Option (List (String × String))) :=
  let urlSplit := strings_Split_slash url
  if fsType = env.HDFS ∨ fsType = env.SFTP then
    if urlSplit.length < 4 then
      some (some (env.InvalidField "url" (fsType ++ " url format is wrong")), properties)
    else
      some (none, properties)
  else if fsType = env.Local then
    if urlSplit.length < 3 then
      some (some (env.InvalidField "url" (fsType ++ " address format is wrong")), properties)
    else
      match urlSplit.get? 2 with
      | none => none
      | some seg =>
        if seg = "" ∨ seg = "root" then
          some (some (env.InvalidField "url"
            (fsType ++ " path can not be empty or use root path")), properties)
        else
          some (none, properties)
  else if fsType = env.S3 then
    if urlSplit.length < env.S3SplitLen then
      some (some (env.InvalidField "url" (fsType ++ " url format is wrong")), properties)
    else
      match urlSplit.get? env.S3EndpointSplit with
      | none => none
      | some seg =>
        if seg = "" then
          some (some (env.InvalidField "url" (fsType ++ " must appoint bucket")), properties)
        else
          match properties with
          | none => some (some (env.InvalidField "properties" "must not be empty"), properties)
          | some props => some (none, some (mapSet props env.Bucket seg))
  else
    some (none, properties)

/-- Function `checkLinkProperties`, on the properties of a request that is not
nil (the empty list for a nil map: every assignment follows a read that finds
a key).  The result is the error and the properties after the call. -/
def checkLinkProperties (env : LinkEnv) (fsType : String) (props : List (String × String)) :
    Option GoError × List (String × String) :=
  if fsType = env.HDFS then
    if propGet props env.KeyTabData ≠ "" then
      match env.CheckKerberosProperties props with
      | some err => (some err, props)
      | none => (none, props)
    else if propGet props env.UserKey ≠ "" then
      if propGet props env.UserKey = "" then
        (some (env.InvalidField "properties" "key[user] cannot be empty"), props)
      else if propGet props env.Group = "" then
        (some (env.InvalidField "properties" "key[group] cannot be empty"), props)
      else
        (none, props)
    else
      (some (env.InvalidField "properties" "not correct hdfs properties"), props)
  else if fsType = env.Local then
    if propGet props "debug" ≠ "true" then
      (some (env.InvalidField "debug" "properties key[debug] must true"), props)
    else
      (none, props)
  else if fsType = env.S3 then
    if propGet props env.AccessKey = "" ∨ propGet props env.SecretKey = "" then
      (some (env.InvalidField "properties"
        ("key " ++ env.AccessKey ++ " or " ++ env.SecretKey ++ " is empty")), props)
    else if propGet props env.Endpoint = "" then
      (some (env.InvalidField "properties" "key[endpoint] is empty"), props)
    else if propGet props env.Bucket = "" then
      (some (env.InvalidField "properties" "url bucket is empty"), props)
    else
      let props1 := if propGet props env.Region = "" then mapSet props env.Region "" else props
      match env.AesEncrypt (propGet props1 env.SecretKey) env.AESEncryptKey with
      | (_, some err) => (some err, props1)
      | (encodedSk, none) => (none, mapSet props1 env.SecretKey encodedSk)
  else if fsType = env.SFTP then
    if propGet props env.UserKey = "" then
      (some (env.InvalidField env.UserKey "key[user] cannot be empty"), props)
    else if propGet props env.Password = "" then
      (some (env.InvalidField "properties" "key[password] cannot be empty"), props)
    else
      match env.AesEncrypt (propGet props env.Password) env.AESEncryptKey with
      | (_, some err) => (some err, props)
      | (encodePassword, none) => (none, mapSet props env.Password encodePassword)
  else
    (none, props)

/-- A link environment with the usual names of the file-system types. -/
def sampleLinkEnv : LinkEnv where
  HDFS := "hdfs"
  SFTP := "sftp"
  Local := "local"
  S3 := "s3"
  S3SplitLen := 3
  S3EndpointSplit := 2
  Bucket := "bucket"
  KeyTabData := "keyTabData"
  UserKey := "user"
  Group := "group"
  AccessKey := "accessKey"
  SecretKey := "secretKey"
  Endpoint := "endpoint"
  Region := "region"
  Password := "password"
  AESEncryptKey := "key"
  InvalidField := fun field msg => ⟨"invalid field " ++ field ++ ": " ++ msg⟩
  CheckKerberosProperties := fun _ => none
  AesEncrypt := fun text _ => ("enc:" ++ text, none)

/-- Struct `base.FSMeta`, with the fields that `getFSClient` sets; `Type_` is the field `Type`. -/
structure FSMeta where
  ID : String := ""
  Name : String := ""
  UfsType : String := ""
  ServerAddress : String := ""
  SubPath : String := ""
  Properties : List (String × String) := []
  Type_ : String := ""
deriving DecidableEq, Repr

/-- Struct `models.FileSystem`, with the fields that `getFSClient` reads; `Type_` is the field `Type`. -/
structure FileSystem where
  ID : String := ""
  Name : String := ""
  Type_ : String := ""
  ServerAddress : String := ""
  SubPath : String := ""
  PropertiesMap : List (String × String) := []
deriving DecidableEq, Repr

/-- Struct `models.Link`, with the fields that `getFSClient` reads; `Type_` is the field `Type`. -/
structure Link where
  ID : String := ""
  FsPath : String := ""
  Type_ : String := ""
  ServerAddress : String := ""
  SubPath : String := ""
  PropertiesMap : List (String × String) := []
deriving DecidableEq, Repr

/-- Struct `fs.PFSClient`: `handle` stands for what `NewPFSClient` built, the
other two fields are the ones `newFSClientWithFsMeta` assigns. -/
structure PFSClient where
  handle : Nat := 0
  fsID : String := ""
  server : String := ""
deriving DecidableEq, Repr

/-- Interface `fs.FSClient` with its two implementations. -/
inductive FSClient where
  | MockClient (pathPrefix : String)
  | PFSClient (client : PaddleFlow.PFSClient)
deriving DecidableEq, Repr

/-- Struct `FsHandler`; `log` holds the name of the log entry, `none` for nil. -/
structure FsHandler where
  log : Option String := none
  fsID : String := ""
  fsClient : Option FSClient := none
deriving DecidableEq, Repr

/-- The calls that `NewFsHandlerWithServer` makes to other packages, in the order made. -/
inductive FsCall where
  | GetFileSystem (fsID : String)
  | GetLink (fsID : String)
  | NewPFSClient (fsMeta : FSMeta) (links : List (String × FSMeta))
  | time_Sleep (milliseconds : Nat)
deriving DecidableEq, Repr

/-- The constants and functions of other packages that `getFSClient` and
`fs.NewFSClient` use.  The functions see the calls made before them. -/
structure FsEnv where
  /-- Constant `base.FSType`. -/
  FSType : String
  /-- Constant `base.LinkType`. -/
  LinkType : String
  /-- Constant `base.MockType`. -/
  MockType : String
  /-- Method `GetFileSystem` of the file system service, for a file system id. -/
  GetFileSystem : List FsCall → String → FileSystem × Option GoError
  /-- Method `GetLink` of the link service, for a file system id; the second
  result of the source is dropped by the caller. -/
  GetLink : List FsCall → String → List Link × Option GoError
  /-- Function `fs.NewPFSClient`; the client is `none` for a nil pointer. -/
  NewPFSClient : List FsCall → FSMeta → List (String × FSMeta) →
    Option PFSClient × Option GoError

/-- Constant `maxRetryCount`. -/
def maxRetryCount : Nat := 3

/-- Constant `sleepMillisecond`. -/
def sleepMillisecond : Nat := 100

/-- Function `newFSClientWithFsMeta` of package `fs`.  The result is `none`
when the assignment to `client.fsID` dereferences a nil pointer. -/
def newFSClientWithFsMeta (env : FsEnv) (fsMeta : FSMeta) (links : List (String × FSMeta))
    (server : String) (calls : List FsCall) :
    Option ((Option FSClient × Option GoError) × List FsCall) :=
  if fsMeta.UfsType = env.MockType then
    some ((some (FSClient.MockClient fsMeta.SubPath), none), calls)
  else
    match env.NewPFSClient calls fsMeta links with
    | (none, _) => none
    | (some client, err) =>
      some ((some (FSClient.PFSClient { client with fsID := fsMeta.ID, server := server }), err),
        calls ++ [FsCall.NewPFSClient fsMeta links])

/-- Function `fs.NewFSClient`. -/
def NewFSClient (env : FsEnv) (fsMeta : FSMeta) (links : List (String × FSMeta))
    (calls : List FsCall) : Option ((Option FSClient × Option GoError) × List FsCall) :=
  newFSClientWithFsMeta env fsMeta links "" calls

/-- The loop of `getFSClient` that fills the map of links. -/
def getFSClient_links (env : FsEnv) (listLinks : List Link) (links : List (String × FSMeta)) :
    List (String × FSMeta) :=
  match listLinks with
  | [] => links
  | link :: rest =>
    getFSClient_links env rest (mapSet links link.FsPath
      { ID := link.ID, UfsType := link.Type_, ServerAddress := link.ServerAddress,
        SubPath := link.SubPath, Properties := link.PropertiesMap, Type_ := env.LinkType })

/-- Method `getFSClient` of `FsHandler`.  The result is `none` when the call panics. -/
def getFSClient (env : FsEnv) (fh : FsHandler) (calls : List FsCall) :
    Option ((Option FSClient × Option GoError) × List FsCall) :=
  match env.GetFileSystem calls fh.fsID with
  | (_, some err) => some ((none, some err), calls ++ [FsCall.GetFileSystem fh.fsID])
  | (fsModel, none) =>
    let calls1 := calls ++ [FsCall.GetFileSystem fh.fsID]
    match env.GetLink calls1 fh.fsID with
    | (_, some err) => some ((none, some err), calls1 ++ [FsCall.GetLink fh.fsID])
    | (listLinks, none) =>
      let fsMeta : FSMeta :=
        { ID := fsModel.ID, Name := fsModel.Name, UfsType := fsModel.Type_,
          ServerAddress := fsModel.ServerAddress, SubPath := fsModel.SubPath,
          Properties := fsModel.PropertiesMap, Type_ := env.FSType }
      NewFSClient env fsMeta (getFSClient_links env listLinks [])
        (calls1 ++ [FsCall.GetLink fh.fsID])

/-- The `for` loop of `NewFsHandlerWithServer` with `remaining` iterations
left: `remaining` is `maxRetryCount - i`.  The result is the values of
`fsClientError` and `fsHandler` after the loop, `none` when an attempt panics. -/
def NewFsHandlerWithServer_loop (env : FsEnv) (fsID : String) (logEntry : Option String)
    (remaining : Nat) (fsClientError : Option GoError) (fsHandler : FsHandler)
    (calls : List FsCall) : Option ((Option GoError × FsHandler) × List FsCall) :=
  match remaining with
  | 0 => some ((fsClientError, fsHandler), calls)
  | remaining1 + 1 =>
    match getFSClient env { fsID := fsID } calls with
    | none => none
    | some ((_, some err), calls1) =>
      NewFsHandlerWithServer_loop env fsID logEntry remaining1 (some err) { fsID := fsID }
        (calls1 ++ [FsCall.time_Sleep sleepMillisecond])
    | some ((fsClient, none), calls1) =>
      some ((none, { fsID := fsID, fsClient := fsClient, log := logEntry }), calls1)

/-- Function `NewFsHandlerWithServer`; it does not use the host and the port.  The handler is `none` for a nil
pointer; the result is `none` when an attempt panics. -/
def NewFsHandlerWithServer (env : FsEnv) (fsID _fsHost : String) (_fsPort : Int)
    (logEntry : Option String) (calls : List FsCall) :
    Option ((Option FsHandler × Option GoError) × List FsCall) :=
  match NewFsHandlerWithServer_loop env fsID logEntry maxRetryCount none {} calls with
  | none => none
  | some ((some fsClientError, _), calls1) => some ((none, some fsClientError), calls1)
  | some ((none, fsHandler), calls1) => some ((some fsHandler, none), calls1)

/-- The number of attempts to build a client that a sequence of calls holds:
every attempt starts with one call of `GetFileSystem`. -/
def attempts (calls : List FsCall) : Nat :=
  (calls.filter (fun c => match c with | FsCall.GetFileSystem _ => true | _ => false)).length

/-- An environment whose file system service fails until it has been asked
`failures` times. -/
def sampleFsEnv (failures : Nat) : FsEnv where
  FSType := "fs"
  LinkType := "link"
  MockType := "mock"
  GetFileSystem := fun calls fsID =>
    if attempts calls < failures then
      ({}, some ⟨"database is down, attempt " ++ toString (attempts calls + 1)⟩)
    else ({ ID := fsID, Name := "data", Type_ := "mock", SubPath := "/mnt/data" }, none)
  GetLink := fun _ _ => ([], none)
  NewPFSClient := fun _ _ _ => (none, some ⟨"no storage"⟩)

/-! ## Runtime status and restart (package pipeline) -/

/-- Modelled from the spec: JobView status `Skipped` (§3). -/
def StatusJobSkipped : String := "skipped"

/-- Modelled from the spec: the terminal states of a step (§4.D): Succeeded,
Failed, Terminated, Cancelled and Skipped. -/
def StepTerminalStatus : List String :=
  [StatusJobSucceeded, StatusJobFailed, StatusJobTerminated, StatusJobCancelled,
    StatusJobSkipped]

/-- Modelled from the spec: a terminal state that is successful (§4.D, §4.E):
Succeeded, or Skipped under a cache hit. -/
def isTerminalSuccessful (status : String) : Bool :=
  decide (status = StatusJobSucceeded) || decide (status = StatusJobSkipped)

/-- Modelled from the spec: the aggregation rules for the final status of a
runtime (§4.E), which package pipeline applies to the states of its steps.
They are evaluated only when every step is terminal: any step Failed gives
Failed; any step Terminated and none Failed gives Terminated; all steps
Succeeded or Skipped gives Succeeded.  The result is `none` when the rules give
no status. -/
def aggregateStatus (steps : RuntimeView) : Option String :=
  if steps.all (fun e => decide (e.2.Status ∈ StepTerminalStatus)) then
    if steps.any (fun e => decide (e.2.Status = StatusJobFailed)) then some StatusRunFailed
    else if steps.any (fun e => decide (e.2.Status = StatusJobTerminated)) then
      some StatusRunTerminated
    else if steps.all (fun e => isTerminalSuccessful e.2.Status) then some StatusRunSucceeded
    else none
  else none

/-- Modelled from the spec: step `stepName` of the source declares parameter
`paramName` (§3 invariant 6). -/
def declares (entrypoints : List (String × WorkflowSourceStep)) (stepName paramName : String) :
    Bool :=
  match mapGet entrypoints stepName with
  | some step => decide (paramName ∈ mapKeys step.Parameters)
  | none => false

/-- Modelled from the spec: the step and the parameter that the key of an
override names (§4.C step 1, §3 invariant 6): `step.name` names that declared
parameter of that step, a bare name the parameter of the one step that
declares it; `none` when the key names no declared parameter, or a bare name
is declared by more than one step. -/
def overrideTarget (entrypoints : List (String × WorkflowSourceStep)) (key : String) :
    Option (String × String) :=
  match splitAtDot key.data [] with
  | some (stepName, paramName) =>
    if declares entrypoints stepName paramName then some (stepName, paramName) else none
  | none =>
    match (mapKeys entrypoints).filter (fun stepName => declares entrypoints stepName key) with
    | [stepName] => some (stepName, key)
    | _ => none

/-- The value of parameter `paramName` of step `stepName` in a source. -/
def paramOf (entrypoints : List (String × WorkflowSourceStep)) (stepName paramName : String) :
    Option ParamValue :=
  match mapGet entrypoints stepName with
  | some step => mapGet step.Parameters paramName
  | none => none

/-- The workflow of `TestValidateWorkflowParam_success` with the overrides of
the bare name `model` and of `main.model`. -/
def sampleOverrideWorkflow : BaseWorkflow :=
  NewBaseWorkflow sampleSource "" ""
    [("model", ParamValue.direct (ParamScalar.str "correct")),
     ("main.model", ParamValue.direct (ParamScalar.str "correct"))] []

/-- A workflow with two overrides of the request that name parameter `model`
of step main, by its bare name and by `main.model`, with different values. -/
def sampleConflictWorkflow : BaseWorkflow :=
  NewBaseWorkflow sampleSource "" ""
    [("model", ParamValue.direct (ParamScalar.str "a")),
     ("main.model", ParamValue.direct (ParamScalar.str "b"))] []

/-- The workflow with the two overrides of `model` in the other order. -/
def sampleConflictWorkflow1 : BaseWorkflow :=
  NewBaseWorkflow sampleSource "" ""
    [("main.model", ParamValue.direct (ParamScalar.str "b")),
     ("model", ParamValue.direct (ParamScalar.str "a"))] []

/-- A workflow with an override of `model` whose value is a DictParam. -/
def sampleDictOverrideWorkflow : BaseWorkflow :=
  NewBaseWorkflow sampleSource "" ""
    [("model", ParamValue.dict "string" (some (ParamScalar.str "zz")))] []

/-- The workflow of `TestValidateWorkflowParam_success` with the override of
`p1`, which the source does not declare. -/
def sampleUnknownOverrideWorkflow : BaseWorkflow :=
  NewBaseWorkflow sampleSource "" "" [("p1", ParamValue.direct (ParamScalar.str "correct"))] []

/-! ## Theorems -/

/-- C1: for a run that exists and is accessible to the caller, if the persisted
status is terminating, succeeded, failed or terminated, StopRun returns a
non-nil error, sets the error code ActionNotAllowed, and the only collaborator
call it makes is the lookup of the run: no status update, no Stop; wfMap is
unchanged. -/
theorem StopRun_rejects_terminating_or_final (env : Env) (ctx : RequestContext)
    (runID : String) (w : World) (run : Run)
    (hget : env.models_GetRunByID w.calls runID = (run, none))
    (hacc : env.IsRootUser ctx.UserName = true ∨ ctx.UserName = run.UserName)
    (hst : run.Status ∈
      [StatusRunTerminating, StatusRunSucceeded, StatusRunFailed, StatusRunTerminated]) :
    ∃ err, StopRun env ctx runID w =
      (some err, { ctx with ErrorCode := ActionNotAllowed },
        { calls := w.calls ++ [Call.models_GetRunByID runID], wfMap := w.wfMap }) := by
  have hfin : (run.Status == StatusRunTerminating || IsRunFinalStatus run.Status) = true := by
    simp only [List.mem_cons, List.mem_singleton, List.not_mem_nil, or_false] at hst
    rcases hst with h | h | h | h <;> rw [h] <;> decide
  simp only [StopRun, GetRunByID, hget, World.call]
  rcases hacc with h | h <;> simp [h, hfin]

theorem StopRun_rejects_terminating_or_final_witness :
    ∃ err, StopRun sampleEnv { UserName := "alice" } "run-000002" {} =
      (some err, { UserName := "alice", ErrorCode := ActionNotAllowed },
        { calls := [Call.models_GetRunByID "run-000002"], wfMap := [] }) :=
  StopRun_rejects_terminating_or_final sampleEnv { UserName := "alice" } "run-000002" {}
    { ID := "run-000002", UserName := "alice", Status := StatusRunSucceeded }
    (by decide) (by decide) (by decide)

/-- C2: for an accessible run whose status is neither terminating nor final,
whose runtime is registered under the run id, and whose status update succeeds,
StopRun returns nil after exactly three collaborator calls: the lookup of the
run, the update of the status of that run id to Terminating, and one Stop on
the runtime registered under that run id. -/
theorem StopRun_persists_terminating_then_stops (env : Env) (ctx : RequestContext)
    (runID : String) (w : World) (run : Run) (wf : WfPtr)
    (hget : env.models_GetRunByID w.calls runID = (run, none))
    (hacc : env.IsRootUser ctx.UserName = true ∨ ctx.UserName = run.UserName)
    (hst : run.Status ≠ StatusRunTerminating ∧ IsRunFinalStatus run.Status = false)
    (hwf : mapGet w.wfMap runID = some wf)
    (hupd : env.models_UpdateRunStatus (w.calls ++ [Call.models_GetRunByID runID]) runID
      StatusRunTerminating = none) :
    StopRun env ctx runID w =
      (none, ctx,
        { calls := w.calls ++ [Call.models_GetRunByID runID,
            Call.models_UpdateRunStatus runID StatusRunTerminating, Call.Workflow_Stop wf],
          wfMap := w.wfMap }) := by
  simp only [StopRun, GetRunByID, hget, World.call]
  rcases hacc with h | h <;> simp [h, hst.1, hst.2, hwf, hupd]

theorem StopRun_persists_terminating_then_stops_witness :
    StopRun sampleEnv { UserName := "alice" } "run-000001" { wfMap := [("run-000001", 7)] } =
      (none, { UserName := "alice" },
        { calls := [Call.models_GetRunByID "run-000001",
            Call.models_UpdateRunStatus "run-000001" StatusRunTerminating, Call.Workflow_Stop 7],
          wfMap := [("run-000001", 7)] }) :=
  StopRun_persists_terminating_then_stops sampleEnv { UserName := "alice" } "run-000001"
    { wfMap := [("run-000001", 7)] }
    { ID := "run-000001", UserName := "alice", Status := StatusRunRunning } 7
    (by decide) (by decide) (by decide) (by decide) (by decide)

/-- C3: for an accessible run whose status is anything other than failed or
terminated, RetryRun returns a non-nil error, sets the error code
ActionNotAllowed, and the only collaborator call it makes is the lookup of the
run: no step reset, no persistence update, no resume or restart. -/
theorem RetryRun_rejects_other_status (env : Env) (ctx : RequestContext)
    (runID : String) (w : World) (run : Run)
    (hget : env.models_GetRunByID w.calls runID = (run, none))
    (hacc : env.IsRootUser ctx.UserName = true ∨ ctx.UserName = run.UserName)
    (hst : run.Status ≠ StatusRunFailed ∧ run.Status ≠ StatusRunTerminated) :
    ∃ err, RetryRun env ctx runID w =
      (some err, { ctx with ErrorCode := ActionNotAllowed },
        { calls := w.calls ++ [Call.models_GetRunByID runID], wfMap := w.wfMap }) := by
  simp only [RetryRun, GetRunByID, hget, World.call]
  rcases hacc with h | h <;> simp [h, hst.1, hst.2]

theorem RetryRun_rejects_other_status_witness :
    ∃ err, RetryRun sampleEnv { UserName := "root" } "run-000002" {} =
      (some err, { UserName := "root", ErrorCode := ActionNotAllowed },
        { calls := [Call.models_GetRunByID "run-000002"], wfMap := [] }) :=
  RetryRun_rejects_other_status sampleEnv { UserName := "root" } "run-000002" {}
    { ID := "run-000002", UserName := "alice", Status := StatusRunSucceeded }
    (by decide) (by decide) (by decide)

/-! ### The step reset of a retry -/

theorem needsReset_not_blocks (jv : JobView) (h : needsReset jv = true) : ¬ blocksRetry jv := by
  unfold needsReset at h
  unfold blocksRetry
  simp only [Bool.or_eq_true, beq_iff_eq] at h
  rcases h with (h | h) | h <;> rw [h] <;> decide

theorem resetJobView_not_blocks (jv : JobView) : ¬ blocksRetry (resetJobView jv) := by
  simp only [blocksRetry, resetJobView]
  decide

theorem resetRunStepsLoop_err_iff (runID : String) (todo : List (String × JobView))
    (runtime : RuntimeView) :
    (resetRunStepsLoop runID todo runtime).1 ≠ none ↔ ∃ e ∈ todo, blocksRetry e.2 := by
  induction todo generalizing runtime with
  | nil => simp [resetRunStepsLoop]
  | cons e todo ih =>
    obtain ⟨stepName, jobView⟩ := e
    simp only [resetRunStepsLoop]
    by_cases hr : needsReset jobView = true
    · have h1 := needsReset_not_blocks jobView hr
      have h2 := resetJobView_not_blocks jobView
      unfold blocksRetry at h1 h2
      simp only [not_or] at h1 h2
      simp [hr, h2.1, h2.2, ih, blocksRetry, h1.1, h1.2]
    · by_cases hb : blocksRetry jobView
      · have hb2 := hb
        unfold blocksRetry at hb
        rcases hb with h | h <;> simp [hr, h, hb2]
      · have hb2 := hb
        unfold blocksRetry at hb
        simp only [not_or] at hb
        simp [hr, hb.1, hb.2, ih, hb2]

theorem mapSet_append_of_not_mem {α : Type} (d t : List (String × α)) (k : String) (v v1 : α)
    (h : k ∉ mapKeys d) : mapSet (d ++ (k, v) :: t) k v1 = d ++ (k, v1) :: t := by
  induction d with
  | nil => simp [mapSet]
  | cons e d ih =>
    obtain ⟨k0, v0⟩ := e
    simp only [mapKeys, List.map_cons, List.mem_cons, not_or] at h
    have hne : k0 ≠ k := fun hh => h.1 hh.symm
    have := ih h.2
    simp [mapSet, hne, this]

theorem resetRunStepsLoop_ok (runID : String) (todo done : List (String × JobView))
    (out : RuntimeView)
    (hnd : (mapKeys (done ++ todo)).Nodup)
    (hok : resetRunStepsLoop runID todo (done ++ todo) = (none, out)) :
    out = done ++ todo.map resetEntry := by
  induction todo generalizing done with
  | nil => simp [resetRunStepsLoop] at hok; simp [hok]
  | cons e todo ih =>
    obtain ⟨stepName, jobView⟩ := e
    have hk : stepName ∉ mapKeys done := by
      simp only [mapKeys, List.map_append, List.map_cons] at hnd
      have := (List.nodup_append.mp hnd).2.2
      intro hmem
      exact this hmem (List.mem_cons_self _ _)
    have hnd2 : ∀ jv, (mapKeys ((done ++ [(stepName, jv)]) ++ todo)).Nodup := by
      intro jv
      simpa [mapKeys] using hnd
    simp only [resetRunStepsLoop] at hok
    cases hr : needsReset jobView
    · simp only [hr, Bool.false_eq_true, if_false] at hok
      split at hok
      · simp at hok
      · have := ih (done ++ [(stepName, jobView)]) (hnd2 _) (by simpa using hok)
        simp [this, resetEntry, hr]
    · have h2 := resetJobView_not_blocks jobView
      unfold blocksRetry at h2
      simp only [not_or] at h2
      simp only [hr, if_true, mapSet_append_of_not_mem done todo stepName _ _ hk] at hok
      have := ih (done ++ [(stepName, resetJobView jobView)]) (hnd2 _)
        (by simpa [h2.1, h2.2] using hok)
      simp [this, resetEntry, hr]

theorem mapGet_map_resetEntry (runtime : RuntimeView) (stepName : String) :
    mapGet (runtime.map resetEntry) stepName =
      (mapGet runtime stepName).map (fun jv => if needsReset jv then resetJobView jv else jv) := by
  induction runtime with
  | nil => simp [mapGet]
  | cons e rest ih =>
    obtain ⟨k, v⟩ := e
    by_cases hk : k = stepName
    · simp [mapGet, resetEntry, hk]
    · simpa [mapGet, resetEntry, hk] using ih

theorem mapKeys_map_resetEntry (runtime : RuntimeView) :
    mapKeys (runtime.map resetEntry) = mapKeys runtime := by
  simp [mapKeys, resetEntry, Function.comp_def]

theorem resetRunSteps_of_blocked (env : Env) (run : Run) (w : World)
    (hb : ∃ e ∈ run.Runtime, blocksRetry e.2) :
    ∃ err, (resetRunSteps env run w).1 = some err ∧ (resetRunSteps env run w).2.2 = w := by
  have h := (resetRunStepsLoop_err_iff run.ID run.Runtime run.Runtime).mpr hb
  unfold resetRunSteps
  rcases hl : resetRunStepsLoop run.ID run.Runtime run.Runtime with ⟨e, rt⟩
  rw [hl] at h
  cases e with
  | none => exact absurd rfl h
  | some err => exact ⟨err, rfl, rfl⟩

/-- C4: when encoding and the persistence update succeed, resetRunSteps returns
an error exactly when some step of the runtime view has status running or
terminating; when there is such a step it returns an error without calling any
collaborator (models.UpdateRun included), and RetryRun on an accessible failed
or terminated run returns that error, with code InternalError, after the lookup
of the run as its only collaborator call: nothing is resumed or restarted. -/
theorem resetRunSteps_error_iff_blocked (env : Env) (run : Run) :
    (∀ w : World, (∀ r, (env.Run_Encode r).2 = none) →
        (∀ calls runID r, env.models_UpdateRun calls runID r = none) →
        ((resetRunSteps env run w).1 ≠ none ↔ ∃ e ∈ run.Runtime, blocksRetry e.2)) ∧
    (∀ w : World, (∃ e ∈ run.Runtime, blocksRetry e.2) →
        (resetRunSteps env run w).1 ≠ none ∧ (resetRunSteps env run w).2.2 = w) ∧
    (∀ (ctx : RequestContext) (runID : String) (w : World),
        env.models_GetRunByID w.calls runID = (run, none) →
        (env.IsRootUser ctx.UserName = true ∨ ctx.UserName = run.UserName) →
        (run.Status = StatusRunFailed ∨ run.Status = StatusRunTerminated) →
        (∃ e ∈ run.Runtime, blocksRetry e.2) →
        ∃ err,
          (resetRunSteps env run (w.call (Call.models_GetRunByID runID))).1 = some err ∧
          RetryRun env ctx runID w =
            (some err, { ctx with ErrorCode := InternalError },
              { calls := w.calls ++ [Call.models_GetRunByID runID], wfMap := w.wfMap })) := by
  refine ⟨?_, ?_, ?_⟩
  · intro w hEnc hUpd
    constructor
    · intro herr
      by_contra hnb
      have hl := (resetRunStepsLoop_err_iff run.ID run.Runtime run.Runtime).not.mpr hnb
      apply herr
      unfold resetRunSteps
      rcases hloop : resetRunStepsLoop run.ID run.Runtime run.Runtime with ⟨e, rt⟩
      rw [hloop] at hl
      cases e with
      | some err => simp at hl
      | none =>
        rcases henc : env.Run_Encode { run with Runtime := rt } with ⟨r1, e1⟩
        have h1 := hEnc { run with Runtime := rt }
        rw [henc] at h1
        simp only at h1
        subst h1
        simp only [henc]
        exact hUpd _ _ _
    · intro hb
      obtain ⟨err, h1, _⟩ := resetRunSteps_of_blocked env run w hb
      simp [h1]
  · intro w hb
    obtain ⟨err, h1, h2⟩ := resetRunSteps_of_blocked env run w hb
    simp [h1, h2]
  · intro ctx runID w hget hacc hst hb
    obtain ⟨err, h1, h2⟩ := resetRunSteps_of_blocked env run (w.call (Call.models_GetRunByID runID)) hb
    refine ⟨err, h1, ?_⟩
    have hst2 : (run.Status == StatusRunFailed || run.Status == StatusRunTerminated) = true := by
      rcases hst with h | h <;> simp [h]
    rcases hr : resetRunSteps env run (w.call (Call.models_GetRunByID runID)) with ⟨e, r1, w2⟩
    rw [hr] at h1 h2
    simp only at h1 h2
    subst h1 h2
    simp only [World.call] at hr
    simp only [RetryRun, GetRunByID, hget, World.call]
    rcases hacc with h | h <;> simp [h, hst2, hr]

theorem resetRunSteps_error_iff_blocked_witness :
    ((resetRunSteps sampleEnv sampleStuckRun {}).1 ≠ none ↔
        ∃ e ∈ sampleStuckRun.Runtime, blocksRetry e.2) ∧
    ((resetRunSteps sampleEnv sampleStuckRun {}).1 ≠ none ∧
        (resetRunSteps sampleEnv sampleStuckRun {}).2.2 = {}) ∧
    (∃ err,
        (resetRunSteps sampleEnv sampleStuckRun
          (World.call {} (Call.models_GetRunByID "run-000005"))).1 = some err ∧
        RetryRun sampleEnv { UserName := "alice" } "run-000005" {} =
          (some err, { UserName := "alice", ErrorCode := InternalError },
            { calls := [Call.models_GetRunByID "run-000005"], wfMap := [] })) :=
  have hb : ∃ e ∈ sampleStuckRun.Runtime, blocksRetry e.2 :=
    ⟨("main", { JobID := "job-2", Status := StatusJobRunning }), by decide, Or.inl rfl⟩
  ⟨(resetRunSteps_error_iff_blocked sampleEnv sampleStuckRun).1 {} (fun _ => rfl)
      (fun _ _ _ => rfl),
    (resetRunSteps_error_iff_blocked sampleEnv sampleStuckRun).2.1 {} hb,
    (resetRunSteps_error_iff_blocked sampleEnv sampleStuckRun).2.2 { UserName := "alice" }
      "run-000005" {} (by decide) (by decide) (by decide) hb⟩

/-- C5: whenever resetRunSteps succeeds (on a runtime view with distinct step
names, encoding leaving the view as it is), the view has the same step names;
a step whose prior status was cancelled, failed or terminated has its job-id,
status, start-time and end-time set to the empty string and its other fields
unchanged; every other step has the JobView it had before; and the run handed
to models.UpdateRun is the run with that view. -/
theorem resetRunSteps_resets_only_ended_steps (env : Env) (run : Run) (w : World)
    (hnd : (mapKeys run.Runtime).Nodup)
    (hframe : ∀ r, (env.Run_Encode r).1.Runtime = r.Runtime)
    (hok : (resetRunSteps env run w).1 = none) :
    mapKeys (resetRunSteps env run w).2.1.Runtime = mapKeys run.Runtime ∧
    (∀ stepName jobView, mapGet run.Runtime stepName = some jobView →
      (jobView.Status ∈ [StatusJobCancelled, StatusJobFailed, StatusJobTerminated] →
        mapGet (resetRunSteps env run w).2.1.Runtime stepName =
          some { jobView with JobID := "", Status := "", StartTime := "", EndTime := "" }) ∧
      (jobView.Status ∉ [StatusJobCancelled, StatusJobFailed, StatusJobTerminated] →
        mapGet (resetRunSteps env run w).2.1.Runtime stepName = some jobView)) ∧
    (resetRunSteps env run w).2.2 =
      w.call (Call.models_UpdateRun (resetRunSteps env run w).2.1.ID (resetRunSteps env run w).2.1) := by
  have key : (resetRunSteps env run w).2.1.Runtime = run.Runtime.map resetEntry ∧
      (resetRunSteps env run w).2.2 =
        w.call (Call.models_UpdateRun (resetRunSteps env run w).2.1.ID
          (resetRunSteps env run w).2.1) := by
    unfold resetRunSteps at hok ⊢
    rcases hloop : resetRunStepsLoop run.ID run.Runtime run.Runtime with ⟨e, rt⟩
    rw [hloop] at hok
    cases e with
    | some err => simp at hok
    | none =>
      have hrt := resetRunStepsLoop_ok run.ID run.Runtime [] rt (by simpa using hnd)
        (by simpa using hloop)
      have hf := hframe { run with Runtime := rt }
      rcases henc : env.Run_Encode { run with Runtime := rt } with ⟨r1, e1⟩
      rw [henc] at hf
      simp only [henc] at hok ⊢
      cases e1 with
      | some err => simp at hok
      | none =>
        simp only at hf ⊢
        exact ⟨by rw [hf, hrt]; simp, trivial⟩
  refine ⟨?_, ?_, key.2⟩
  · rw [key.1, mapKeys_map_resetEntry]
  · intro stepName jobView hget
    rw [key.1, mapGet_map_resetEntry, hget]
    constructor
    · intro hmem
      have : needsReset jobView = true := by
        simp only [List.mem_cons, List.mem_singleton, List.not_mem_nil, or_false] at hmem
        rcases hmem with h | h | h <;> simp [needsReset, h]
      simp [this, resetJobView]
    · intro hmem
      have : needsReset jobView = false := by
        simp only [List.mem_cons, List.mem_singleton, List.not_mem_nil, or_false, not_or] at hmem
        simp [needsReset, hmem.1, hmem.2.1, hmem.2.2]
      simp [this]

theorem resetRunSteps_resets_only_ended_steps_witness :
    mapKeys (resetRunSteps sampleEnv sampleFailedRun {}).2.1.Runtime = ["data_preprocess", "main"] ∧
    mapGet (resetRunSteps sampleEnv sampleFailedRun {}).2.1.Runtime "main" =
      some { JobID := "", Status := "", StartTime := "", EndTime := "", CacheRunID := "run-000001" } ∧
    mapGet (resetRunSteps sampleEnv sampleFailedRun {}).2.1.Runtime "data_preprocess" =
      some { JobID := "job-1", Status := StatusJobSucceeded } :=
  have h := resetRunSteps_resets_only_ended_steps sampleEnv sampleFailedRun {} (by decide)
    (fun _ => rfl) (by decide)
  ⟨h.1,
    (h.2.1 "main" sampleFailedJob (by decide)).1 (by decide),
    (h.2.1 "data_preprocess" { JobID := "job-1", Status := StatusJobSucceeded } (by decide)).2
      (by decide)⟩

/-- C6: DeleteRun calls models.DeleteRun exactly when the run is found, the
caller is root or the owner of the run, and the status of the run is final;
otherwise the lookup of the run is its only collaborator call.  For a run that
is found and accessible and whose status is not final it returns a non-nil
error and sets the error code ActionNotAllowed. -/
theorem DeleteRun_deletes_iff_final_and_owned (env : Env) (ctx : RequestContext) (id : String)
    (w : World) :
    (((env.models_GetRunByID w.calls id).2 = none ∧
        (env.IsRootUser ctx.UserName = true ∨
          ctx.UserName = (env.models_GetRunByID w.calls id).1.UserName) ∧
        IsRunFinalStatus (env.models_GetRunByID w.calls id).1.Status = true) ∧
      (DeleteRun env ctx id w).2.2 =
        { calls := w.calls ++ [Call.models_GetRunByID id, Call.models_DeleteRun id],
          wfMap := w.wfMap } ∨
     ¬ ((env.models_GetRunByID w.calls id).2 = none ∧
        (env.IsRootUser ctx.UserName = true ∨
          ctx.UserName = (env.models_GetRunByID w.calls id).1.UserName) ∧
        IsRunFinalStatus (env.models_GetRunByID w.calls id).1.Status = true) ∧
      (DeleteRun env ctx id w).2.2 =
        { calls := w.calls ++ [Call.models_GetRunByID id], wfMap := w.wfMap }) ∧
    ((env.models_GetRunByID w.calls id).2 = none →
      (env.IsRootUser ctx.UserName = true ∨
        ctx.UserName = (env.models_GetRunByID w.calls id).1.UserName) →
      IsRunFinalStatus (env.models_GetRunByID w.calls id).1.Status = false →
      ∃ err, DeleteRun env ctx id w =
        (some err, { ctx with ErrorCode := ActionNotAllowed },
          { calls := w.calls ++ [Call.models_GetRunByID id], wfMap := w.wfMap })) := by
  rcases hget : env.models_GetRunByID w.calls id with ⟨run, e⟩
  cases e with
  | some err =>
    by_cases hnf : env.isErrRecordNotFound err = true <;>
      simp [DeleteRun, hget, World.call, hnf]
  | none =>
    by_cases hroot : env.IsRootUser ctx.UserName = true
    · cases hfin : IsRunFinalStatus run.Status
      · simp [DeleteRun, hget, World.call, hroot, hfin]
      · cases hdel : env.models_DeleteRun (w.calls ++ [Call.models_GetRunByID id]) id <;>
          simp [DeleteRun, hget, World.call, hroot, hfin, hdel]
    · by_cases hown : ctx.UserName = run.UserName
      · cases hfin : IsRunFinalStatus run.Status
        · simp [DeleteRun, hget, World.call, hroot, hfin, hown]
        · cases hdel : env.models_DeleteRun (w.calls ++ [Call.models_GetRunByID id]) id <;>
            simp [DeleteRun, hget, World.call, hroot, hfin, hdel, hown]
      · simp [DeleteRun, hget, World.call, hroot, hown]

theorem DeleteRun_deletes_iff_final_and_owned_witness :
    ∃ err, DeleteRun sampleEnv { UserName := "alice" } "run-000001" {} =
      (some err, { UserName := "alice", ErrorCode := ActionNotAllowed },
        { calls := [Call.models_GetRunByID "run-000001"], wfMap := [] }) :=
  (DeleteRun_deletes_iff_final_and_owned sampleEnv { UserName := "alice" } "run-000001" {}).2
    (by decide) (by decide) (by decide)

/-! ### Creation of a run -/

theorem buildWorkflowSourceToWfs_world (env : Env) (ctx : RequestContext) (req : CreateRunRequest)
    (source runYaml : String) (w : World) :
    (buildWorkflowSourceToWfs env ctx req source runYaml w).world = w := by
  unfold buildWorkflowSourceToWfs
  split <;> rfl

theorem buildWorkflowSource_world (env : Env) (ctx : RequestContext) (req : CreateRunRequest)
    (fsID : String) (w : World) :
    (buildWorkflowSource env ctx req fsID w).world = w ∨
    (buildWorkflowSource env ctx req fsID w).world =
      w.call (Call.models_GetPipelineByID req.PipelineID) ∨
    ∃ path, (buildWorkflowSource env ctx req fsID w).world =
      w.call (Call.handler_ReadFileFromFs fsID path) := by
  unfold buildWorkflowSource
  split
  · left
    split
    · rfl
    · exact buildWorkflowSourceToWfs_world ..
  · split
    · right; left
      split
      · rfl
      · split
        · rfl
        · exact buildWorkflowSourceToWfs_world ..
    · right; right
      refine ⟨if req.RunYamlPath = "" then DefaultRunYamlPath else req.RunYamlPath, ?_⟩
      simp only []
      split
      · rfl
      · exact buildWorkflowSourceToWfs_world ..

theorem buildWorkflowSource_calls (env : Env) (ctx : RequestContext) (req : CreateRunRequest)
    (fsID : String) (w : World) :
    (buildWorkflowSource env ctx req fsID w).world.wfMap = w.wfMap ∧
    ∃ new, (buildWorkflowSource env ctx req fsID w).world.calls = w.calls ++ new ∧
      ∀ r, Call.models_CreateRun r ∉ new := by
  rcases buildWorkflowSource_world env ctx req fsID w with h | h | ⟨path, h⟩
  · rw [h]; exact ⟨rfl, [], by simp, by simp⟩
  · rw [h]; exact ⟨rfl, [Call.models_GetPipelineByID req.PipelineID], rfl, by simp⟩
  · rw [h]; exact ⟨rfl, [Call.handler_ReadFileFromFs fsID path], rfl, by simp⟩

theorem newWorkflowByRun_world_of_error (env : Env) (run : Run) (w : World)
    (h : (newWorkflowByRun env run w).2.1 ≠ none) :
    (newWorkflowByRun env run w).2.2.wfMap = w.wfMap ∧
    ∃ c, (newWorkflowByRun env run w).2.2.calls = w.calls ++ [c] ∧ ∀ r, c ≠ Call.models_CreateRun r := by
  unfold newWorkflowByRun at h ⊢
  simp only [] at h ⊢
  split at h
  · rename_i heq
    simp only [heq]
    exact ⟨rfl, _, rfl, by simp⟩
  · rename_i heq
    simp only [heq]
    exact ⟨rfl, _, rfl, by simp⟩
  · split at h <;> simp at h

/-- C7: if assembling the workflow source fails, or the non-empty run name does
not match the run-name pattern, or encoding the run fails, or newWorkflowByRun
fails, then CreateRun returns the empty response and a non-nil error, none of
the collaborator calls it makes is models.CreateRun, and wfMap is unchanged. -/
theorem CreateRun_validation_failure_creates_nothing (env : Env) (ctx : RequestContext)
    (request : CreateRunRequest) (w : World)
    (hfail : (createRunBuilt env ctx request w).err ≠ none ∨
      ((createRunBuilt env ctx request w).wfs.Name ≠ "" ∧
        env.CheckReg (createRunBuilt env ctx request w).wfs.Name env.RegPatternRunName = false) ∨
      (createRunEncoded env ctx request w).2 ≠ none ∨
      (newWorkflowByRun env (createRunEncoded env ctx request w).1
        (createRunBuilt env ctx request w).world).2.1 ≠ none) :
    (CreateRun env ctx request w).1 = {} ∧
    (CreateRun env ctx request w).2.1 ≠ none ∧
    (CreateRun env ctx request w).2.2.2.wfMap = w.wfMap ∧
    ∃ new, (CreateRun env ctx request w).2.2.2.calls = w.calls ++ new ∧
      ∀ r, Call.models_CreateRun r ∉ new := by
  obtain ⟨hwf, new, hcalls, hnew⟩ :=
    buildWorkflowSource_calls env ctx request (createRunFsID env ctx request) w
  simp only [createRunBuilt, createRunEncoded] at hfail
  unfold CreateRun
  simp only []
  split
  · exact ⟨rfl, by simp, hwf, new, hcalls, hnew⟩
  · rename_i hb
    split
    · exact ⟨rfl, by simp, hwf, new, hcalls, hnew⟩
    · rename_i hname
      split
      · exact ⟨rfl, by simp, hwf, new, hcalls, hnew⟩
      · rename_i run henc
        split
        · rename_i x err w1 hnw
          have hne : (newWorkflowByRun env run
              (buildWorkflowSource env ctx request (createRunFsID env ctx request) w).world).2.1 ≠
              none := by
            rw [hnw]; simp
          obtain ⟨h1, c, h2, h3⟩ := newWorkflowByRun_world_of_error env run _ hne
          rw [hnw] at h1 h2
          simp only at h1 h2
          refine ⟨rfl, by simp, by rw [h1, hwf], new ++ [c], by rw [h2, hcalls]; simp, ?_⟩
          intro r hmem
          rcases List.mem_append.mp hmem with hm | hm
          · exact hnew r hm
          · exact h3 r (List.mem_singleton.mp hm).symm
        · rename_i x w1 hnw
          exfalso
          rcases hfail with h | h | h | h
          · exact h hb
          · apply hname
            simp [h.1, h.2]
          · rw [henc] at h; exact h rfl
          · rw [henc, hnw] at h; exact h rfl

theorem CreateRun_validation_failure_creates_nothing_witness :
    (CreateRun sampleEnvBadName { UserName := "alice" } { RunYamlRaw := "demo" } {}).1 = {} ∧
    (CreateRun sampleEnvBadName { UserName := "alice" } { RunYamlRaw := "demo" } {}).2.1 ≠ none ∧
    (CreateRun sampleEnvBadName { UserName := "alice" } { RunYamlRaw := "demo" } {}).2.2.2.wfMap = [] ∧
    ∃ new,
      (CreateRun sampleEnvBadName { UserName := "alice" } { RunYamlRaw := "demo" } {}).2.2.2.calls =
        [] ++ new ∧
      ∀ r, Call.models_CreateRun r ∉ new :=
  CreateRun_validation_failure_creates_nothing sampleEnvBadName { UserName := "alice" }
    { RunYamlRaw := "demo" } {} (Or.inr (Or.inl (by decide)))

/-- C8: buildWorkflowSource picks the YAML with fixed priority.  With a
non-empty RunYamlRaw it consults neither the pipelines nor the filesystem, and
the YAML is the decoding of RunYamlRaw and the source its MD5 hash.  Otherwise,
with a non-empty PipelineID, its only collaborator call is the lookup of that
pipeline, and the YAML is the YAML of the pipeline and the source the id of the
pipeline.  Otherwise its only collaborator call reads the file at RunYamlPath,
or at the default path when RunYamlPath is empty; the YAML is the content of
the file and the source is that path. -/
theorem buildWorkflowSource_priority (env : Env) (ctx : RequestContext) (req : CreateRunRequest)
    (fsID : String) (w : World) :
    (req.RunYamlRaw ≠ "" →
      (buildWorkflowSource env ctx req fsID w).world = w ∧
      ∀ sDec wfs ctx1, env.base64_DecodeString req.RunYamlRaw = (sDec, none) →
        runYamlAndReqToWfs env ctx sDec req = (wfs, none, ctx1) →
        buildWorkflowSource env ctx req fsID w =
          { wfs := wfs, source := env.GetMD5Hash sDec, runYaml := sDec, err := none,
            ctx := ctx1, world := w }) ∧
    (req.RunYamlRaw = "" → req.PipelineID ≠ "" →
      (buildWorkflowSource env ctx req fsID w).world =
        w.call (Call.models_GetPipelineByID req.PipelineID) ∧
      ∀ ppl wfs ctx1, env.models_GetPipelineByID w.calls req.PipelineID = (ppl, none) →
        (env.IsRootUser ctx.UserName = true ∨ ppl.UserName = ctx.UserName) →
        runYamlAndReqToWfs env ctx ppl.PipelineYaml req = (wfs, none, ctx1) →
        buildWorkflowSource env ctx req fsID w =
          { wfs := wfs, source := ppl.ID, runYaml := ppl.PipelineYaml, err := none,
            ctx := ctx1, world := w.call (Call.models_GetPipelineByID req.PipelineID) }) ∧
    (req.RunYamlRaw = "" → req.PipelineID = "" →
      ∀ path, path = (if req.RunYamlPath = "" then DefaultRunYamlPath else req.RunYamlPath) →
      (buildWorkflowSource env ctx req fsID w).world =
        w.call (Call.handler_ReadFileFromFs fsID path) ∧
      ∀ runYamlByte wfs ctx1, env.handler_ReadFileFromFs w.calls fsID path = (runYamlByte, none) →
        runYamlAndReqToWfs env ctx runYamlByte req = (wfs, none, ctx1) →
        buildWorkflowSource env ctx req fsID w =
          { wfs := wfs, source := path, runYaml := runYamlByte, err := none,
            ctx := ctx1, world := w.call (Call.handler_ReadFileFromFs fsID path) }) := by
  refine ⟨?_, ?_, ?_⟩
  · intro hraw
    constructor
    · unfold buildWorkflowSource
      simp only [hraw, ne_eq, not_false_eq_true, if_true]
      split
      · rfl
      · exact buildWorkflowSourceToWfs_world ..
    · intro sDec wfs ctx1 hdec hwfs
      simp [buildWorkflowSource, hraw, hdec, buildWorkflowSourceToWfs, hwfs]
  · intro hraw hppl
    constructor
    · unfold buildWorkflowSource
      simp only [hraw, hppl, ne_eq, not_true_eq_false, not_false_eq_true, if_true, if_false]
      split
      · rfl
      · split
        · rfl
        · exact buildWorkflowSourceToWfs_world ..
    · intro ppl wfs ctx1 hget hacc hwfs
      rcases hacc with h | h <;>
        simp [buildWorkflowSource, hraw, hppl, hget, h, buildWorkflowSourceToWfs, hwfs]
  · intro hraw hppl path hpath
    subst hpath
    constructor
    · unfold buildWorkflowSource
      simp only [hraw, hppl, ne_eq, not_true_eq_false, if_false]
      split
      · rfl
      · exact buildWorkflowSourceToWfs_world ..
    · intro runYamlByte wfs ctx1 hread hwfs
      simp [buildWorkflowSource, hraw, hppl, hread, buildWorkflowSourceToWfs, hwfs]

theorem buildWorkflowSource_priority_witness :
    buildWorkflowSource sampleEnv { UserName := "alice" }
        { RunYamlRaw := "raw", PipelineID := "ppl-000001", RunYamlPath := "a.yaml" } "fs-1" {} =
      { wfs := { Name := "raw" }, source := "md5:raw", runYaml := "raw", err := none,
        ctx := { UserName := "alice" }, world := {} } ∧
    buildWorkflowSource sampleEnv { UserName := "alice" }
        { PipelineID := "ppl-000001", RunYamlPath := "a.yaml" } "fs-1" {} =
      { wfs := { Name := "ppl" }, source := "ppl-000001", runYaml := "ppl", err := none,
        ctx := { UserName := "alice" },
        world := World.call {} (Call.models_GetPipelineByID "ppl-000001") } ∧
    buildWorkflowSource sampleEnv { UserName := "alice" } {} "fs-1" {} =
      { wfs := { Name := "file:./run.yaml" }, source := "./run.yaml", runYaml := "file:./run.yaml",
        err := none, ctx := { UserName := "alice" },
        world := World.call {} (Call.handler_ReadFileFromFs "fs-1" "./run.yaml") } :=
  ⟨((buildWorkflowSource_priority sampleEnv { UserName := "alice" }
        { RunYamlRaw := "raw", PipelineID := "ppl-000001", RunYamlPath := "a.yaml" } "fs-1" {}).1
      (by decide)).2 "raw" { Name := "raw" } { UserName := "alice" } (by decide) (by decide),
    ((buildWorkflowSource_priority sampleEnv { UserName := "alice" }
        { PipelineID := "ppl-000001", RunYamlPath := "a.yaml" } "fs-1" {}).2.1
      (by decide) (by decide)).2 { ID := "ppl-000001", UserName := "alice", PipelineYaml := "ppl" }
      { Name := "ppl" } { UserName := "alice" } (by decide) (by decide) (by decide),
    ((buildWorkflowSource_priority sampleEnv { UserName := "alice" } {} "fs-1" {}).2.2
      (by decide) (by decide) "./run.yaml" (by decide)).2 "file:./run.yaml"
      { Name := "file:./run.yaml" } { UserName := "alice" } (by decide) (by decide)⟩

/-! ### Image handling and start of the workflow -/

/-- The three error paths of handleImageAndStartWf that mark the run as failed:
each ends with the call updateRunStatusAndMsg(run.ID, failed, text of the error). -/
theorem handleImageAndStartWf_marks_failed (env : Env) (run : Run) (isResume : Bool) (w : World) :
    (env.NeedHandleImage run.WorkflowSource.DockerEnv = false →
      ∀ err, (newWorkflowByRun env run w).2.1 = some err →
        (handleImageAndStartWf env run isResume w).2 =
          (newWorkflowByRun env run w).2.2.call
            (Call.updateRunStatusAndMsg run.ID StatusRunFailed err.msg)) ∧
    (env.NeedHandleImage run.WorkflowSource.DockerEnv = true →
      ∀ err, (env.models_ListImageIDsByFsID w.calls run.FsID).2 = some err →
        (handleImageAndStartWf env run isResume w).2 =
          (w.call (Call.models_ListImageIDsByFsID run.FsID)).call
            (Call.updateRunStatusAndMsg run.ID StatusRunFailed err.msg)) ∧
    (env.NeedHandleImage run.WorkflowSource.DockerEnv = true →
      ∀ imageIDs err, env.models_ListImageIDsByFsID w.calls run.FsID = (imageIDs, none) →
        env.handler_HandleImage (w.calls ++ [Call.models_ListImageIDsByFsID run.FsID])
          run.WorkflowSource.DockerEnv run.ID run.FsID env.FsServerHost env.FsServerPort imageIDs =
          some err →
        (handleImageAndStartWf env run isResume w).2 =
          ((w.call (Call.models_ListImageIDsByFsID run.FsID)).call
            (Call.handler_HandleImage run.WorkflowSource.DockerEnv run.ID run.FsID
              env.FsServerHost env.FsServerPort imageIDs)).call
            (Call.updateRunStatusAndMsg run.ID StatusRunFailed err.msg)) := by
  refine ⟨?_, ?_, ?_⟩
  · intro hneed err herr
    rcases hnw : newWorkflowByRun env run w with ⟨p, e, w1⟩
    rw [hnw] at herr
    simp only at herr
    subst herr
    simp [handleImageAndStartWf, hneed, hnw]
  · intro hneed err herr
    rcases hl : env.models_ListImageIDsByFsID w.calls run.FsID with ⟨ids, e⟩
    rw [hl] at herr
    simp only at herr
    subst herr
    simp [handleImageAndStartWf, hneed, hl]
  · intro hneed imageIDs err hl hh
    simp only [World.call] at hh ⊢
    simp [handleImageAndStartWf, hneed, hl, World.call, hh]

/-- C9 (the code at the failing input): on resume, when SetWorkflowRuntime
returns an error, handleImageAndStartWf returns that error after the calls
NewWorkflow and SetWorkflowRuntime only: updateRunStatusAndMsg is not called,
so the persisted status of the run stays `running` and no message is stored. -/
theorem handleImageAndStartWf_SetWorkflowRuntime_error_not_persisted :
    handleImageAndStartWf sampleEnvBadRuntime sampleActiveRun true {} =
      (some ⟨"invalid runtime view"⟩,
        { calls :=
            [Call.pipeline_NewWorkflow { Name := "demo", DockerEnv := "images/demo:1" }
                "run-000006" "" []
                [("Source", ""), ("FsID", "fs-alice-home"), ("UserName", "alice"), ("FsName", "")],
              Call.Workflow_SetWorkflowRuntime 0
                [("data_preprocess", { JobID := "job-1", Status := StatusJobSucceeded })]],
          wfMap := [("run-000006", 0)] }) ∧
    ∀ status msg, Call.updateRunStatusAndMsg "run-000006" status msg ∉
      (handleImageAndStartWf sampleEnvBadRuntime sampleActiveRun true {}).2.calls := by
  have h : handleImageAndStartWf sampleEnvBadRuntime sampleActiveRun true {} =
      (some ⟨"invalid runtime view"⟩,
        { calls :=
            [Call.pipeline_NewWorkflow { Name := "demo", DockerEnv := "images/demo:1" }
                "run-000006" "" []
                [("Source", ""), ("FsID", "fs-alice-home"), ("UserName", "alice"), ("FsName", "")],
              Call.Workflow_SetWorkflowRuntime 0
                [("data_preprocess", { JobID := "job-1", Status := StatusJobSucceeded })]],
          wfMap := [("run-000006", 0)] }) := by decide
  refine ⟨h, ?_⟩
  intro status msg
  rw [h]
  simp

/-- C10: when the image needs no preparation and newWorkflowByRun returns a
workflow, handleImageAndStartWf calls, for a fresh run, Start once and then
models.UpdateRun; for a resumed run, SetWorkflowRuntime with the runtime view
of the run and, when that succeeds, Restart once and then models.UpdateRun,
while a failing SetWorkflowRuntime ends the calls.  The update carries the
docker-env of the workflow source as image-url and the status Pending.  Start
is never called on resume, SetWorkflowRuntime and Restart never on a fresh run. -/
theorem handleImageAndStartWf_starts_or_restarts (env : Env) (run : Run) (w w1 : World)
    (wf : WfPtr)
    (hneed : env.NeedHandleImage run.WorkflowSource.DockerEnv = false)
    (hnew : newWorkflowByRun env run w = (some wf, none, w1)) :
    handleImageAndStartWf env run false w =
      (env.models_UpdateRun (w1.calls ++ [Call.Workflow_Start wf]) run.ID
          { ImageUrl := run.WorkflowSource.DockerEnv, Status := StatusRunPending },
        { calls := w1.calls ++ [Call.Workflow_Start wf,
            Call.models_UpdateRun run.ID
              { ImageUrl := run.WorkflowSource.DockerEnv, Status := StatusRunPending }],
          wfMap := w1.wfMap }) ∧
    (env.Workflow_SetWorkflowRuntime w1.calls wf run.Runtime = none →
      handleImageAndStartWf env run true w =
        (env.models_UpdateRun
            (w1.calls ++ [Call.Workflow_SetWorkflowRuntime wf run.Runtime, Call.Workflow_Restart wf])
            run.ID { ImageUrl := run.WorkflowSource.DockerEnv, Status := StatusRunPending },
          { calls := w1.calls ++ [Call.Workflow_SetWorkflowRuntime wf run.Runtime,
              Call.Workflow_Restart wf,
              Call.models_UpdateRun run.ID
                { ImageUrl := run.WorkflowSource.DockerEnv, Status := StatusRunPending }],
            wfMap := w1.wfMap })) ∧
    (∀ err, env.Workflow_SetWorkflowRuntime w1.calls wf run.Runtime = some err →
      handleImageAndStartWf env run true w =
        (some err,
          { calls := w1.calls ++ [Call.Workflow_SetWorkflowRuntime wf run.Runtime],
            wfMap := w1.wfMap })) := by
  refine ⟨?_, ?_, ?_⟩
  · simp [handleImageAndStartWf, hneed, hnew, World.call]
  · intro hset
    simp [handleImageAndStartWf, hneed, hnew, World.call, hset]
  · intro err hset
    simp [handleImageAndStartWf, hneed, hnew, World.call, hset]

theorem handleImageAndStartWf_starts_or_restarts_witness :
    handleImageAndStartWf sampleEnv sampleActiveRun false {} =
      (none,
        { calls :=
            [Call.pipeline_NewWorkflow { Name := "demo", DockerEnv := "images/demo:1" }
                "run-000006" "" []
                [("Source", ""), ("FsID", "fs-alice-home"), ("UserName", "alice"), ("FsName", "")],
              Call.Workflow_Start 0,
              Call.models_UpdateRun "run-000006"
                { ImageUrl := "images/demo:1", Status := StatusRunPending }],
          wfMap := [("run-000006", 0)] }) ∧
    handleImageAndStartWf sampleEnv sampleActiveRun true {} =
      (none,
        { calls :=
            [Call.pipeline_NewWorkflow { Name := "demo", DockerEnv := "images/demo:1" }
                "run-000006" "" []
                [("Source", ""), ("FsID", "fs-alice-home"), ("UserName", "alice"), ("FsName", "")],
              Call.Workflow_SetWorkflowRuntime 0
                [("data_preprocess", { JobID := "job-1", Status := StatusJobSucceeded })],
              Call.Workflow_Restart 0,
              Call.models_UpdateRun "run-000006"
                { ImageUrl := "images/demo:1", Status := StatusRunPending }],
          wfMap := [("run-000006", 0)] }) :=
  have h := handleImageAndStartWf_starts_or_restarts sampleEnv sampleActiveRun {}
    { calls :=
        [Call.pipeline_NewWorkflow { Name := "demo", DockerEnv := "images/demo:1" }
          "run-000006" "" []
          [("Source", ""), ("FsID", "fs-alice-home"), ("UserName", "alice"), ("FsName", "")]],
      wfMap := [("run-000006", 0)] }
    0 (by decide) (by decide)
  ⟨h.1, h.2.1 (by decide)⟩

/-! ### Reading runs -/

/-- C11: GetRunByID returns a nil error exactly when persistence finds the run
and the caller is root or the owner of the run, and then it returns the stored
run; for a caller who is neither root nor the owner it returns the empty Run
value, a non-nil error, and sets the error code AccessDenied. -/
theorem GetRunByID_nil_iff_found_and_accessible (env : Env) (ctx : RequestContext)
    (runID : String) (w : World) :
    ((GetRunByID env ctx runID w).2.1 = none ↔
      ((env.models_GetRunByID w.calls runID).2 = none ∧
        (env.IsRootUser ctx.UserName = true ∨
          ctx.UserName = (env.models_GetRunByID w.calls runID).1.UserName))) ∧
    ((GetRunByID env ctx runID w).2.1 = none →
      (GetRunByID env ctx runID w).1 = (env.models_GetRunByID w.calls runID).1) ∧
    ((env.models_GetRunByID w.calls runID).2 = none →
      env.IsRootUser ctx.UserName = false →
      ctx.UserName ≠ (env.models_GetRunByID w.calls runID).1.UserName →
      GetRunByID env ctx runID w =
        ({}, some (env.NoAccessError ctx.UserName env.ResourceTypeRun runID),
          { ctx with ErrorCode := AccessDenied }, w.call (Call.models_GetRunByID runID))) := by
  rcases hget : env.models_GetRunByID w.calls runID with ⟨run, e⟩
  cases e with
  | some err => simp [GetRunByID, hget]
  | none =>
    by_cases hroot : env.IsRootUser ctx.UserName = true
    · simp [GetRunByID, hget, hroot]
    · by_cases hown : ctx.UserName = run.UserName
      · simp [GetRunByID, hget, hroot, hown]
      · simp [GetRunByID, hget, hroot, hown]

theorem GetRunByID_nil_iff_found_and_accessible_witness :
    GetRunByID sampleEnv { UserName := "bob" } "run-000001" {} =
      ({}, some (sampleEnv.NoAccessError "bob" sampleEnv.ResourceTypeRun "run-000001"),
        { UserName := "bob", ErrorCode := AccessDenied },
        World.call {} (Call.models_GetRunByID "run-000001")) :=
  (GetRunByID_nil_iff_found_and_accessible sampleEnv { UserName := "bob" } "run-000001" {}).2.2
    (by decide) (by decide) (by decide)

/-- C12: when the marker is empty or decodes to pk, the first collaborator
call of ListRun is models.ListRun with that pk, and its user filter is the
one-element list of the user name of the caller for a caller who is not root,
and the requested user filter for root; the fs, run and name filters are the
requested ones for every caller.  The only later calls are lookups of the last
run. -/
theorem ListRun_user_filter (env : Env) (ctx : RequestContext) (marker : String) (maxKeys : Int)
    (userFilter fsFilter runFilter nameFilter : List String) (w : World) (pk : Int)
    (hmarker : (if marker ≠ "" then env.DecryptPk marker else (0, none)) = (pk, none)) :
    (env.IsRootUser ctx.UserName = false →
      ∃ rest, (ListRun env ctx marker maxKeys userFilter fsFilter runFilter nameFilter w).2.2.2.calls =
          w.calls ++ Call.models_ListRun pk maxKeys [ctx.UserName] fsFilter runFilter nameFilter ::
            rest ∧
        ∀ c ∈ rest, c = Call.models_GetLastRun) ∧
    (env.IsRootUser ctx.UserName = true →
      ∃ rest, (ListRun env ctx marker maxKeys userFilter fsFilter runFilter nameFilter w).2.2.2.calls =
          w.calls ++ Call.models_ListRun pk maxKeys userFilter fsFilter runFilter nameFilter ::
            rest ∧
        ∀ c ∈ rest, c = Call.models_GetLastRun) := by
  have key : ∀ uf, listRunUserFilter env ctx userFilter = uf →
      ∃ rest, (ListRun env ctx marker maxKeys userFilter fsFilter runFilter nameFilter w).2.2.2.calls =
          w.calls ++ Call.models_ListRun pk maxKeys uf fsFilter runFilter nameFilter :: rest ∧
        ∀ c ∈ rest, c = Call.models_GetLastRun := by
    intro uf huf
    unfold ListRun
    rw [hmarker]
    simp only [huf]
    split
    · exact ⟨[], by simp [World.call], by simp⟩
    · simp only [isLastRunPk]
      split
      · split
        · exact ⟨[Call.models_GetLastRun], by simp [World.call], by simp⟩
        · exact ⟨[Call.models_GetLastRun], by simp [World.call], by simp⟩
      · exact ⟨[Call.models_GetLastRun], by simp [World.call], by simp⟩
  constructor
  · intro hroot
    exact key _ (by simp [listRunUserFilter, hroot])
  · intro hroot
    exact key _ (by simp [listRunUserFilter, hroot])

theorem ListRun_user_filter_witness :
    (∃ rest, (ListRun sampleEnv { UserName := "alice" } "" 50 ["bob"] ["home"] [] ["demo"]
          {}).2.2.2.calls =
        [] ++ Call.models_ListRun 0 50 ["alice"] ["home"] [] ["demo"] :: rest ∧
      ∀ c ∈ rest, c = Call.models_GetLastRun) ∧
    (∃ rest, (ListRun sampleEnv { UserName := "root" } "" 50 ["bob"] ["home"] [] ["demo"]
          {}).2.2.2.calls =
        [] ++ Call.models_ListRun 0 50 ["bob"] ["home"] [] ["demo"] :: rest ∧
      ∀ c ∈ rest, c = Call.models_GetLastRun) :=
  ⟨(ListRun_user_filter sampleEnv { UserName := "alice" } "" 50 ["bob"] ["home"] [] ["demo"] {} 0
      (by decide)).1 (by decide),
    (ListRun_user_filter sampleEnv { UserName := "root" } "" 50 ["bob"] ["home"] [] ["demo"] {} 0
      (by decide)).2 (by decide)⟩

/-- C14: when the YAML parses, runYamlAndReqToWfs returns no error and the
parsed source with its name replaced by the Name of the request when that is
non-empty and its docker-env replaced by the DockerEnv of the request when that
is non-empty, every other field being the parsed one; when the YAML does not
parse it returns the parse error and sets the error code MalformedYaml. -/
theorem runYamlAndReqToWfs_overrides (env : Env) (ctx : RequestContext) (runYaml : String)
    (req : CreateRunRequest) :
    (∀ wfs, env.yaml_Unmarshal runYaml = (wfs, none) →
      (runYamlAndReqToWfs env ctx runYaml req).2 = (none, ctx) ∧
      (runYamlAndReqToWfs env ctx runYaml req).1.Name =
        (if req.Name ≠ "" then req.Name else wfs.Name) ∧
      (runYamlAndReqToWfs env ctx runYaml req).1.DockerEnv =
        (if req.DockerEnv ≠ "" then req.DockerEnv else wfs.DockerEnv) ∧
      (runYamlAndReqToWfs env ctx runYaml req).1.Desc = wfs.Desc ∧
      (runYamlAndReqToWfs env ctx runYaml req).1.EntryPoints = wfs.EntryPoints) ∧
    (∀ wfs err, env.yaml_Unmarshal runYaml = (wfs, some err) →
      runYamlAndReqToWfs env ctx runYaml req =
        ({}, some err, { ctx with ErrorCode := MalformedYaml })) := by
  constructor
  · intro wfs h
    by_cases h1 : req.Name = "" <;> by_cases h2 : req.DockerEnv = "" <;>
      simp [runYamlAndReqToWfs, h, h1, h2]
  · intro wfs err h
    simp [runYamlAndReqToWfs, h]

theorem runYamlAndReqToWfs_overrides_witness :
    (runYamlAndReqToWfs sampleEnv {} "demo" { DockerEnv := "images/demo:2" }).2 = (none, {}) ∧
    (runYamlAndReqToWfs sampleEnv {} "demo" { DockerEnv := "images/demo:2" }).1.Name = "demo" ∧
    (runYamlAndReqToWfs sampleEnv {} "demo" { DockerEnv := "images/demo:2" }).1.DockerEnv =
      "images/demo:2" ∧
    (runYamlAndReqToWfs sampleEnv {} "demo" { DockerEnv := "images/demo:2" }).1.Desc = "" ∧
    (runYamlAndReqToWfs sampleEnv {} "demo" { DockerEnv := "images/demo:2" }).1.EntryPoints = [] :=
  (runYamlAndReqToWfs_overrides sampleEnv {} "demo" { DockerEnv := "images/demo:2" }).1
    { Name := "demo" } (by decide)

theorem buildWorkflowSource_ignores_UserName (env : Env) (ctx : RequestContext)
    (req : CreateRunRequest) (userName fsID : String) (w : World) :
    buildWorkflowSource env ctx { req with UserName := userName } fsID w =
      buildWorkflowSource env ctx req fsID w := by
  simp only [buildWorkflowSource, buildWorkflowSourceToWfs, runYamlAndReqToWfs]

theorem newWorkflowByRun_calls (env : Env) (run : Run) (w : World) :
    (newWorkflowByRun env run w).2.2.calls =
      w.calls ++ [Call.pipeline_NewWorkflow run.WorkflowSource run.ID run.Entry run.Param
        [(env.WfExtraInfoKeySource, run.Source), (env.WfExtraInfoKeyFsID, run.FsID),
         (env.WfExtraInfoKeyUserName, run.UserName), (env.WfExtraInfoKeyFsName, run.FsName)]] := by
  unfold newWorkflowByRun
  simp only []
  split
  · rfl
  · rfl
  · split <;> rfl

theorem handleImageAndStartWf_calls (env : Env) (run : Run) (isResume : Bool) (w : World) :
    ∃ rest, (handleImageAndStartWf env run isResume w).2.calls = w.calls ++ rest := by
  have hnw := newWorkflowByRun_calls env run w
  unfold handleImageAndStartWf
  split
  · split
    · rename_i h; rw [h] at hnw; simp only [] at hnw
      exact ⟨_, by simp only [World.call, hnw, List.append_assoc]; rfl⟩
    · rename_i h; rw [h] at hnw; simp only [] at hnw
      exact ⟨_, hnw⟩
    · rename_i h; rw [h] at hnw; simp only [] at hnw
      simp only []
      split
      · exact ⟨_, by simp only [World.call, hnw, List.append_assoc]; rfl⟩
      · split
        · exact ⟨_, by simp only [World.call, hnw, List.append_assoc]; rfl⟩
        · exact ⟨_, by simp only [World.call, hnw, List.append_assoc]; rfl⟩
  · simp only []
    split
    · exact ⟨_, by simp only [World.call, List.append_assoc]; rfl⟩
    · split
      · exact ⟨_, by simp only [World.call, List.append_assoc]; rfl⟩
      · exact ⟨_, by simp only [World.call, List.append_assoc]; rfl⟩

/-- C13: let fsID be `fs.ID(request.UserName, request.FsName)` when the caller
is root and the UserName of the request is non-empty, and
`fs.ID(ctx.UserName, request.FsName)` in every other case.  CreateRun builds
the workflow source with fsID: its calls start with those of
buildWorkflowSource for fsID, so a run YAML that is read from the filesystem is
read from fsID, and an error of buildWorkflowSource for fsID is the result of
CreateRun.  The run that CreateRun encodes, validates and hands to
models.CreateRun has fsID as its FsID.  For a caller who is not root the
UserName of the request has no effect on CreateRun at all. -/
theorem CreateRun_fsID (env : Env) (ctx : RequestContext) (request : CreateRunRequest)
    (w : World) :
    (∀ fsID,
      ((env.IsRootUser ctx.UserName = true ∧ request.UserName ≠ "") ∧
          fsID = env.fs_ID request.UserName request.FsName) ∨
        (¬ (env.IsRootUser ctx.UserName = true ∧ request.UserName ≠ "") ∧
          fsID = env.fs_ID ctx.UserName request.FsName) →
      (∃ rest, (CreateRun env ctx request w).2.2.2.calls =
        (buildWorkflowSource env ctx request fsID w).world.calls ++ rest) ∧
      (request.RunYamlRaw = "" → request.PipelineID = "" →
        ∃ rest, (CreateRun env ctx request w).2.2.2.calls =
          w.calls ++ Call.handler_ReadFileFromFs fsID
            (if request.RunYamlPath = "" then DefaultRunYamlPath else request.RunYamlPath) ::
            rest) ∧
      (∀ err, (buildWorkflowSource env ctx request fsID w).err = some err →
        CreateRun env ctx request w =
          ({}, some err, (buildWorkflowSource env ctx request fsID w).ctx,
            (buildWorkflowSource env ctx request fsID w).world)) ∧
      (∀ run wf w1, (buildWorkflowSource env ctx request fsID w).err = none →
        ((buildWorkflowSource env ctx request fsID w).wfs.Name ≠ "" &&
          !env.CheckReg (buildWorkflowSource env ctx request fsID w).wfs.Name
            env.RegPatternRunName) = false →
        env.Run_Encode
          { ID := "",
            Name := (buildWorkflowSource env ctx request fsID w).wfs.Name,
            Source := (buildWorkflowSource env ctx request fsID w).source,
            UserName := ctx.UserName,
            FsName := request.FsName,
            FsID := fsID,
            Description := request.Description,
            Param := request.Parameters,
            RunYaml := (buildWorkflowSource env ctx request fsID w).runYaml,
            WorkflowSource := (buildWorkflowSource env ctx request fsID w).wfs,
            Entry := request.Entry,
            Status := StatusRunInitiating } = (run, none) →
        newWorkflowByRun env run (buildWorkflowSource env ctx request fsID w).world =
          (wf, none, w1) →
        ∃ rest, (CreateRun env ctx request w).2.2.2.calls =
          (buildWorkflowSource env ctx request fsID w).world.calls ++
            Call.pipeline_NewWorkflow run.WorkflowSource run.ID run.Entry run.Param
              [(env.WfExtraInfoKeySource, run.Source), (env.WfExtraInfoKeyFsID, run.FsID),
               (env.WfExtraInfoKeyUserName, run.UserName),
               (env.WfExtraInfoKeyFsName, run.FsName)] ::
            Call.models_CreateRun run :: rest)) ∧
    (env.IsRootUser ctx.UserName = false → ∀ userName,
      CreateRun env ctx { request with UserName := userName } w = CreateRun env ctx request w) := by
  constructor
  · intro fsID hcase
    have hfs : createRunFsID env ctx request = fsID := by
      rcases hcase with ⟨h, rfl⟩ | ⟨h, rfl⟩
      · simp [createRunFsID, h.1, h.2]
      · by_cases hroot : env.IsRootUser ctx.UserName = true
        · have : request.UserName = "" := by
            by_contra hne
            exact h ⟨hroot, hne⟩
          simp [createRunFsID, hroot, this]
        · simp [createRunFsID, hroot]
    have htail : ∀ (run : Run) (w1 : World) (mid : List Call),
        w1.calls = (buildWorkflowSource env ctx request fsID w).world.calls ++ mid →
        ∃ rest, (match env.models_CreateRun w1.calls run with
          | (_, _, some err) =>
            (({} : CreateRunResponse), some err,
              { (buildWorkflowSource env ctx request fsID w).ctx with ErrorCode := InternalError },
              w1.call (Call.models_CreateRun run))
          | (run1, runID, none) =>
            match runYamlAndReqToWfs env (buildWorkflowSource env ctx request fsID w).ctx
                run1.RunYaml request with
            | (_, some err, ctx1) => ({}, some err, ctx1, w1.call (Call.models_CreateRun run))
            | (wfs, none, ctx1) =>
              ({ RunID := runID }, none, ctx1,
                (handleImageAndStartWf env { run1 with WorkflowSource := wfs } false
                  (w1.call (Call.models_CreateRun run))).2)).2.2.2.calls =
          (buildWorkflowSource env ctx request fsID w).world.calls ++ mid ++
            Call.models_CreateRun run :: rest := by
      intro run w1 mid hw1
      rcases hcr : env.models_CreateRun w1.calls run with ⟨run1, runID, _ | err⟩
      · simp only []
        rcases hy : runYamlAndReqToWfs env (buildWorkflowSource env ctx request fsID w).ctx
          run1.RunYaml request with ⟨wfs, _ | err, ctx1⟩
        · simp only []
          obtain ⟨rest, hrest⟩ := handleImageAndStartWf_calls env
            { run1 with WorkflowSource := wfs } false (w1.call (Call.models_CreateRun run))
          exact ⟨rest, by rw [hrest]; simp only [World.call, hw1, List.append_assoc,
            List.singleton_append]⟩
        · exact ⟨[], by simp only [World.call, hw1]⟩
      · exact ⟨[], by simp only [World.call, hw1]⟩
    have hcalls : ∃ rest, (CreateRun env ctx request w).2.2.2.calls =
        (buildWorkflowSource env ctx request fsID w).world.calls ++ rest := by
      unfold CreateRun
      simp only [hfs]
      split
      · exact ⟨[], by simp⟩
      · split
        · exact ⟨[], by simp⟩
        · split
          · exact ⟨[], by simp⟩
          · rename_i run henc
            have hnw := newWorkflowByRun_calls env run
              (buildWorkflowSource env ctx request fsID w).world
            split
            · rename_i h; rw [h] at hnw; simp only [] at hnw
              exact ⟨_, hnw⟩
            · rename_i h; rw [h] at hnw; simp only [] at hnw
              obtain ⟨rest, hrest⟩ := htail run _ _ hnw
              exact ⟨_, by rw [hrest, List.append_assoc]⟩
    refine ⟨hcalls, ?_, ?_, ?_⟩
    · intro hraw hppl
      obtain ⟨rest, hrest⟩ := hcalls
      have hb : (buildWorkflowSource env ctx request fsID w).world =
          w.call (Call.handler_ReadFileFromFs fsID
            (if request.RunYamlPath = "" then DefaultRunYamlPath else request.RunYamlPath)) := by
        unfold buildWorkflowSource
        simp only [hraw, hppl, ne_eq, not_true_eq_false, if_false]
        split
        · rfl
        · exact buildWorkflowSourceToWfs_world ..
      rw [hb] at hrest
      exact ⟨rest, by simp only [hrest, World.call, List.append_assoc, List.singleton_append]⟩
    · intro err herr
      unfold CreateRun
      simp only [hfs, herr]
    · intro run wf w1 herr hname henc hnew
      have hnw := newWorkflowByRun_calls env run
        (buildWorkflowSource env ctx request fsID w).world
      rw [hnew] at hnw
      simp only [] at hnw
      unfold CreateRun
      simp only [hfs, herr, hname, createRunRecord, henc, hnew]
      simp only [Bool.false_eq_true, if_false]
      obtain ⟨rest, hrest⟩ := htail run w1 _ hnw
      exact ⟨rest, by rw [hrest]; simp only [List.append_assoc, List.singleton_append]⟩
  · intro hroot userName
    have hfs : ∀ r : CreateRunRequest, createRunFsID env ctx r = env.fs_ID ctx.UserName r.FsName := by
      intro r
      simp [createRunFsID, hroot]
    unfold CreateRun
    simp only [hfs, buildWorkflowSource_ignores_UserName, createRunRecord, runYamlAndReqToWfs]

theorem CreateRun_fsID_witness :
    (∃ rest,
      (CreateRun sampleEnv { UserName := "root" } { UserName := "alice", FsName := "home" }
        {}).2.2.2.calls =
        [] ++ Call.handler_ReadFileFromFs "fs-alice-home" "./run.yaml" :: rest) ∧
    (∃ rest,
      (CreateRun sampleEnv { UserName := "root" } { FsName := "home" } {}).2.2.2.calls =
        [] ++ Call.handler_ReadFileFromFs "fs-root-home" "./run.yaml" :: rest) ∧
    (∃ rest,
      (CreateRun sampleEnv { UserName := "bob" } { UserName := "alice", FsName := "home" }
        {}).2.2.2.calls =
        [] ++ Call.handler_ReadFileFromFs "fs-bob-home" "./run.yaml" :: rest) ∧
    (∃ run rest,
      (CreateRun sampleEnv { UserName := "root" } { UserName := "alice", FsName := "home" }
        {}).2.2.2.calls =
        [Call.handler_ReadFileFromFs "fs-alice-home" "./run.yaml",
          Call.pipeline_NewWorkflow run.WorkflowSource "" "" []
            [("Source", "./run.yaml"), ("FsID", "fs-alice-home"), ("UserName", "root"),
              ("FsName", "home")],
          Call.models_CreateRun run] ++ rest ∧
      run.FsID = "fs-alice-home" ∧ run.UserName = "root") ∧
    CreateRun sampleEnv { UserName := "bob" } { UserName := "alice", FsName := "home" } {} =
      CreateRun sampleEnv { UserName := "bob" } { FsName := "home" } {} :=
  ⟨((CreateRun_fsID sampleEnv { UserName := "root" } { UserName := "alice", FsName := "home" }
      {}).1 "fs-alice-home" (Or.inl ⟨by decide, by decide⟩)).2.1 rfl rfl,
    ((CreateRun_fsID sampleEnv { UserName := "root" } { FsName := "home" } {}).1 "fs-root-home"
      (Or.inr ⟨by decide, by decide⟩)).2.1 rfl rfl,
    ((CreateRun_fsID sampleEnv { UserName := "bob" } { UserName := "alice", FsName := "home" }
      {}).1 "fs-bob-home" (Or.inr ⟨by decide, by decide⟩)).2.1 rfl rfl,
    ⟨{ Name := "file:./run.yaml", Source := "./run.yaml", UserName := "root", FsName := "home",
        FsID := "fs-alice-home", RunYaml := "file:./run.yaml",
        WorkflowSource := { Name := "file:./run.yaml" }, Status := StatusRunInitiating },
      (((CreateRun_fsID sampleEnv { UserName := "root" } { UserName := "alice", FsName := "home" }
        {}).1 "fs-alice-home" (Or.inl ⟨by decide, by decide⟩)).2.2.2
        { Name := "file:./run.yaml", Source := "./run.yaml", UserName := "root", FsName := "home",
          FsID := "fs-alice-home", RunYaml := "file:./run.yaml",
          WorkflowSource := { Name := "file:./run.yaml" }, Status := StatusRunInitiating }
        (some 1)
        { calls := [Call.handler_ReadFileFromFs "fs-alice-home" "./run.yaml",
            Call.pipeline_NewWorkflow { Name := "file:./run.yaml" } "" "" []
              [("Source", "./run.yaml"), ("FsID", "fs-alice-home"), ("UserName", "root"),
                ("FsName", "home")]] }
        (by decide) (by decide) (by decide) (by decide)).imp (fun _ h => ⟨h, rfl, rfl⟩)⟩,
    (CreateRun_fsID sampleEnv { UserName := "bob" } { FsName := "home" } {}).2 (by decide)
      "alice"⟩

/-! ### The registry of workflows -/

theorem mapGet_mapSet {α : Type} (m : List (String × α)) (k k1 : String) (v : α) :
    mapGet (mapSet m k v) k1 = if k = k1 then some v else mapGet m k1 := by
  induction m with
  | nil => simp [mapSet, mapGet]
  | cons e rest ih =>
    obtain ⟨k0, v0⟩ := e
    by_cases h : k0 = k
    · subst h
      by_cases h1 : k0 = k1 <;> simp [mapSet, mapGet, h1]
    · by_cases h1 : k0 = k1
      · subst h1
        have h2 : ¬ k = k0 := fun hh => h hh.symm
        simp [mapSet, mapGet, h, h2]
      · simp [mapSet, mapGet, h, h1, ih]

theorem WfMapGrows.trans {m m1 m2 : List (String × WfPtr)} (h1 : WfMapGrows m m1)
    (h2 : WfMapGrows m1 m2) : WfMapGrows m m2 := by
  induction h2 with
  | refl => exact h1
  | set m3 runID wf hne _ ih => exact WfMapGrows.set m m3 runID wf hne ih

theorem WfMapGrows.keeps {m m1 : List (String × WfPtr)} (h : WfMapGrows m m1) :
    (∀ k, mapGet m k ≠ none → mapGet m1 k ≠ none) ∧ mapGet m1 "" = mapGet m "" := by
  induction h with
  | refl => exact ⟨fun _ hk => hk, rfl⟩
  | set m2 runID wf hne _ ih =>
    constructor
    · intro k hk
      rw [mapGet_mapSet]
      by_cases hkk : runID = k
      · simp [hkk]
      · simpa [hkk] using ih.1 k hk
    · rw [mapGet_mapSet]
      simpa [hne] using ih.2

theorem newWorkflowByRun_wfMap (env : Env) (run : Run) (w : World) :
    ((newWorkflowByRun env run w).2.2.wfMap = w.wfMap ∧
      (run.ID = "" ∨ (newWorkflowByRun env run w).2.1 ≠ none)) ∨
    ∃ wf, run.ID ≠ "" ∧ (newWorkflowByRun env run w).1 = some wf ∧
      (newWorkflowByRun env run w).2.1 = none ∧
      (newWorkflowByRun env run w).2.2.wfMap = mapSet w.wfMap run.ID wf := by
  unfold newWorkflowByRun
  simp only []
  split
  · left; exact ⟨rfl, Or.inr (by simp)⟩
  · left; exact ⟨rfl, Or.inr (by simp)⟩
  · rename_i wf _
    by_cases hid : run.ID = ""
    · left; simp [hid, World.call]
    · right; exact ⟨wf, hid, by simp [hid], by simp [hid], by simp [hid, World.call]⟩

theorem newWorkflowByRun_grows (env : Env) (run : Run) (w : World) :
    WfMapGrows w.wfMap (newWorkflowByRun env run w).2.2.wfMap := by
  rcases newWorkflowByRun_wfMap env run w with h | ⟨wf, hid, _, _, h⟩
  · rw [h.1]; exact WfMapGrows.refl _
  · rw [h]; exact WfMapGrows.set _ _ _ _ hid (WfMapGrows.refl _)

theorem handleImageAndStartWf_grows (env : Env) (run : Run) (isResume : Bool) (w : World) :
    WfMapGrows w.wfMap (handleImageAndStartWf env run isResume w).2.wfMap := by
  have hnw := newWorkflowByRun_grows env run w
  unfold handleImageAndStartWf
  split
  · split
    · rename_i h; rw [h] at hnw; exact hnw
    · rename_i h; rw [h] at hnw; exact hnw
    · rename_i h; rw [h] at hnw
      simp only []
      split
      · exact hnw
      · split
        · exact hnw
        · exact hnw
  · simp only []
    split
    · exact WfMapGrows.refl _
    · split
      · exact WfMapGrows.refl _
      · exact WfMapGrows.refl _

theorem resumeRun_grows (env : Env) (run : Run) (w : World) :
    WfMapGrows w.wfMap (resumeRun env run w).2.wfMap := by
  unfold resumeRun
  split
  · exact WfMapGrows.refl _
  · exact handleImageAndStartWf_grows ..

theorem resumeActiveRunsLoop_grows (env : Env) (runs : List Run) (w : World) :
    WfMapGrows w.wfMap (resumeActiveRunsLoop env runs w).2.wfMap := by
  induction runs generalizing w with
  | nil => exact WfMapGrows.refl _
  | cons run rest ih =>
    have h := resumeRun_grows env run w
    unfold resumeActiveRunsLoop
    split
    · rename_i heq; rw [heq] at h; exact h.trans (ih _)
    · rename_i heq; rw [heq] at h; exact h.trans (ih _)

theorem GetRunByID_wfMap (env : Env) (ctx : RequestContext) (runID : String) (w : World) :
    (GetRunByID env ctx runID w).2.2.2.wfMap = w.wfMap := by
  unfold GetRunByID
  simp only []
  split
  · rfl
  · split <;> rfl

theorem resetRunSteps_wfMap (env : Env) (run : Run) (w : World) :
    (resetRunSteps env run w).2.2.wfMap = w.wfMap := by
  unfold resetRunSteps
  split
  · rfl
  · split <;> rfl

theorem StopRun_wfMap (env : Env) (ctx : RequestContext) (runID : String) (w : World) :
    (StopRun env ctx runID w).2.2.wfMap = w.wfMap := by
  have h := GetRunByID_wfMap env ctx runID w
  unfold StopRun
  split
  · rename_i heq; rw [heq] at h; exact h
  · rename_i heq; rw [heq] at h
    split
    · exact h
    · split
      · exact h
      · split
        · exact h
        · split <;> exact h

theorem DeleteRun_wfMap (env : Env) (ctx : RequestContext) (id : String) (w : World) :
    (DeleteRun env ctx id w).2.2.wfMap = w.wfMap := by
  unfold DeleteRun
  simp only []
  split
  · split <;> rfl
  · split
    · rfl
    · split
      · rfl
      · split <;> rfl

theorem RetryRun_grows (env : Env) (ctx : RequestContext) (runID : String) (w : World) :
    WfMapGrows w.wfMap (RetryRun env ctx runID w).2.2.wfMap := by
  have h := GetRunByID_wfMap env ctx runID w
  unfold RetryRun
  split
  · rename_i heq; rw [heq] at h; simp only at h ⊢; rw [h]; exact WfMapGrows.refl _
  · rename_i run ctx1 w1 heq; rw [heq] at h; simp only at h
    split
    · simp only; rw [h]; exact WfMapGrows.refl _
    · split
      · simp only; rw [h]; exact WfMapGrows.refl _
      · have h2 := resetRunSteps_wfMap env run w1
        split
        · rename_i heq2; rw [heq2] at h2; simp only at h2 ⊢; rw [h2, h]; exact WfMapGrows.refl _
        · rename_i run1 w2 heq2; rw [heq2] at h2; simp only at h2 ⊢
          have h3 := resumeRun_grows env run1 w2
          rw [h2, h] at h3
          exact h3

theorem CreateRun_grows (env : Env) (ctx : RequestContext) (request : CreateRunRequest)
    (w : World) : WfMapGrows w.wfMap (CreateRun env ctx request w).2.2.2.wfMap := by
  have hb := (buildWorkflowSource_calls env ctx request (createRunFsID env ctx request) w).1
  unfold CreateRun
  simp only []
  split
  · simp only; rw [hb]; exact WfMapGrows.refl _
  · split
    · simp only; rw [hb]; exact WfMapGrows.refl _
    · split
      · simp only; rw [hb]; exact WfMapGrows.refl _
      · rename_i run _
        have hnw := newWorkflowByRun_grows env run
          (buildWorkflowSource env ctx request (createRunFsID env ctx request) w).world
        rw [hb] at hnw
        split
        · rename_i heq; rw [heq] at hnw; exact hnw
        · rename_i heq; rw [heq] at hnw
          simp only at hnw ⊢
          split
          · exact hnw
          · split
            · exact hnw
            · rename_i w1 _ run1 _ _ _ wfs _ _
              exact hnw.trans (handleImageAndStartWf_grows env { run1 with WorkflowSource := wfs }
                false (w1.call (Call.models_CreateRun run)))

/-- C15: the registry wfMap only grows.  newWorkflowByRun writes an entry only
when it succeeds on a run whose id is not empty, and the entry maps that id to
the workflow it returns; with an empty id, or when it fails, wfMap is as
before.  StopRun and DeleteRun leave wfMap as it is.  After RetryRun, CreateRun,
resumeRun and the resume loop, wfMap is the old one with entries written under
non-empty run ids, so every run id that had an entry still has one. -/
theorem wfMap_only_grows (env : Env) :
    (∀ run w,
      ((newWorkflowByRun env run w).2.2.wfMap = w.wfMap ∧
        (run.ID = "" ∨ (newWorkflowByRun env run w).2.1 ≠ none)) ∨
      ∃ wf, run.ID ≠ "" ∧ (newWorkflowByRun env run w).1 = some wf ∧
        (newWorkflowByRun env run w).2.1 = none ∧
        (newWorkflowByRun env run w).2.2.wfMap = mapSet w.wfMap run.ID wf ∧
        mapGet (newWorkflowByRun env run w).2.2.wfMap run.ID = some wf) ∧
    (∀ ctx runID w, (StopRun env ctx runID w).2.2.wfMap = w.wfMap) ∧
    (∀ ctx id w, (DeleteRun env ctx id w).2.2.wfMap = w.wfMap) ∧
    (∀ ctx runID w, WfMapGrows w.wfMap (RetryRun env ctx runID w).2.2.wfMap) ∧
    (∀ ctx request w, WfMapGrows w.wfMap (CreateRun env ctx request w).2.2.2.wfMap) ∧
    (∀ run w, WfMapGrows w.wfMap (resumeRun env run w).2.wfMap) ∧
    (∀ runs w, WfMapGrows w.wfMap (resumeActiveRunsLoop env runs w).2.wfMap) ∧
    (∀ m m1, WfMapGrows m m1 →
      (∀ k, mapGet m k ≠ none → mapGet m1 k ≠ none) ∧ mapGet m1 "" = mapGet m "") := by
  refine ⟨?_, StopRun_wfMap env, DeleteRun_wfMap env, RetryRun_grows env, CreateRun_grows env,
    resumeRun_grows env, resumeActiveRunsLoop_grows env, fun _ _ h => h.keeps⟩
  intro run w
  rcases newWorkflowByRun_wfMap env run w with h | ⟨wf, h1, h2, h3, h4⟩
  · exact Or.inl h
  · refine Or.inr ⟨wf, h1, h2, h3, h4, ?_⟩
    rw [h4, mapGet_mapSet]
    simp

theorem wfMap_only_grows_witness :
    (DeleteRun sampleEnv { UserName := "alice" } "run-000002"
        { wfMap := [("run-000002", 7)] }).2.2.wfMap = [("run-000002", 7)] ∧
    mapGet (CreateRun sampleEnv { UserName := "alice" } { RunYamlRaw := "demo" }
        { wfMap := [("run-000002", 7)] }).2.2.2.wfMap "run-000002" ≠ none :=
  ⟨(wfMap_only_grows sampleEnv).2.2.1 { UserName := "alice" } "run-000002"
      { wfMap := [("run-000002", 7)] },
    ((wfMap_only_grows sampleEnv).2.2.2.2.2.2.2 _ _
      ((wfMap_only_grows sampleEnv).2.2.2.2.1 { UserName := "alice" } { RunYamlRaw := "demo" }
        { wfMap := [("run-000002", 7)] })).1 "run-000002" (by decide)⟩

/-! ### Resuming the active runs -/

/-- C16: the resume loop hands every run of its list to resumeRun, in the order
of the list, whatever errors the earlier calls returned: after a run, failed or
not, it goes on with the rest of the list from the world that run left.
resumeActiveRuns starts the loop over the list that models.ListRunsByStatus
returned, and InitAndResumeRuns returns a nil error whenever the image handler
is initialised without error, whatever resumeActiveRuns returns. -/
theorem resume_sweep_never_aborts (env : Env) :
    (∀ runs w, (resumeActiveRunsLoop env runs w).1.map Prod.fst = runs) ∧
    (∀ run rest w,
      resumeActiveRunsLoop env (run :: rest) w =
        ((run, (resumeRun env run w).1) :: (resumeActiveRunsLoop env rest (resumeRun env run w).2).1,
          (resumeActiveRunsLoop env rest (resumeRun env run w).2).2)) ∧
    (∀ w runList, env.models_ListRunsByStatus w.calls env.RunActiveStatus = (runList, none) →
      (resumeActiveRuns env w).2.2 = some runList) ∧
    (∀ w imageHandler, env.handler_InitPFImageHandler w.calls = (imageHandler, none) →
      (InitAndResumeRuns env w).1 = imageHandler ∧
      (InitAndResumeRuns env w).2.1 = none ∧
      (InitAndResumeRuns env w).2.2.2 =
        (resumeActiveRuns env (w.call Call.handler_InitPFImageHandler)).2.2) := by
  have hstep : ∀ run rest w,
      resumeActiveRunsLoop env (run :: rest) w =
        ((run, (resumeRun env run w).1) :: (resumeActiveRunsLoop env rest (resumeRun env run w).2).1,
          (resumeActiveRunsLoop env rest (resumeRun env run w).2).2) := by
    intro run rest w
    rcases h : resumeRun env run w with ⟨e, w1⟩
    cases e <;> simp [resumeActiveRunsLoop, h]
  refine ⟨?_, hstep, ?_, ?_⟩
  · intro runs
    induction runs with
    | nil => intro w; rfl
    | cons run rest ih =>
      intro w
      rw [hstep]
      simp [ih]
  · intro w runList h
    simp [resumeActiveRuns, h]
  · intro w imageHandler h
    simp [InitAndResumeRuns, h]

theorem resume_sweep_never_aborts_witness :
    (resumeRun sampleEnvBadYaml sampleBrokenRun {}).1 ≠ none ∧
    resumeActiveRunsLoop sampleEnvBadYaml [sampleBrokenRun, sampleActiveRun] {} =
      ((sampleBrokenRun, (resumeRun sampleEnvBadYaml sampleBrokenRun {}).1) ::
          (resumeActiveRunsLoop sampleEnvBadYaml [sampleActiveRun]
            (resumeRun sampleEnvBadYaml sampleBrokenRun {}).2).1,
        (resumeActiveRunsLoop sampleEnvBadYaml [sampleActiveRun]
          (resumeRun sampleEnvBadYaml sampleBrokenRun {}).2).2) ∧
    Call.Workflow_Restart 0 ∈
      (resumeActiveRunsLoop sampleEnvBadYaml [sampleBrokenRun, sampleActiveRun] {}).2.calls ∧
    (InitAndResumeRuns sampleEnv {}).1 = some 1 ∧
    (InitAndResumeRuns sampleEnv {}).2.1 = none ∧
    (InitAndResumeRuns sampleEnv {}).2.2.2 =
      (resumeActiveRuns sampleEnv (World.call {} Call.handler_InitPFImageHandler)).2.2 :=
  ⟨by decide,
    (resume_sweep_never_aborts sampleEnvBadYaml).2.1 sampleBrokenRun [sampleActiveRun] {},
    by decide,
    (resume_sweep_never_aborts sampleEnv).2.2.2 {} (some 1) (by decide)⟩

/-! ### Topological sort -/

theorem insertName_perm (name : String) (l : List String) :
    (insertName name l).Perm (name :: l) := by
  induction l with
  | nil => simp [insertName]
  | cons m rest ih =>
    simp only [insertName]
    split
    · exact (List.Perm.cons m ih).trans (List.Perm.swap name m rest)
    · exact List.Perm.refl _

theorem sortNames_perm (l : List String) : (sortNames l).Perm l := by
  induction l with
  | nil => exact List.Perm.refl _
  | cons name rest ih =>
    simp only [sortNames]
    exact (insertName_perm name _).trans (List.Perm.cons name ih)

theorem stepReady_iff (entrypoints : List (String × WorkflowSourceStep)) (remaining : List String)
    (name : String) :
    stepReady entrypoints remaining name = true ↔
      ∀ d ∈ stepDeps entrypoints name, d ∉ remaining := by
  simp [stepReady]

theorem exists_stepReady (entrypoints : List (String × WorkflowSourceStep))
    (hac : Acyclic entrypoints) (remaining : List String) (hne : remaining ≠ [])
    (hsub : ∀ x ∈ remaining, x ∈ mapKeys entrypoints) :
    ∃ x ∈ remaining, stepReady entrypoints remaining x = true := by
  let r : {x // x ∈ remaining} → {x // x ∈ remaining} → Prop :=
    fun a b => Relation.TransGen (DependsOn entrypoints) b.1 a.1
  haveI : IsTrans _ r := ⟨fun a b c hab hbc => Relation.TransGen.trans hbc hab⟩
  haveI : IsIrrefl _ r := ⟨fun a h => hac a.1 h⟩
  have hwf : WellFounded r := Finite.wellFounded_of_trans_of_irrefl r
  obtain ⟨x0, hx0⟩ := List.exists_mem_of_ne_nil remaining hne
  obtain ⟨m, -, hmin⟩ := hwf.has_min Set.univ ⟨⟨x0, hx0⟩, trivial⟩
  refine ⟨m.1, m.2, ?_⟩
  rw [stepReady_iff]
  intro d hd hdr
  exact hmin ⟨d, hdr⟩ trivial (Relation.TransGen.single ⟨hd, hsub d hdr⟩)

theorem topologicalSortRounds_ok (entrypoints : List (String × WorkflowSourceStep))
    (hac : Acyclic entrypoints) :
    ∀ (n : Nat) (remaining sorted : List String), remaining.length = n → remaining.Nodup →
      (∀ x ∈ remaining, x ∈ mapKeys entrypoints) →
      ∃ order, topologicalSortRounds entrypoints n remaining sorted = (sorted ++ order, none) ∧
        order.Perm remaining ∧
        ∀ pre s post, order = pre ++ s :: post →
          ∀ d ∈ stepDeps entrypoints s, d ∈ remaining → d ∈ pre := by
  intro n
  induction n with
  | zero =>
    intro remaining sorted hlen _ _
    have : remaining = [] := List.length_eq_zero.mp hlen
    subst this
    refine ⟨[], by simp [topologicalSortRounds], List.Perm.refl _, ?_⟩
    intro pre s post h
    simp at h
  | succ n ih =>
    intro remaining sorted hlen hnd hsub
    have hne : remaining ≠ [] := by
      intro h; subst h; simp at hlen
    obtain ⟨x, hx, hready⟩ := exists_stepReady entrypoints hac remaining hne hsub
    rcases hfind : remaining.find? (stepReady entrypoints remaining) with _ | name
    · exact absurd hready (List.find?_eq_none.mp hfind x hx)
    · have hmem : name ∈ remaining := List.mem_of_find?_eq_some hfind
      have hrdy : stepReady entrypoints remaining name = true := List.find?_some hfind
      have hlen2 : (remaining.erase name).length = n := by
        rw [List.length_erase_of_mem hmem, hlen]; rfl
      obtain ⟨order, hrun, hperm, hord⟩ := ih (remaining.erase name) (sorted ++ [name]) hlen2
        (hnd.erase name) (fun y hy => hsub y (List.mem_of_mem_erase hy))
      refine ⟨name :: order, ?_, ?_, ?_⟩
      · simp [topologicalSortRounds, hfind, hrun]
      · exact (List.Perm.cons name hperm).trans (List.perm_cons_erase hmem).symm
      · intro pre s post heq d hd hdr
        cases pre with
        | nil =>
          simp only [List.nil_append, List.cons.injEq] at heq
          rw [← heq.1] at hd
          exact absurd hdr ((stepReady_iff _ _ _).mp hrdy d hd)
        | cons p pre1 =>
          simp only [List.cons_append, List.cons.injEq] at heq
          by_cases hdn : d = name
          · rw [hdn, heq.1]; exact List.mem_cons_self _ _
          · exact List.mem_cons_of_mem _
              (hord pre1 s post heq.2 d hd ((List.mem_erase_of_ne hdn).mpr hdr))

theorem topologicalSortRounds_error (entrypoints : List (String × WorkflowSourceStep))
    (c : String) (hc : Relation.TransGen (DependsOn entrypoints) c c) :
    ∀ (n : Nat) (remaining sorted : List String), remaining.length = n →
      (∀ x, Relation.TransGen (DependsOn entrypoints) x x → x ∈ remaining) →
      (topologicalSortRounds entrypoints n remaining sorted).2 ≠ none := by
  intro n
  induction n with
  | zero =>
    intro remaining sorted hlen hall
    have : remaining = [] := List.length_eq_zero.mp hlen
    subst this
    exact absurd (hall c hc) (List.not_mem_nil c)
  | succ n ih =>
    intro remaining sorted hlen hall
    rcases hfind : remaining.find? (stepReady entrypoints remaining) with _ | name
    · simp [topologicalSortRounds, hfind]
    · have hmem : name ∈ remaining := List.mem_of_find?_eq_some hfind
      have hrdy : stepReady entrypoints remaining name = true := List.find?_some hfind
      have hlen2 : (remaining.erase name).length = n := by
        rw [List.length_erase_of_mem hmem, hlen]; rfl
      simp only [topologicalSortRounds, hfind]
      apply ih _ _ hlen2
      intro x hx
      have hxn : x ≠ name := by
        intro hxn
        subst hxn
        obtain ⟨y, hxy, hyx⟩ := Relation.TransGen.head'_iff.mp hx
        have hy : Relation.TransGen (DependsOn entrypoints) y y :=
          Relation.TransGen.trans_right hyx (Relation.TransGen.single hxy)
        exact (stepReady_iff _ _ _).mp hrdy y hxy.1 (hall y hy)
      exact (List.mem_erase_of_ne hxn).mpr (hall x hx)

theorem mapGet_isSome_iff {α : Type} (m : List (String × α)) (k : String) :
    (∃ v, mapGet m k = some v) ↔ k ∈ mapKeys m := by
  induction m with
  | nil => simp [mapGet, mapKeys]
  | cons e rest ih =>
    obtain ⟨k0, v0⟩ := e
    by_cases h : k0 = k
    · simp [mapGet, mapKeys, h]
    · have h2 : ¬ k = k0 := fun hh => h hh.symm
      simpa [mapGet, mapKeys, h, h2] using ih

theorem DependsOn.left_mem {entrypoints : List (String × WorkflowSourceStep)} {a b : String}
    (h : DependsOn entrypoints a b) : a ∈ mapKeys entrypoints := by
  have h1 := h.1
  unfold stepDeps at h1
  rcases hg : mapGet entrypoints a with _ | step
  · rw [hg] at h1; simp at h1
  · exact (mapGet_isSome_iff _ _).mp ⟨step, hg⟩

theorem acyclic_of_rank (entrypoints : List (String × WorkflowSourceStep)) (rank : String → Nat)
    (h : ∀ a ∈ mapKeys entrypoints, ∀ b ∈ stepDeps entrypoints a, b ∈ mapKeys entrypoints →
      rank b < rank a) : Acyclic entrypoints := by
  have key : ∀ a b, Relation.TransGen (DependsOn entrypoints) a b → rank b < rank a := by
    intro a b hab
    induction hab with
    | single hd => exact h _ hd.left_mem _ hd.1 hd.2
    | tail _ hd ih => exact lt_trans (h _ hd.left_mem _ hd.1 hd.2) ih
  intro name hname
  exact lt_irrefl _ (key name name hname)

/-- C17: for every workflow source with distinct step names whose dependency
graph is acyclic, topologicalSort returns no error and a list that is a
permutation of the step names without repetition, in which every step comes
after each step of its dependency list. -/
theorem topologicalSort_of_acyclic (entrypoints : List (String × WorkflowSourceStep))
    (hnd : (mapKeys entrypoints).Nodup) (hac : Acyclic entrypoints) :
    ∃ order, topologicalSort entrypoints = (order, none) ∧
      order.Perm (mapKeys entrypoints) ∧ order.Nodup ∧
      ∀ pre s post, order = pre ++ s :: post →
        ∀ d ∈ stepDeps entrypoints s, d ∈ mapKeys entrypoints → d ∈ pre := by
  have hperm := sortNames_perm (mapKeys entrypoints)
  obtain ⟨order, hrun, hp, hord⟩ := topologicalSortRounds_ok entrypoints hac entrypoints.length
    (sortNames (mapKeys entrypoints)) []
    (by rw [hperm.length_eq]; simp [mapKeys])
    (hperm.nodup_iff.mpr hnd)
    (fun x hx => hperm.mem_iff.mp hx)
  refine ⟨order, by simpa [topologicalSort] using hrun, hp.trans hperm,
    (hp.trans hperm).nodup_iff.mpr hnd, ?_⟩
  intro pre s post heq d hd hdk
  exact hord pre s post heq d hd (hperm.mem_iff.mpr hdk)

theorem sampleSource_acyclic : Acyclic sampleSource.EntryPoints :=
  acyclic_of_rank _ (fun s => List.indexOf s ["data_preprocess", "main", "validate"]) (by decide)

theorem topologicalSort_of_acyclic_witness :
    topologicalSort sampleSource.EntryPoints = (["data_preprocess", "main", "validate"], none) ∧
    ∃ order, topologicalSort sampleSource.EntryPoints = (order, none) ∧
      order.Perm (mapKeys sampleSource.EntryPoints) ∧ order.Nodup ∧
      ∀ pre s post, order = pre ++ s :: post →
        ∀ d ∈ stepDeps sampleSource.EntryPoints s, d ∈ mapKeys sampleSource.EntryPoints → d ∈ pre :=
  ⟨by decide,
    topologicalSort_of_acyclic sampleSource.EntryPoints (by decide) sampleSource_acyclic⟩

/-! ### The run steps of an entry -/

theorem mem_closureRound (entrypoints : List (String × WorkflowSourceStep))
    (names acc : List String) (x : String) :
    x ∈ closureRound entrypoints names acc ↔
      x ∈ names ∧ (x ∈ acc ∨ ∃ a ∈ acc, x ∈ stepDeps entrypoints a) := by
  simp [closureRound]

theorem filter_mem_filter (names : List String) (q : String → Bool) :
    names.filter (fun s => decide (s ∈ names.filter q)) = names.filter q := by
  apply List.filter_congr
  intro s hs
  simp [List.mem_filter, hs]

theorem closureRound_canon (entrypoints : List (String × WorkflowSourceStep))
    (names acc : List String) :
    names.filter (fun s => decide (s ∈ closureRound entrypoints names acc)) =
      closureRound entrypoints names acc := by
  unfold closureRound
  exact filter_mem_filter names _

theorem sublist_closureRound (entrypoints : List (String × WorkflowSourceStep))
    (names acc : List String) (hc : names.filter (fun s => decide (s ∈ acc)) = acc) :
    acc.Sublist (closureRound entrypoints names acc) := by
  conv_lhs => rw [← hc]
  unfold closureRound
  apply List.monotone_filter_right
  intro s hs
  simp only [decide_eq_true_eq] at hs
  simp [hs]

theorem closureRounds_canon (entrypoints : List (String × WorkflowSourceStep))
    (names : List String) :
    ∀ (n : Nat) (acc : List String), names.filter (fun s => decide (s ∈ acc)) = acc →
      names.filter (fun s => decide (s ∈ closureRounds entrypoints names n acc)) =
        closureRounds entrypoints names n acc := by
  intro n
  induction n with
  | zero => intro acc hc; exact hc
  | succ n ih =>
    intro acc _
    exact ih _ (closureRound_canon entrypoints names acc)

theorem closureRounds_of_fixed (entrypoints : List (String × WorkflowSourceStep))
    (names acc : List String) (hfix : closureRound entrypoints names acc = acc) :
    ∀ n, closureRounds entrypoints names n acc = acc := by
  intro n
  induction n with
  | zero => rfl
  | succ n ih => simp only [closureRounds, hfix, ih]

theorem closureRounds_fixed_or_long (entrypoints : List (String × WorkflowSourceStep))
    (names : List String) :
    ∀ (n : Nat) (acc : List String), names.filter (fun s => decide (s ∈ acc)) = acc →
      closureRound entrypoints names (closureRounds entrypoints names n acc) =
          closureRounds entrypoints names n acc ∨
        acc.length + n ≤ (closureRounds entrypoints names n acc).length := by
  intro n
  induction n with
  | zero => intro acc _; right; simp [closureRounds]
  | succ n ih =>
    intro acc hc
    by_cases hfix : closureRound entrypoints names acc = acc
    · left
      rw [closureRounds_of_fixed entrypoints names acc hfix]
      exact hfix
    · have hsub := sublist_closureRound entrypoints names acc hc
      have hlt : acc.length < (closureRound entrypoints names acc).length := by
        rcases Nat.lt_or_ge acc.length (closureRound entrypoints names acc).length with h | h
        · exact h
        · exact absurd (hsub.eq_of_length_le h).symm hfix
      rcases ih _ (closureRound_canon entrypoints names acc) with h | h
      · left; exact h
      · right
        simp only [closureRounds]
        omega

theorem subset_closureRounds (entrypoints : List (String × WorkflowSourceStep))
    (names : List String) :
    ∀ (n : Nat) (acc : List String), names.filter (fun s => decide (s ∈ acc)) = acc →
      ∀ x ∈ acc, x ∈ closureRounds entrypoints names n acc := by
  intro n
  induction n with
  | zero => intro acc _ x hx; exact hx
  | succ n ih =>
    intro acc hc x hx
    exact ih _ (closureRound_canon entrypoints names acc) x
      ((sublist_closureRound entrypoints names acc hc).subset hx)

theorem closureRounds_sound (entrypoints : List (String × WorkflowSourceStep)) (entry : String) :
    ∀ (n : Nat) (acc : List String),
      (∀ y ∈ acc, y ∈ mapKeys entrypoints ∧
        Relation.ReflTransGen (DependsOn entrypoints) entry y) →
      ∀ x ∈ closureRounds entrypoints (mapKeys entrypoints) n acc,
        x ∈ mapKeys entrypoints ∧ Relation.ReflTransGen (DependsOn entrypoints) entry x := by
  intro n
  induction n with
  | zero => intro acc h x hx; exact h x hx
  | succ n ih =>
    intro acc h x hx
    refine ih _ ?_ x hx
    intro y hy
    rw [mem_closureRound] at hy
    rcases hy.2 with h1 | ⟨a, ha, hd⟩
    · exact h y h1
    · exact ⟨hy.1, Relation.ReflTransGen.tail (h a ha).2 ⟨hd, hy.1⟩⟩

theorem mem_upstreamClosure_iff (entrypoints : List (String × WorkflowSourceStep))
    (entry x : String) :
    x ∈ upstreamClosure entrypoints entry ↔
      x ∈ mapKeys entrypoints ∧ Relation.ReflTransGen (DependsOn entrypoints) entry x := by
  constructor
  · intro hx
    refine closureRounds_sound entrypoints entry _ _ ?_ x hx
    intro y hy
    simp only [List.mem_filter, decide_eq_true_eq] at hy
    rw [hy.2]
    exact ⟨hy.2 ▸ hy.1, Relation.ReflTransGen.refl⟩
  · rintro ⟨hxk, hx⟩
    have he : entry ∈ mapKeys entrypoints := by
      rcases Relation.ReflTransGen.cases_head hx with h | ⟨b, hb, _⟩
      · rw [h]; exact hxk
      · exact hb.left_mem
    have hc0 : (mapKeys entrypoints).filter
        (fun s => decide (s ∈ (mapKeys entrypoints).filter (fun s => decide (s = entry)))) =
        (mapKeys entrypoints).filter (fun s => decide (s = entry)) :=
      filter_mem_filter _ _
    have he0 : entry ∈ (mapKeys entrypoints).filter (fun s => decide (s = entry)) := by
      simp [List.mem_filter, he]
    have hfix : closureRound entrypoints (mapKeys entrypoints) (upstreamClosure entrypoints entry) =
        upstreamClosure entrypoints entry := by
      rcases closureRounds_fixed_or_long entrypoints (mapKeys entrypoints) entrypoints.length _ hc0
        with h | h
      · exact h
      · exfalso
        have hcanon := closureRounds_canon entrypoints (mapKeys entrypoints) entrypoints.length _ hc0
        have hle : (closureRounds entrypoints (mapKeys entrypoints) entrypoints.length
            ((mapKeys entrypoints).filter (fun s => decide (s = entry)))).length ≤
            (mapKeys entrypoints).length := by
          rw [← hcanon]
          exact List.length_filter_le _ _
        have hpos : 0 < ((mapKeys entrypoints).filter (fun s => decide (s = entry))).length :=
          List.length_pos_of_mem he0
        have hk : (mapKeys entrypoints).length = entrypoints.length := by simp [mapKeys]
        omega
    have hmem0 : entry ∈ upstreamClosure entrypoints entry :=
      subset_closureRounds entrypoints (mapKeys entrypoints) entrypoints.length _ hc0 entry he0
    induction hx with
    | refl => exact hmem0
    | tail _ hd ih =>
      rename_i b c _
      have hb : b ∈ mapKeys entrypoints := hd.left_mem
      rw [← hfix, mem_closureRound]
      exact ⟨hd.2, Or.inr ⟨b, ih hb, hd.1⟩⟩

/-! ### Cycles -/

theorem replaceRunParams_nil (entrypoints : List (String × WorkflowSourceStep)) :
    replaceRunParams entrypoints [] = (entrypoints, none) := rfl

theorem validate_of_no_params (bwf : BaseWorkflow) (h : bwf.Params = []) :
    (validate bwf).2 = validateRunSteps bwf := by
  have hb : bwf.withEntryPoints bwf.Source.EntryPoints = bwf := rfl
  unfold validate
  rw [h, replaceRunParams_nil]
  simp only [hb]
  split
  · rename_i err heq; rw [heq]
  · rename_i heq; rw [heq]

/-- C18: for every workflow source whose dependency graph contains a cycle,
topologicalSort returns a non-nil error, and validate of a workflow over that
source, with no entry and no parameter override, returns that error. -/
theorem topologicalSort_of_cycle (entrypoints : List (String × WorkflowSourceStep)) (c : String)
    (hc : Relation.TransGen (DependsOn entrypoints) c c) :
    (topologicalSort entrypoints).2 ≠ none ∧
    ∀ bwf : BaseWorkflow, bwf.Source.EntryPoints = entrypoints → bwf.Entry = "" →
      bwf.Params = [] →
      (validate bwf).2 = (topologicalSort entrypoints).2 := by
  have hperm := sortNames_perm (mapKeys entrypoints)
  have herr : (topologicalSort entrypoints).2 ≠ none := by
    unfold topologicalSort
    apply topologicalSortRounds_error entrypoints c hc
    · rw [hperm.length_eq]; simp [mapKeys]
    · intro x hx
      obtain ⟨y, hxy, _⟩ := Relation.TransGen.head'_iff.mp hx
      exact hperm.mem_iff.mpr hxy.left_mem
  refine ⟨herr, ?_⟩
  intro bwf hsrc hentry hparams
  rw [validate_of_no_params bwf hparams]
  unfold validateRunSteps getRunSteps
  simp only [hentry, if_true, hsrc]
  rcases hts : topologicalSort entrypoints with ⟨order, e⟩
  rw [hts] at herr
  cases e with
  | none => exact absurd rfl herr
  | some err => rfl

theorem sampleCircleSource_cycle :
    Relation.TransGen (DependsOn sampleCircleSource.EntryPoints) "data_preprocess"
      "data_preprocess" :=
  Relation.TransGen.tail
    (Relation.TransGen.tail
      (Relation.TransGen.single (show DependsOn sampleCircleSource.EntryPoints "data_preprocess"
        "validate" by decide))
      (show DependsOn sampleCircleSource.EntryPoints "validate" "main" by decide))
    (show DependsOn sampleCircleSource.EntryPoints "main" "data_preprocess" by decide)

theorem topologicalSort_of_cycle_witness :
    (topologicalSort sampleCircleSource.EntryPoints).2 ≠ none ∧
    (validate (NewBaseWorkflow sampleCircleSource "" "" [] [])).2 =
      (topologicalSort sampleCircleSource.EntryPoints).2 :=
  ⟨(topologicalSort_of_cycle sampleCircleSource.EntryPoints "data_preprocess"
      sampleCircleSource_cycle).1,
    (topologicalSort_of_cycle sampleCircleSource.EntryPoints "data_preprocess"
      sampleCircleSource_cycle).2 (NewBaseWorkflow sampleCircleSource "" "" [] []) rfl rfl rfl⟩

/-! ### Entry pruning -/

theorem mapKeys_filter_key {α : Type} (m : List (String × α)) (q : String → Bool) :
    mapKeys (m.filter (fun e => q e.1)) = (mapKeys m).filter q := by
  induction m with
  | nil => rfl
  | cons e rest ih =>
    by_cases h : q e.1 = true
    · simp only [mapKeys] at ih
      simp [mapKeys, List.filter_cons, h, ih]
    · simp only [mapKeys] at ih
      simp [mapKeys, List.filter_cons, h, ih]

theorem mapGet_filter_key {α : Type} (m : List (String × α)) (q : String → Bool) (k : String) :
    mapGet (m.filter (fun e => q e.1)) k = if q k = true then mapGet m k else none := by
  induction m with
  | nil => simp [mapGet]
  | cons e rest ih =>
    obtain ⟨k0, v0⟩ := e
    by_cases hq0 : q k0 = true
    · by_cases hk : k0 = k
      · subst hk; simp [List.filter_cons, hq0, mapGet]
      · simp [List.filter_cons, hq0, mapGet, hk, ih]
    · by_cases hk : k0 = k
      · subst hk; simp [List.filter_cons, hq0, mapGet, ih]
      · simp [List.filter_cons, hq0, mapGet, hk, ih]

theorem mapKeys_mapSet_of_mem {α : Type} (m : List (String × α)) (k : String) (v : α)
    (h : k ∈ mapKeys m) : mapKeys (mapSet m k v) = mapKeys m := by
  induction m with
  | nil => simp [mapKeys] at h
  | cons e rest ih =>
    obtain ⟨k0, v0⟩ := e
    by_cases hk : k0 = k
    · simp [mapSet, mapKeys, hk]
    · have hk2 : ¬ k = k0 := fun hh => hk hh.symm
      simp only [mapKeys, List.map_cons, List.mem_cons, hk2, false_or] at h
      have := ih h
      simp only [mapKeys] at this
      simp [mapSet, mapKeys, hk, this]

theorem filter_mapSet_of_not {α : Type} (m : List (String × α)) (q : String → Bool) (k : String)
    (v : α) (h : q k = false) :
    (mapSet m k v).filter (fun e => q e.1) = m.filter (fun e => q e.1) := by
  induction m with
  | nil => simp [mapSet, h]
  | cons e rest ih =>
    obtain ⟨k0, v0⟩ := e
    by_cases hk : k0 = k
    · subst hk; simp [mapSet, List.filter_cons, h]
    · simp [mapSet, List.filter_cons, hk, ih]

theorem stepDeps_mapSet_of_ne (entrypoints : List (String × WorkflowSourceStep)) (t a : String)
    (step : WorkflowSourceStep) (h : a ≠ t) :
    stepDeps (mapSet entrypoints t step) a = stepDeps entrypoints a := by
  have h2 : ¬ t = a := fun hh => h hh.symm
  simp [stepDeps, mapGet_mapSet, h2]

theorem closureRounds_congr (eps1 eps2 : List (String × WorkflowSourceStep)) (names : List String)
    (entry : String) (hk : names = mapKeys eps2)
    (hdeps : ∀ a, Relation.ReflTransGen (DependsOn eps2) entry a → stepDeps eps1 a = stepDeps eps2 a) :
    ∀ (n : Nat) (acc : List String),
      (∀ y ∈ acc, y ∈ mapKeys eps2 ∧ Relation.ReflTransGen (DependsOn eps2) entry y) →
      closureRounds eps1 names n acc = closureRounds eps2 names n acc := by
  intro n
  induction n with
  | zero => intro acc _; rfl
  | succ n ih =>
    intro acc hacc
    have hround : closureRound eps1 names acc = closureRound eps2 names acc := by
      unfold closureRound
      apply List.filter_congr
      intro s _
      congr 1
      rw [List.any_eq, List.any_eq]
      apply decide_eq_decide.mpr
      constructor
      · rintro ⟨a, ha, hd⟩
        exact ⟨a, ha, by rw [← hdeps a (hacc a ha).2]; exact hd⟩
      · rintro ⟨a, ha, hd⟩
        exact ⟨a, ha, by rw [hdeps a (hacc a ha).2]; exact hd⟩
    simp only [closureRounds, hround]
    apply ih
    intro y hy
    subst hk
    rw [mem_closureRound] at hy
    rcases hy.2 with h1 | ⟨a, ha, hd⟩
    · exact hacc y h1
    · exact ⟨hy.1, Relation.ReflTransGen.tail (hacc a ha).2 ⟨hd, hy.1⟩⟩

theorem getRunSteps_mapSet_outside (bwf : BaseWorkflow) (t : String) (step : WorkflowSourceStep)
    (hentry : bwf.Entry ≠ "") (ht : t ∈ mapKeys bwf.Source.EntryPoints)
    (hout : t ∉ mapKeys (getRunSteps bwf)) :
    getRunSteps (bwf.withEntryPoints (mapSet bwf.Source.EntryPoints t step)) = getRunSteps bwf := by
  have hrun : mapKeys (getRunSteps bwf) = (mapKeys bwf.Source.EntryPoints).filter
      (fun k => decide (k ∈ upstreamClosure bwf.Source.EntryPoints bwf.Entry)) := by
    unfold getRunSteps
    simp only [hentry, if_false]
    exact mapKeys_filter_key _
      (fun k => decide (k ∈ upstreamClosure bwf.Source.EntryPoints bwf.Entry))
  have htc : t ∉ upstreamClosure bwf.Source.EntryPoints bwf.Entry := by
    intro hmem
    apply hout
    rw [hrun]
    simp [List.mem_filter, ht, hmem]
  have hkeys := mapKeys_mapSet_of_mem bwf.Source.EntryPoints t step ht
  have hlen : (mapSet bwf.Source.EntryPoints t step).length = bwf.Source.EntryPoints.length := by
    have := congrArg List.length hkeys
    simpa [mapKeys] using this
  have hclo : upstreamClosure (mapSet bwf.Source.EntryPoints t step) bwf.Entry =
      upstreamClosure bwf.Source.EntryPoints bwf.Entry := by
    unfold upstreamClosure
    rw [hkeys, hlen]
    apply closureRounds_congr _ _ _ bwf.Entry rfl
    · intro a ha
      apply stepDeps_mapSet_of_ne
      intro hat
      subst hat
      rcases Relation.ReflTransGen.cases_tail ha with h | ⟨b, _, hb⟩
      · exact htc ((mem_upstreamClosure_iff _ _ _).mpr ⟨ht, h ▸ Relation.ReflTransGen.refl⟩)
      · exact htc ((mem_upstreamClosure_iff _ _ _).mpr ⟨hb.2, ha⟩)
    · intro y hy
      simp only [List.mem_filter, decide_eq_true_eq] at hy
      rw [hy.2]
      exact ⟨hy.2 ▸ hy.1, Relation.ReflTransGen.refl⟩
  unfold getRunSteps BaseWorkflow.withEntryPoints
  simp only [hentry, if_false, hclo]
  exact filter_mapSet_of_not _
    (fun k => decide (k ∈ upstreamClosure bwf.Source.EntryPoints bwf.Entry)) t step (by simp [htc])

/-- C19: for a workflow whose entry is a declared step, the names of the run
steps (getRunSteps) are exactly the entry and its transitive dependencies, each
run step is the step of the source, and the step map of the runtime has the same
names; validate (without parameter overrides) checks only those steps: putting
any other step in the place of a declared step outside that set leaves the
result of validate unchanged. -/
theorem getRunSteps_is_entry_closure (bwf : BaseWorkflow) (hentry : bwf.Entry ≠ "")
    (hdecl : bwf.Entry ∈ mapKeys bwf.Source.EntryPoints) :
    (∀ x, x ∈ mapKeys (getRunSteps bwf) ↔
      (x = bwf.Entry ∨ Relation.TransGen (DependsOn bwf.Source.EntryPoints) bwf.Entry x)) ∧
    (∀ x ∈ mapKeys (getRunSteps bwf),
      mapGet (getRunSteps bwf) x = mapGet bwf.Source.EntryPoints x) ∧
    mapKeys (newWorkflowRuntimeSteps bwf) = mapKeys (getRunSteps bwf) ∧
    (bwf.Params = [] → ∀ t step, t ∈ mapKeys bwf.Source.EntryPoints →
      t ∉ mapKeys (getRunSteps bwf) →
      (validate (bwf.withEntryPoints (mapSet bwf.Source.EntryPoints t step))).2 =
        (validate bwf).2) := by
  have hrun : getRunSteps bwf = bwf.Source.EntryPoints.filter
      (fun e => (fun k => decide (k ∈ upstreamClosure bwf.Source.EntryPoints bwf.Entry)) e.1) := by
    unfold getRunSteps
    simp only [hentry, if_false]
  have hkeys : ∀ x, x ∈ mapKeys (getRunSteps bwf) ↔
      x ∈ upstreamClosure bwf.Source.EntryPoints bwf.Entry := by
    intro x
    rw [hrun, mapKeys_filter_key _
      (fun k => decide (k ∈ upstreamClosure bwf.Source.EntryPoints bwf.Entry))]
    simp only [List.mem_filter, decide_eq_true_eq, and_iff_right_iff_imp]
    intro hx
    exact ((mem_upstreamClosure_iff _ _ _).mp hx).1
  refine ⟨?_, ?_, ?_, ?_⟩
  · intro x
    rw [hkeys, mem_upstreamClosure_iff, Relation.reflTransGen_iff_eq_or_transGen]
    constructor
    · rintro ⟨_, h⟩
      exact h
    · intro h
      refine ⟨?_, h⟩
      rcases h with h | h
      · rw [h]; exact hdecl
      · obtain ⟨b, _, hb⟩ := Relation.TransGen.tail'_iff.mp h
        exact hb.2
  · intro x hx
    have hx2 := (hkeys x).mp hx
    rw [hrun, mapGet_filter_key _
      (fun k => decide (k ∈ upstreamClosure bwf.Source.EntryPoints bwf.Entry))]
    simp [hx2]
  · simp [newWorkflowRuntimeSteps, mapKeys, Function.comp_def]
  · intro hparams t step ht hout
    have hparams2 : (bwf.withEntryPoints (mapSet bwf.Source.EntryPoints t step)).Params = [] :=
      hparams
    rw [validate_of_no_params _ hparams, validate_of_no_params _ hparams2]
    unfold validateRunSteps
    rw [getRunSteps_mapSet_outside bwf t step hentry ht hout]

theorem getRunSteps_is_entry_closure_witness :
    mapKeys (getRunSteps (NewBaseWorkflow sampleSource "" "main" [] [])) =
      ["data_preprocess", "main"] ∧
    (∀ x, x ∈ mapKeys (getRunSteps (NewBaseWorkflow sampleSource "" "main" [] [])) ↔
      (x = "main" ∨ Relation.TransGen (DependsOn sampleSource.EntryPoints) "main" x)) ∧
    mapKeys (newWorkflowRuntimeSteps (NewBaseWorkflow sampleSource "" "main" [] [])) =
      mapKeys (getRunSteps (NewBaseWorkflow sampleSource "" "main" [] [])) ∧
    (validate (NewBaseWorkflow
      { sampleSource with
        EntryPoints := mapSet sampleSource.EntryPoints "main" sampleWrongParamStep }
      "" "" [] [])).2 ≠ none ∧
    (validate ((NewBaseWorkflow sampleSource "" "data_preprocess" [] []).withEntryPoints
      (mapSet sampleSource.EntryPoints "main" sampleWrongParamStep))).2 = none :=
  have h := getRunSteps_is_entry_closure (NewBaseWorkflow sampleSource "" "main" [] [])
    (by decide) (by decide)
  have h2 := getRunSteps_is_entry_closure (NewBaseWorkflow sampleSource "" "data_preprocess" [] [])
    (by decide) (by decide)
  ⟨by decide, h.1, h.2.2.1, by decide,
    (h2.2.2.2 rfl "main" sampleWrongParamStep (by decide) (by decide)).trans (by decide)⟩

/-! ### References -/

theorem firstError_eq_none {α : Type} (check : α → Option GoError) (l : List α) :
    firstError check l = none ↔ ∀ a ∈ l, check a = none := by
  induction l with
  | nil => simp [firstError]
  | cons a rest ih =>
    simp only [firstError, List.mem_cons, forall_eq_or_imp]
    rcases h : check a with _ | err
    · simp [ih]
    · simp

theorem topologicalSortRounds_perm (entrypoints : List (String × WorkflowSourceStep)) :
    ∀ (n : Nat) (remaining sorted order : List String), remaining.length = n →
      topologicalSortRounds entrypoints n remaining sorted = (order, none) →
      ∃ o, order = sorted ++ o ∧ o.Perm remaining := by
  intro n
  induction n with
  | zero =>
    intro remaining sorted order hlen h
    have : remaining = [] := List.length_eq_zero.mp hlen
    subst this
    simp only [topologicalSortRounds, Prod.mk.injEq, and_true] at h
    exact ⟨[], by simp [h], List.Perm.refl _⟩
  | succ n ih =>
    intro remaining sorted order hlen h
    rcases hfind : remaining.find? (stepReady entrypoints remaining) with _ | name
    · simp [topologicalSortRounds, hfind] at h
    · have hmem : name ∈ remaining := List.mem_of_find?_eq_some hfind
      have hlen2 : (remaining.erase name).length = n := by
        rw [List.length_erase_of_mem hmem, hlen]; rfl
      simp only [topologicalSortRounds, hfind] at h
      obtain ⟨o, ho, hp⟩ := ih _ _ _ hlen2 h
      refine ⟨name :: o, by simp [ho], ?_⟩
      exact (List.Perm.cons name hp).trans (List.perm_cons_erase hmem).symm

theorem mem_of_topologicalSort (entrypoints : List (String × WorkflowSourceStep))
    (order : List String) (h : topologicalSort entrypoints = (order, none)) (t : String)
    (ht : t ∈ mapKeys entrypoints) : t ∈ order := by
  have hperm := sortNames_perm (mapKeys entrypoints)
  obtain ⟨o, ho, hp⟩ := topologicalSortRounds_perm entrypoints entrypoints.length
    (sortNames (mapKeys entrypoints)) [] order
    (by rw [hperm.length_eq]; simp [mapKeys]) h
  rw [ho]
  simpa using hp.mem_iff.mpr (hperm.mem_iff.mpr ht)

theorem isUpstream_sound (steps : List (String × WorkflowSourceStep)) (t s : String)
    (h : isUpstream steps t s = true) :
    s ∈ mapKeys steps ∧ Relation.TransGen (DependsOn steps) t s := by
  simp only [isUpstream, Bool.and_eq_true, decide_eq_true_eq] at h
  have h2 := (mem_upstreamClosure_iff steps t s).mp h.2
  refine ⟨h2.1, ?_⟩
  rcases Relation.reflTransGen_iff_eq_or_transGen.mp h2.2 with h3 | h3
  · exact absurd h3 h.1
  · exact h3

theorem DependsOn_of_getRunSteps (bwf : BaseWorkflow) (a b : String)
    (h : DependsOn (getRunSteps bwf) a b) : DependsOn bwf.Source.EntryPoints a b := by
  unfold getRunSteps at h
  split at h
  · exact h
  · obtain ⟨h1, h2⟩ := h
    rw [mapKeys_filter_key _
      (fun k => decide (k ∈ upstreamClosure bwf.Source.EntryPoints bwf.Entry))] at h2
    refine ⟨?_, (List.mem_filter.mp h2).1⟩
    unfold stepDeps at h1 ⊢
    rw [mapGet_filter_key _
      (fun k => decide (k ∈ upstreamClosure bwf.Source.EntryPoints bwf.Entry))] at h1
    by_cases hq : a ∈ upstreamClosure bwf.Source.EntryPoints bwf.Entry
    · simpa [hq] using h1
    · simp [hq] at h1

theorem mapGet_getRunSteps (bwf : BaseWorkflow) (t : String)
    (ht : t ∈ mapKeys (getRunSteps bwf)) :
    mapGet (getRunSteps bwf) t = mapGet bwf.Source.EntryPoints t := by
  unfold getRunSteps at ht ⊢
  split
  · rfl
  · rename_i hentry
    simp only [hentry, if_false] at ht
    rw [mapKeys_filter_key _
      (fun k => decide (k ∈ upstreamClosure bwf.Source.EntryPoints bwf.Entry))] at ht
    rw [mapGet_filter_key _
      (fun k => decide (k ∈ upstreamClosure bwf.Source.EntryPoints bwf.Entry))]
    simp [(List.mem_filter.mp ht).2]

theorem mapKeys_getRunSteps_subset (bwf : BaseWorkflow) (s : String)
    (hs : s ∈ mapKeys (getRunSteps bwf)) : s ∈ mapKeys bwf.Source.EntryPoints := by
  unfold getRunSteps at hs
  split at hs
  · exact hs
  · rw [mapKeys_filter_key _
      (fun k => decide (k ∈ upstreamClosure bwf.Source.EntryPoints bwf.Entry))] at hs
    exact (List.mem_filter.mp hs).1

theorem checkParamRef_none (steps : List (String × WorkflowSourceStep)) (t ref s p : String)
    (h : checkParamRef steps t ref = none) (hc : crossRef ref = some (s, p)) :
    isUpstream steps t s = true := by
  unfold crossRef at hc
  unfold checkParamRef at h
  rcases hs : splitAtDot ref.data [] with _ | ⟨s1, p1⟩
  · rw [hs] at hc; simp at hc
  · rw [hs] at hc h
    simp only at hc h
    by_cases hs1 : s1 = ""
    · simp [hs1] at hc
    · simp only [hs1, if_false, Option.some.injEq, Prod.mk.injEq] at hc h
      obtain ⟨rfl, rfl⟩ := hc
      rcases hg : mapGet steps s1 with _ | step
      · rw [hg] at h; simp at h
      · rw [hg] at h
        simp only at h
        by_contra hup
        simp [hup] at h

theorem checkInputRef_none (steps : List (String × WorkflowSourceStep)) (t ref s p : String)
    (h : checkInputRef steps t ref = none) (hc : crossRef ref = some (s, p)) :
    isUpstream steps t s = true := by
  unfold crossRef at hc
  unfold checkInputRef at h
  rcases hs : splitAtDot ref.data [] with _ | ⟨s1, p1⟩
  · rw [hs] at hc; simp at hc
  · rw [hs] at hc h
    simp only at hc h
    by_cases hs1 : s1 = ""
    · simp [hs1] at hc
    · simp only [hs1, if_false, Option.some.injEq, Prod.mk.injEq] at hc h
      obtain ⟨rfl, rfl⟩ := hc
      rcases hg : mapGet steps s1 with _ | step
      · rw [hg] at h; simp at h
      · rw [hg] at h
        simp only at h
        by_contra hup
        simp [hup] at h

theorem checkStep_none (steps : List (String × WorkflowSourceStep)) (t : String)
    (step : WorkflowSourceStep) (h : checkStep steps t step = none) :
    (∀ ref ∈ (normalizeParams step.Parameters).1.flatMap (fun kv => refsOf kv.2.refString),
      checkParamRef steps t ref = none) ∧
    (∀ ref ∈ step.Artifacts.Input.flatMap (fun kv => refsOf kv.2),
      checkInputRef steps t ref = none) := by
  unfold checkStep at h
  split at h
  · simp at h
  · split at h
    · simp at h
    · split at h
      · simp at h
      · split at h
        · simp at h
        · rename_i params hnorm
          rw [hnorm]
          simp only
          split at h
          · simp at h
          · rename_i hp
            split at h
            · simp at h
            · rename_i hi
              exact ⟨(firstError_eq_none _ _).mp hp, (firstError_eq_none _ _).mp hi⟩

theorem validate_none_validateRunSteps (bwf : BaseWorkflow)
    (entrypoints : List (String × WorkflowSourceStep))
    (hrep : replaceRunParams bwf.Source.EntryPoints bwf.Params = (entrypoints, none))
    (h : (validate bwf).2 = none) : validateRunSteps (bwf.withEntryPoints entrypoints) = none := by
  unfold validate at h
  rw [hrep] at h
  simp only at h
  split at h
  · simp at h
  · rename_i heq; exact heq

theorem transGen_rank_lt (entrypoints : List (String × WorkflowSourceStep)) (rank : String → Nat)
    (h : ∀ a ∈ mapKeys entrypoints, ∀ b ∈ stepDeps entrypoints a, b ∈ mapKeys entrypoints →
      rank b < rank a) (a b : String) (hab : Relation.TransGen (DependsOn entrypoints) a b) :
    rank b < rank a := by
  induction hab with
  | single hd => exact h _ hd.left_mem _ hd.1 hd.2
  | tail _ hd ih => exact lt_trans (h _ hd.left_mem _ hd.1 hd.2) ih

/-! ### The reference pattern -/

theorem isBlank_not_open (c : Char) (h : isBlank c = true) : c ≠ '\x7b' := by
  rintro rfl
  exact absurd h (by decide)

theorem isBlank_not_close (c : Char) (h : isBlank c = true) : c ≠ '\x7d' := by
  rintro rfl
  exact absurd h (by decide)

theorem isRefChar_not_open (c : Char) (h : isRefChar c = true) : c ≠ '\x7b' := by
  rintro rfl
  exact absurd h (by decide)

theorem isRefChar_not_close (c : Char) (h : isRefChar c = true) : c ≠ '\x7d' := by
  rintro rfl
  exact absurd h (by decide)

theorem isRefChar_not_blank (c : Char) (h : isRefChar c = true) : isBlank c = false := by
  simp only [isRefChar, isNameChar, isBlank, Bool.or_eq_true, Bool.and_eq_true,
    decide_eq_true_eq] at h
  simp only [isBlank, Bool.or_eq_false_iff, Bool.and_eq_false_iff, decide_eq_false_iff_not]
  omega

theorem isBlank_close : isBlank '\x7d' = false := by decide

theorem isRefChar_close : isRefChar '\x7d' = false := by decide

/-- One character of the scan: what is found, and the state after it. -/
theorem scanRefs_cons (q : RefScan) (c : Char) :
    ∃ q1 out, ∀ cs, scanRefs q (c :: cs) = out ++ scanRefs q1 cs := by
  cases q with
  | text =>
    by_cases h : c = '\x7b'
    · exact ⟨RefScan.brace, [], fun cs => by simp [scanRefs, h]⟩
    · exact ⟨RefScan.text, [], fun cs => by simp [scanRefs, h]⟩
  | brace =>
    by_cases h : c = '\x7b'
    · exact ⟨RefScan.opened, [], fun cs => by simp [scanRefs, h]⟩
    · exact ⟨RefScan.text, [], fun cs => by simp [scanRefs, h]⟩
  | opened =>
    by_cases h : c = '\x7b'
    · exact ⟨RefScan.opened, [], fun cs => by simp [scanRefs, h]⟩
    · by_cases hb : isBlank c = true
      · exact ⟨RefScan.blank, [], fun cs => by simp [scanRefs, h, hb]⟩
      · by_cases hr : isRefChar c = true
        · exact ⟨RefScan.name [c], [], fun cs => by simp [scanRefs, h, hb, hr]⟩
        · exact ⟨RefScan.text, [], fun cs => by simp [scanRefs, h, hb, hr]⟩
  | blank =>
    by_cases h : c = '\x7b'
    · exact ⟨RefScan.brace, [], fun cs => by simp [scanRefs, h]⟩
    · by_cases hb : isBlank c = true
      · exact ⟨RefScan.blank, [], fun cs => by simp [scanRefs, h, hb]⟩
      · by_cases hr : isRefChar c = true
        · exact ⟨RefScan.name [c], [], fun cs => by simp [scanRefs, h, hb, hr]⟩
        · exact ⟨RefScan.text, [], fun cs => by simp [scanRefs, h, hb, hr]⟩
  | name acc =>
    by_cases h : c = '\x7b'
    · exact ⟨RefScan.brace, [], fun cs => by simp [scanRefs, h]⟩
    · by_cases hr : isRefChar c = true
      · exact ⟨RefScan.name (c :: acc), [], fun cs => by simp [scanRefs, h, hr]⟩
      · by_cases hb : isBlank c = true
        · exact ⟨RefScan.after acc, [], fun cs => by simp [scanRefs, h, hb, hr]⟩
        · by_cases hc : c = '\x7d'
          · exact ⟨RefScan.close acc, [], fun cs => by simp [scanRefs, h, hb, hr, hc, isBlank_close, isRefChar_close]⟩
          · exact ⟨RefScan.text, [], fun cs => by simp [scanRefs, h, hb, hr, hc, isBlank_close, isRefChar_close]⟩
  | after acc =>
    by_cases h : c = '\x7b'
    · exact ⟨RefScan.brace, [], fun cs => by simp [scanRefs, h]⟩
    · by_cases hb : isBlank c = true
      · exact ⟨RefScan.after acc, [], fun cs => by simp [scanRefs, h, hb]⟩
      · by_cases hc : c = '\x7d'
        · exact ⟨RefScan.close acc, [], fun cs => by simp [scanRefs, h, hb, hc, isBlank_close, isRefChar_close]⟩
        · exact ⟨RefScan.text, [], fun cs => by simp [scanRefs, h, hb, hc, isBlank_close, isRefChar_close]⟩
  | close acc =>
    by_cases h : c = '\x7b'
    · exact ⟨RefScan.brace, [], fun cs => by simp [scanRefs, h]⟩
    · by_cases hc : c = '\x7d'
      · exact ⟨RefScan.text, [String.mk acc.reverse], fun cs => by simp [scanRefs, h, hc, isBlank_close, isRefChar_close]⟩
      · exact ⟨RefScan.text, [], fun cs => by simp [scanRefs, h, hc, isBlank_close, isRefChar_close]⟩

/-- The scan of a text that starts with `pre`: what is found in `pre`, and the
state in which the rest is scanned. -/
theorem scanRefs_append (pre : List Char) :
    ∀ q, ∃ q1 out, ∀ cs, scanRefs q (pre ++ cs) = out ++ scanRefs q1 cs := by
  induction pre with
  | nil => intro q; exact ⟨q, [], fun cs => rfl⟩
  | cons c rest ih =>
    intro q
    obtain ⟨q1, out1, h1⟩ := scanRefs_cons q c
    obtain ⟨q2, out2, h2⟩ := ih q1
    exact ⟨q2, out1 ++ out2, fun cs => by
      rw [List.cons_append, h1, h2, List.append_assoc]⟩

/-- Two opening braces start a reference whatever was read before them. -/
theorem scanRefs_open (q : RefScan) (cs : List Char) :
    scanRefs q ('\x7b' :: '\x7b' :: cs) = scanRefs RefScan.opened cs := by
  cases q <;> simp [scanRefs]

theorem scanRefs_blanks (ws : List Char) (hws : ∀ c ∈ ws, isBlank c = true) (cs : List Char) :
    scanRefs RefScan.blank (ws ++ cs) = scanRefs RefScan.blank cs := by
  induction ws with
  | nil => rfl
  | cons c rest ih =>
    have hb := hws c (List.mem_cons_self _ _)
    have ho := isBlank_not_open c hb
    rw [List.cons_append]
    simp only [scanRefs, ho, if_false, hb, if_true]
    exact ih (fun d hd => hws d (List.mem_cons_of_mem _ hd))

theorem scanRefs_opened_blanks (ws : List Char) (hws : ∀ c ∈ ws, isBlank c = true)
    (c : Char) (hc : isRefChar c = true) (cs : List Char) :
    scanRefs RefScan.opened (ws ++ c :: cs) = scanRefs (RefScan.name [c]) cs := by
  have hco := isRefChar_not_open c hc
  have hcb := isRefChar_not_blank c hc
  have hstart : scanRefs RefScan.blank (c :: cs) = scanRefs (RefScan.name [c]) cs := by
    simp [scanRefs, hco, hcb, hc]
  cases ws with
  | nil => simp [scanRefs, hco, hcb, hc]
  | cons w rest =>
    have hb := hws w (List.mem_cons_self _ _)
    have ho := isBlank_not_open w hb
    rw [List.cons_append]
    simp only [scanRefs, ho, if_false, hb, if_true]
    rw [scanRefs_blanks rest (fun d hd => hws d (List.mem_cons_of_mem _ hd)), hstart]

theorem scanRefs_name (name : List Char) (hname : ∀ c ∈ name, isRefChar c = true) :
    ∀ acc cs, scanRefs (RefScan.name acc) (name ++ cs) =
      scanRefs (RefScan.name (name.reverse ++ acc)) cs := by
  induction name with
  | nil => intro acc cs; rfl
  | cons c rest ih =>
    intro acc cs
    have hc := hname c (List.mem_cons_self _ _)
    have ho := isRefChar_not_open c hc
    rw [List.cons_append]
    simp only [scanRefs, ho, if_false, hc, if_true]
    rw [ih (fun d hd => hname d (List.mem_cons_of_mem _ hd))]
    simp

theorem scanRefs_after (ws : List Char) (hws : ∀ c ∈ ws, isBlank c = true) (acc : List Char)
    (post : List Char) :
    scanRefs (RefScan.after acc) (ws ++ '\x7d' :: '\x7d' :: post) =
      String.mk acc.reverse :: scanRefs RefScan.text post := by
  induction ws with
  | nil => simp [scanRefs, isBlank_close, isRefChar_close]
  | cons c rest ih =>
    have hb := hws c (List.mem_cons_self _ _)
    have ho := isBlank_not_open c hb
    rw [List.cons_append]
    simp only [scanRefs, ho, if_false, hb, if_true]
    exact ih (fun d hd => hws d (List.mem_cons_of_mem _ hd))

theorem scanRefs_name_end (ws : List Char) (hws : ∀ c ∈ ws, isBlank c = true) (acc : List Char)
    (post : List Char) :
    scanRefs (RefScan.name acc) (ws ++ '\x7d' :: '\x7d' :: post) =
      String.mk acc.reverse :: scanRefs RefScan.text post := by
  cases ws with
  | nil => simp [scanRefs, isBlank_close, isRefChar_close]
  | cons c rest =>
    have hb := hws c (List.mem_cons_self _ _)
    have ho := isBlank_not_open c hb
    have hr : isRefChar c = false := by
      cases h : isRefChar c
      · rfl
      · rw [isRefChar_not_blank c h] at hb; exact absurd hb (by simp)
    rw [List.cons_append]
    simp only [scanRefs, ho, if_false, hb, if_true, hr, Bool.false_eq_true]
    exact scanRefs_after rest (fun d hd => hws d (List.mem_cons_of_mem _ hd)) acc post

/-- The scan finds every reference of the pattern. -/
theorem scanRefs_complete (value name : List Char) (h : IsReference value name) :
    String.mk name ∈ scanRefs RefScan.text value := by
  obtain ⟨pre, ws1, ws2, post, rfl, hws1, hws2, hne, hname⟩ := h
  obtain ⟨q1, out, hpre⟩ := scanRefs_append pre RefScan.text
  rw [hpre, scanRefs_open]
  cases name with
  | nil => exact absurd rfl hne
  | cons c rest =>
    rw [List.cons_append, scanRefs_opened_blanks ws1 hws1 c (hname c (List.mem_cons_self _ _)),
      scanRefs_name rest (fun d hd => hname d (List.mem_cons_of_mem _ hd)),
      scanRefs_name_end ws2 hws2]
    simp
/-- One character of the scan keeps the account of the text read so far, and
what it finds is a reference of the text. -/
theorem scanRefs_cons_sound (q : RefScan) (c : Char) (done : List Char) (hq : Pending q done) :
    ∃ q1 out, (∀ cs, scanRefs q (c :: cs) = out ++ scanRefs q1 cs) ∧ Pending q1 (done ++ [c]) ∧
      ∀ n ∈ out, ∀ cs, IsReference (done ++ c :: cs) n.data := by
  have hbrace : c = '\x7b' → Pending RefScan.brace (done ++ [c]) := by
    rintro rfl
    exact ⟨done, rfl⟩
  cases q with
  | text =>
    by_cases h : c = '\x7b'
    · exact ⟨RefScan.brace, [], fun cs => by simp [scanRefs, h], hbrace h, by simp⟩
    · exact ⟨RefScan.text, [], fun cs => by simp [scanRefs, h], trivial, by simp⟩
  | brace =>
    obtain ⟨pre, rfl⟩ := hq
    by_cases h : c = '\x7b'
    · exact ⟨RefScan.opened, [], fun cs => by simp [scanRefs, h], ⟨pre, by simp [h]⟩, by simp⟩
    · exact ⟨RefScan.text, [], fun cs => by simp [scanRefs, h], trivial, by simp⟩
  | opened =>
    obtain ⟨pre, rfl⟩ := hq
    by_cases h : c = '\x7b'
    · exact ⟨RefScan.opened, [], fun cs => by simp [scanRefs, h],
        ⟨pre ++ ['\x7b'], by simp [h]⟩, by simp⟩
    · by_cases hb : isBlank c = true
      · exact ⟨RefScan.blank, [], fun cs => by simp [scanRefs, h, hb],
          ⟨pre, [c], by simp, by simpa using hb⟩, by simp⟩
      · by_cases hr : isRefChar c = true
        · exact ⟨RefScan.name [c], [], fun cs => by simp [scanRefs, h, hb, hr],
            ⟨pre, [], by simp, by simp, by simp, by simpa using hr⟩, by simp⟩
        · exact ⟨RefScan.text, [], fun cs => by simp [scanRefs, h, hb, hr], trivial, by simp⟩
  | blank =>
    obtain ⟨pre, ws, rfl, hws⟩ := hq
    by_cases h : c = '\x7b'
    · exact ⟨RefScan.brace, [], fun cs => by simp [scanRefs, h], hbrace h, by simp⟩
    · by_cases hb : isBlank c = true
      · refine ⟨RefScan.blank, [], fun cs => by simp [scanRefs, h, hb],
          ⟨pre, ws ++ [c], by simp, ?_⟩, by simp⟩
        intro d hd
        rcases List.mem_append.mp hd with hd | hd
        · exact hws d hd
        · rw [List.mem_singleton.mp hd]; exact hb
      · by_cases hr : isRefChar c = true
        · exact ⟨RefScan.name [c], [], fun cs => by simp [scanRefs, h, hb, hr],
            ⟨pre, ws, by simp, hws, by simp, by simpa using hr⟩, by simp⟩
        · exact ⟨RefScan.text, [], fun cs => by simp [scanRefs, h, hb, hr], trivial, by simp⟩
  | name acc =>
    obtain ⟨pre, ws, rfl, hws, hne, hacc⟩ := hq
    by_cases h : c = '\x7b'
    · exact ⟨RefScan.brace, [], fun cs => by simp [scanRefs, h], hbrace h, by simp⟩
    · by_cases hr : isRefChar c = true
      · refine ⟨RefScan.name (c :: acc), [], fun cs => by simp [scanRefs, h, hr],
          ⟨pre, ws, by simp, hws, by simp, ?_⟩, by simp⟩
        intro d hd
        rcases List.mem_cons.mp hd with hd | hd
        · rw [hd]; exact hr
        · exact hacc d hd
      · by_cases hb : isBlank c = true
        · exact ⟨RefScan.after acc, [], fun cs => by simp [scanRefs, h, hb, hr],
            ⟨pre, ws, [c], by simp, hws, by simpa using hb, hne, hacc⟩, by simp⟩
        · by_cases hc : c = '\x7d'
          · exact ⟨RefScan.close acc, [],
              fun cs => by simp [scanRefs, h, hb, hr, hc, isBlank_close, isRefChar_close],
              ⟨pre, ws, [], by simp [hc], hws, by simp, hne, hacc⟩, by simp⟩
          · exact ⟨RefScan.text, [], fun cs => by simp [scanRefs, h, hb, hr, hc], trivial,
              by simp⟩
  | after acc =>
    obtain ⟨pre, ws, ws2, rfl, hws, hws2, hne, hacc⟩ := hq
    by_cases h : c = '\x7b'
    · exact ⟨RefScan.brace, [], fun cs => by simp [scanRefs, h], hbrace h, by simp⟩
    · by_cases hb : isBlank c = true
      · refine ⟨RefScan.after acc, [], fun cs => by simp [scanRefs, h, hb],
          ⟨pre, ws, ws2 ++ [c], by simp, hws, ?_, hne, hacc⟩, by simp⟩
        intro d hd
        rcases List.mem_append.mp hd with hd | hd
        · exact hws2 d hd
        · rw [List.mem_singleton.mp hd]; exact hb
      · by_cases hc : c = '\x7d'
        · exact ⟨RefScan.close acc, [],
            fun cs => by simp [scanRefs, h, hb, hc, isBlank_close, isRefChar_close],
            ⟨pre, ws, ws2, by simp [hc], hws, hws2, hne, hacc⟩, by simp⟩
        · exact ⟨RefScan.text, [], fun cs => by simp [scanRefs, h, hb, hc], trivial, by simp⟩
  | close acc =>
    obtain ⟨pre, ws, ws2, rfl, hws, hws2, hne, hacc⟩ := hq
    by_cases h : c = '\x7b'
    · exact ⟨RefScan.brace, [], fun cs => by simp [scanRefs, h], hbrace h, by simp⟩
    · by_cases hc : c = '\x7d'
      · refine ⟨RefScan.text, [String.mk acc.reverse],
          fun cs => by simp [scanRefs, h, hc], trivial, ?_⟩
        intro n hn cs
        rw [List.mem_singleton.mp hn]
        refine ⟨pre, ws, ws2, cs, by simp [hc], hws, hws2, by simpa using hne, ?_⟩
        intro d hd
        exact hacc d (List.mem_reverse.mp hd)
      · exact ⟨RefScan.text, [], fun cs => by simp [scanRefs, h, hc], trivial, by simp⟩

/-- What the scan finds is a reference of the text. -/
theorem scanRefs_sound (cs : List Char) :
    ∀ q done, Pending q done → ∀ n ∈ scanRefs q cs, IsReference (done ++ cs) n.data := by
  induction cs with
  | nil => intro q done _ n hn; simp [scanRefs] at hn
  | cons c rest ih =>
    intro q done hq n hn
    obtain ⟨q1, out, hstep, hq1, hout⟩ := scanRefs_cons_sound q c done hq
    rw [hstep] at hn
    rcases List.mem_append.mp hn with h | h
    · exact hout n h rest
    · have := ih q1 (done ++ [c]) hq1 n h
      simpa using this

/-- The references that the scan finds in a string are those of the pattern. -/
theorem mem_refsOf_iff (value name : String) :
    name ∈ refsOf value ↔ IsReference value.data name.data := by
  constructor
  · intro h
    have := scanRefs_sound value.data RefScan.text [] trivial name h
    simpa using this
  · intro h
    exact scanRefs_complete value.data name.data h

theorem splitAtDot_append (s p : List Char) (hs : '.' ∉ s) :
    ∀ acc, splitAtDot (s ++ '.' :: p) acc = some (String.mk (acc.reverse ++ s), String.mk p) := by
  induction s with
  | nil => intro acc; simp [splitAtDot]
  | cons c rest ih =>
    intro acc
    have hc : c ≠ '.' := fun h => hs (by simp [h])
    have hrest : '.' ∉ rest := fun h => hs (List.mem_cons_of_mem _ h)
    rw [List.cons_append]
    simp only [splitAtDot, hc, if_false]
    rw [ih hrest]
    simp

/-- The scan finds every cross-step reference of the pattern. -/
theorem crossRefsOf_complete (value s p : String) (h : IsCrossReference value s p) :
    (s, p) ∈ crossRefsOf value := by
  obtain ⟨hne, hdot, href⟩ := h
  have hmem := scanRefs_complete value.data _ href
  simp only [crossRefsOf, List.mem_filterMap]
  refine ⟨String.mk (s.data ++ '.' :: p.data), hmem, ?_⟩
  simp only [crossRef, splitAtDot_append s.data p.data hdot, List.reverse_nil, List.nil_append]
  simp [hne]

/-- C20: let a workflow be given whose parameter overrides apply without error,
and a run step t of it.  If validate accepts the workflow, every cross-step
reference to s.p that the text of a parameter of t (after normalization of the
DictParams) or of an input artifact of t holds, by the reference pattern of the
spec, names a step s that exists and is a transitive dependency of t.  Hence a reference in t to a step that is not a transitive
dependency of t (a downstream step, a sibling, a step that does not exist)
makes validate return an error. -/
theorem validate_refs_are_upstream (bwf : BaseWorkflow)
    (entrypoints : List (String × WorkflowSourceStep))
    (hrep : replaceRunParams bwf.Source.EntryPoints bwf.Params = (entrypoints, none))
    (t : String) (step : WorkflowSourceStep)
    (ht : t ∈ mapKeys (getRunSteps (bwf.withEntryPoints entrypoints)))
    (hstep : mapGet entrypoints t = some step) :
    ((validate bwf).2 = none →
      (∀ k v s p, (k, v) ∈ (normalizeParams step.Parameters).1 →
        IsCrossReference v.refString s p →
        s ∈ mapKeys entrypoints ∧ Relation.TransGen (DependsOn entrypoints) t s) ∧
      (∀ k v s p, (k, v) ∈ step.Artifacts.Input → IsCrossReference v s p →
        s ∈ mapKeys entrypoints ∧ Relation.TransGen (DependsOn entrypoints) t s)) ∧
    (∀ k v s p, (k, v) ∈ (normalizeParams step.Parameters).1 →
      IsCrossReference v.refString s p →
      ¬ Relation.TransGen (DependsOn entrypoints) t s → (validate bwf).2 ≠ none) ∧
    (∀ k v s p, (k, v) ∈ step.Artifacts.Input → IsCrossReference v s p →
      ¬ Relation.TransGen (DependsOn entrypoints) t s → (validate bwf).2 ≠ none) := by
  have main : (validate bwf).2 = none →
      (∀ k v s p, (k, v) ∈ (normalizeParams step.Parameters).1 →
        IsCrossReference v.refString s p →
        s ∈ mapKeys entrypoints ∧ Relation.TransGen (DependsOn entrypoints) t s) ∧
      (∀ k v s p, (k, v) ∈ step.Artifacts.Input → IsCrossReference v s p →
        s ∈ mapKeys entrypoints ∧ Relation.TransGen (DependsOn entrypoints) t s) := by
    intro hok
    have hv := validate_none_validateRunSteps bwf entrypoints hrep hok
    unfold validateRunSteps at hv
    rcases hts : topologicalSort (getRunSteps (bwf.withEntryPoints entrypoints)) with ⟨order, e⟩
    rw [hts] at hv
    cases e with
    | some err => simp at hv
    | none =>
      simp only at hv
      have hto := mem_of_topologicalSort _ order hts t ht
      have hchk := (firstError_eq_none _ _).mp hv t hto
      have hget : mapGet (getRunSteps (bwf.withEntryPoints entrypoints)) t = some step := by
        rw [mapGet_getRunSteps _ t ht]; exact hstep
      rw [hget] at hchk
      simp only at hchk
      obtain ⟨hp, hi⟩ := checkStep_none _ t step hchk
      have lift : ∀ s, isUpstream (getRunSteps (bwf.withEntryPoints entrypoints)) t s = true →
          s ∈ mapKeys entrypoints ∧ Relation.TransGen (DependsOn entrypoints) t s := by
        intro s hs
        obtain ⟨h1, h2⟩ := isUpstream_sound _ t s hs
        exact ⟨mapKeys_getRunSteps_subset (bwf.withEntryPoints entrypoints) s h1,
          Relation.TransGen.mono
            (fun a b hab => DependsOn_of_getRunSteps (bwf.withEntryPoints entrypoints) a b hab) h2⟩
      constructor
      · intro k v s p hkv hsp0
        have hsp := crossRefsOf_complete _ s p hsp0
        simp only [crossRefsOf, List.mem_filterMap] at hsp
        obtain ⟨ref, href, hc⟩ := hsp
        apply lift
        apply checkParamRef_none _ t ref s p _ hc
        apply hp
        exact List.mem_flatMap.mpr ⟨(k, v), hkv, href⟩
      · intro k v s p hkv hsp0
        have hsp := crossRefsOf_complete _ s p hsp0
        simp only [crossRefsOf, List.mem_filterMap] at hsp
        obtain ⟨ref, href, hc⟩ := hsp
        apply lift
        apply checkInputRef_none _ t ref s p _ hc
        apply hi
        exact List.mem_flatMap.mpr ⟨(k, v), hkv, href⟩
  refine ⟨main, ?_, ?_⟩
  · intro k v s p hkv hsp hnot hok
    exact hnot ((main hok).1 k v s p hkv hsp).2
  · intro k v s p hkv hsp hnot hok
    exact hnot ((main hok).2 k v s p hkv hsp).2

theorem validate_refs_are_upstream_witness :
    (validate (NewBaseWorkflow sampleSource "" "" [] [])).2 = none ∧
    ("main" ∈ mapKeys sampleSource.EntryPoints ∧
      Relation.TransGen (DependsOn sampleSource.EntryPoints) "validate" "main") ∧
    (validate (NewBaseWorkflow sampleDownstreamRefSource "" "" [] [])).2 =
      some ⟨"invalid parameters reference \x7b\x7b validate.refSystem \x7d\x7d in step main"⟩ ∧
    (validate (NewBaseWorkflow sampleDownstreamRefSource "" "" [] [])).2 ≠ none ∧
    refsOf "\x7b\x7b\x7b\tnosuchstep.p\t\x7d\x7d" = ["nosuchstep.p"] ∧
    refsOf "\x7b\x7b PF_RUN_ID \x7d\x7b\x7b validate.refSystem \x7d\x7d" =
      ["validate.refSystem"] ∧
    (validate (NewBaseWorkflow sampleUnknownRefSource "" "" [] [])).2 ≠ none :=
  have h := validate_refs_are_upstream (NewBaseWorkflow sampleSource "" "" [] [])
    sampleSource.EntryPoints rfl "validate" sampleValidateStep (by decide) (by decide)
  have h2 := validate_refs_are_upstream (NewBaseWorkflow sampleDownstreamRefSource "" "" [] [])
    sampleDownstreamRefSource.EntryPoints rfl "main" sampleDownstreamRefStep (by decide)
    (by decide)
  have h3 := validate_refs_are_upstream (NewBaseWorkflow sampleUnknownRefSource "" "" [] [])
    sampleUnknownRefSource.EntryPoints rfl "main" sampleUnknownRefStep (by decide)
    (by decide)
  ⟨by decide,
    (h.1 (by decide)).1 "model_path"
      (ParamValue.direct (ParamScalar.str "\x7b\x7b main.model \x7d\x7d")) "main" "model"
      (by decide)
      ⟨by decide, by decide, [], [' '], [' '], [], by decide, by decide, by decide, by decide,
        by decide⟩,
    by decide,
    h2.2.1 "invalidRef"
      (ParamValue.direct (ParamScalar.str "\x7b\x7b validate.refSystem \x7d\x7d"))
      "validate" "refSystem" (by decide)
      ⟨by decide, by decide, [], [' '], [' '], [], by decide, by decide, by decide, by decide,
        by decide⟩
      (fun hreach => absurd
        (transGen_rank_lt sampleDownstreamRefSource.EntryPoints
          (fun s => List.indexOf s ["data_preprocess", "main", "validate"]) (by decide)
          "main" "validate" hreach)
        (by decide)),
    by decide,
    by decide,
    h3.2.1 "invalidRef"
      (ParamValue.direct (ParamScalar.str "\x7b\x7b\x7b\tnosuchstep.p\t\x7d\x7d"))
      "nosuchstep" "p" (by decide)
      ⟨by decide, by decide, ['\x7b'], ['\t'], ['\t'], [], by decide, by decide, by decide,
        by decide, by decide⟩
      (fun hreach => absurd
        (transGen_rank_lt sampleUnknownRefSource.EntryPoints
          (fun s => List.indexOf s ["data_preprocess", "main", "validate"]) (by decide)
          "main" "nosuchstep" hreach)
        (by decide))⟩

/-! ### Stop, retry and list: the order of effects -/

/-- C24: StopRun calls Stop on a runtime only right after a successful update of
the status to Terminating: its collaborator calls are the lookup of the run
alone, or the lookup and the status update, or these two followed by one Stop
on the registered runtime, the last only when the update returned no error.
For an accessible run that is neither terminating nor final, without an entry
in wfMap it returns an error with code InternalError and makes no status
update; when the update fails it returns an error with code InternalError and
does not call Stop. -/
theorem StopRun_stops_only_after_update (env : Env) (ctx : RequestContext) (runID : String)
    (w : World) :
    ((StopRun env ctx runID w).2.2.calls = w.calls ++ [Call.models_GetRunByID runID] ∨
      (StopRun env ctx runID w).2.2.calls = w.calls ++ [Call.models_GetRunByID runID,
        Call.models_UpdateRunStatus runID StatusRunTerminating] ∨
      ∃ wf, mapGet w.wfMap runID = some wf ∧
        env.models_UpdateRunStatus (w.calls ++ [Call.models_GetRunByID runID]) runID
          StatusRunTerminating = none ∧
        (StopRun env ctx runID w).2.2.calls = w.calls ++ [Call.models_GetRunByID runID,
          Call.models_UpdateRunStatus runID StatusRunTerminating, Call.Workflow_Stop wf]) ∧
    (∀ run, env.models_GetRunByID w.calls runID = (run, none) →
      (env.IsRootUser ctx.UserName = true ∨ ctx.UserName = run.UserName) →
      run.Status ≠ StatusRunTerminating → IsRunFinalStatus run.Status = false →
      (mapGet w.wfMap runID = none →
        ∃ err, StopRun env ctx runID w =
          (some err, { ctx with ErrorCode := InternalError },
            { calls := w.calls ++ [Call.models_GetRunByID runID], wfMap := w.wfMap })) ∧
      (∀ wf e, mapGet w.wfMap runID = some wf →
        env.models_UpdateRunStatus (w.calls ++ [Call.models_GetRunByID runID]) runID
          StatusRunTerminating = some e →
        ∃ err, StopRun env ctx runID w =
          (some err, { ctx with ErrorCode := InternalError },
            { calls := w.calls ++ [Call.models_GetRunByID runID,
                Call.models_UpdateRunStatus runID StatusRunTerminating],
              wfMap := w.wfMap }))) := by
  constructor
  · rcases hget : env.models_GetRunByID w.calls runID with ⟨run, e⟩
    cases e with
    | some err => left; simp [StopRun, GetRunByID, hget, World.call]
    | none =>
      have hcore : (env.IsRootUser ctx.UserName = true ∨ ctx.UserName = run.UserName) →
          ((StopRun env ctx runID w).2.2.calls = w.calls ++ [Call.models_GetRunByID runID] ∨
          (StopRun env ctx runID w).2.2.calls = w.calls ++ [Call.models_GetRunByID runID,
            Call.models_UpdateRunStatus runID StatusRunTerminating] ∨
          ∃ wf, mapGet w.wfMap runID = some wf ∧
            env.models_UpdateRunStatus (w.calls ++ [Call.models_GetRunByID runID]) runID
              StatusRunTerminating = none ∧
            (StopRun env ctx runID w).2.2.calls = w.calls ++ [Call.models_GetRunByID runID,
              Call.models_UpdateRunStatus runID StatusRunTerminating, Call.Workflow_Stop wf]) := by
        intro hacc
        by_cases hterm : run.Status = StatusRunTerminating
        · left
          simp only [StopRun, GetRunByID, hget, World.call]
          rcases hacc with h | h <;> simp [h, hterm]
        · cases hfin : IsRunFinalStatus run.Status
          · rcases hwf : mapGet w.wfMap runID with _ | wf
            · left
              simp only [StopRun, GetRunByID, hget, World.call]
              rcases hacc with h | h <;> simp [h, hterm, hfin, hwf]
            · rcases hupd : env.models_UpdateRunStatus (w.calls ++ [Call.models_GetRunByID runID])
                runID StatusRunTerminating with _ | e
              · right; right
                refine ⟨wf, rfl, rfl, ?_⟩
                simp only [StopRun, GetRunByID, hget, World.call]
                rcases hacc with h | h <;> simp [h, hterm, hfin, hwf, hupd]
              · right; left
                simp only [StopRun, GetRunByID, hget, World.call]
                rcases hacc with h | h <;> simp [h, hterm, hfin, hwf, hupd]
          · left
            simp only [StopRun, GetRunByID, hget, World.call]
            rcases hacc with h | h <;> simp [h, hterm, hfin]
      by_cases hroot : env.IsRootUser ctx.UserName = true
      · exact hcore (Or.inl hroot)
      · by_cases hown : ctx.UserName = run.UserName
        · exact hcore (Or.inr hown)
        · left; simp [StopRun, GetRunByID, hget, World.call, hroot, hown]
  · intro run hget hacc hst hfin
    constructor
    · intro hwf
      simp only [StopRun, GetRunByID, hget, World.call]
      rcases hacc with h | h <;> simp [h, hst, hfin, hwf]
    · intro wf e hwf hupd
      simp only [StopRun, GetRunByID, hget, World.call]
      rcases hacc with h | h <;> simp [h, hst, hfin, hwf, hupd]

theorem StopRun_stops_only_after_update_witness :
    (∃ err, StopRun sampleEnv { UserName := "alice" } "run-000001" {} =
      (some err, { UserName := "alice", ErrorCode := InternalError },
        { calls := [] ++ [Call.models_GetRunByID "run-000001"], wfMap := [] })) ∧
    (∃ err, StopRun sampleEnvBadUpdate { UserName := "alice" } "run-000001"
        { wfMap := [("run-000001", 7)] } =
      (some err, { UserName := "alice", ErrorCode := InternalError },
        { calls := [] ++ [Call.models_GetRunByID "run-000001",
            Call.models_UpdateRunStatus "run-000001" StatusRunTerminating],
          wfMap := [("run-000001", 7)] })) :=
  ⟨((StopRun_stops_only_after_update sampleEnv { UserName := "alice" } "run-000001" {}).2
      { ID := "run-000001", UserName := "alice", Status := StatusRunRunning }
      (by decide) (by decide) (by decide) (by decide)).1 (by decide),
    ((StopRun_stops_only_after_update sampleEnvBadUpdate { UserName := "alice" } "run-000001"
      { wfMap := [("run-000001", 7)] }).2
      { ID := "run-000001", UserName := "alice", Status := StatusRunRunning }
      (by decide) (by decide) (by decide) (by decide)).2 7 ⟨"db is down"⟩ (by decide) (by decide)⟩

/-- C25: for a caller who is neither root nor the owner of a run that
persistence finds, StopRun and RetryRun return the non-nil error of
GetRunByID, with code AccessDenied, after the lookup of the run as their only
collaborator call.  Whenever GetRunByID returns a nil error the condition of
the second access check is false for the run it returns, so the branch of that
check is never taken. -/
theorem StopRun_RetryRun_reject_other_users (env : Env) (ctx : RequestContext) (runID : String)
    (w : World) :
    (∀ run, env.models_GetRunByID w.calls runID = (run, none) →
      env.IsRootUser ctx.UserName = false → ctx.UserName ≠ run.UserName →
      StopRun env ctx runID w =
        (some (env.NoAccessError ctx.UserName env.ResourceTypeRun runID),
          { ctx with ErrorCode := AccessDenied },
          { calls := w.calls ++ [Call.models_GetRunByID runID], wfMap := w.wfMap }) ∧
      RetryRun env ctx runID w =
        (some (env.NoAccessError ctx.UserName env.ResourceTypeRun runID),
          { ctx with ErrorCode := AccessDenied },
          { calls := w.calls ++ [Call.models_GetRunByID runID], wfMap := w.wfMap })) ∧
    ((GetRunByID env ctx runID w).2.1 = none →
      (!env.IsRootUser (GetRunByID env ctx runID w).2.2.1.UserName &&
        decide ((GetRunByID env ctx runID w).2.2.1.UserName ≠
          (GetRunByID env ctx runID w).1.UserName)) = false) := by
  constructor
  · intro run hget hroot hown
    constructor
    · simp [StopRun, GetRunByID, hget, World.call, hroot, hown]
    · simp [RetryRun, GetRunByID, hget, World.call, hroot, hown]
  · rcases hget : env.models_GetRunByID w.calls runID with ⟨run, e⟩
    cases e with
    | some err => simp [GetRunByID, hget]
    | none =>
      by_cases hroot : env.IsRootUser ctx.UserName = true
      · simp [GetRunByID, hget, hroot]
      · by_cases hown : ctx.UserName = run.UserName
        · simp [GetRunByID, hget, hroot, hown]
        · simp [GetRunByID, hget, hroot, hown]

theorem StopRun_RetryRun_reject_other_users_witness :
    StopRun sampleEnv { UserName := "bob" } "run-000003" { wfMap := [("run-000003", 7)] } =
      (some (sampleEnv.NoAccessError "bob" sampleEnv.ResourceTypeRun "run-000003"),
        { UserName := "bob", ErrorCode := AccessDenied },
        { calls := [] ++ [Call.models_GetRunByID "run-000003"], wfMap := [("run-000003", 7)] }) ∧
    RetryRun sampleEnv { UserName := "bob" } "run-000003" { wfMap := [("run-000003", 7)] } =
      (some (sampleEnv.NoAccessError "bob" sampleEnv.ResourceTypeRun "run-000003"),
        { UserName := "bob", ErrorCode := AccessDenied },
        { calls := [] ++ [Call.models_GetRunByID "run-000003"], wfMap := [("run-000003", 7)] }) :=
  (StopRun_RetryRun_reject_other_users sampleEnv { UserName := "bob" } "run-000003"
    { wfMap := [("run-000003", 7)] }).1 sampleFailedRun (by decide) (by decide) (by decide)

/-- C26: for an accessible run in status failed or terminated whose step reset
succeeds, RetryRun returns nil, with the request context as it was, whatever
resumeRun returns; resumeRun returns a non-nil error exactly when the stored
run YAML does not parse, and then it is the parse error: when the YAML parses
it returns nil whatever handleImageAndStartWf returns. -/
theorem RetryRun_ignores_resume_errors (env : Env) :
    (∀ (ctx : RequestContext) (runID : String) (w : World) (run run1 : Run) (w2 : World),
      env.models_GetRunByID w.calls runID = (run, none) →
      (env.IsRootUser ctx.UserName = true ∨ ctx.UserName = run.UserName) →
      (run.Status = StatusRunFailed ∨ run.Status = StatusRunTerminated) →
      resetRunSteps env run (w.call (Call.models_GetRunByID runID)) = (none, run1, w2) →
      RetryRun env ctx runID w = (none, ctx, (resumeRun env run1 w2).2)) ∧
    (∀ (run : Run) (w : World),
      ((resumeRun env run w).1 ≠ none ↔ (env.yaml_Unmarshal run.RunYaml).2 ≠ none) ∧
      (resumeRun env run w).1 = (env.yaml_Unmarshal run.RunYaml).2 ∧
      ((env.yaml_Unmarshal run.RunYaml).2 = none →
        (resumeRun env run w).1 = none ∧
        (resumeRun env run w).2 =
          (handleImageAndStartWf env
            { run with
              WorkflowSource :=
                if run.ImageUrl ≠ "" then
                  { (env.yaml_Unmarshal run.RunYaml).1 with DockerEnv := run.ImageUrl }
                else (env.yaml_Unmarshal run.RunYaml).1 }
            true w).2)) := by
  constructor
  · intro ctx runID w run run1 w2 hget hacc hst hreset
    have hst2 : (run.Status == StatusRunFailed || run.Status == StatusRunTerminated) = true := by
      rcases hst with h | h <;> simp [h]
    simp only [World.call] at hreset
    simp only [RetryRun, GetRunByID, hget, World.call]
    rcases hacc with h | h <;> simp [h, hst2, hreset]
  · intro run w
    rcases hy : env.yaml_Unmarshal run.RunYaml with ⟨wfs, e⟩
    cases e with
    | some err => simp [resumeRun, hy]
    | none => simp [resumeRun, hy]

theorem RetryRun_ignores_resume_errors_witness :
    RetryRun sampleEnvBadRuntime { UserName := "alice" } "run-000003" {} =
      (none, { UserName := "alice" },
        (resumeRun sampleEnvBadRuntime
          (resetRunSteps sampleEnvBadRuntime sampleFailedRun
            (World.call {} (Call.models_GetRunByID "run-000003"))).2.1
          (resetRunSteps sampleEnvBadRuntime sampleFailedRun
            (World.call {} (Call.models_GetRunByID "run-000003"))).2.2).2) ∧
    (handleImageAndStartWf sampleEnvBadRuntime
      { (resetRunSteps sampleEnvBadRuntime sampleFailedRun
          (World.call {} (Call.models_GetRunByID "run-000003"))).2.1 with
        WorkflowSource := { Name := "" } } true
      (resetRunSteps sampleEnvBadRuntime sampleFailedRun
        (World.call {} (Call.models_GetRunByID "run-000003"))).2.2).1 ≠ none :=
  ⟨(RetryRun_ignores_resume_errors sampleEnvBadRuntime).1 { UserName := "alice" } "run-000003" {}
      sampleFailedRun _ _ (by decide) (by decide) (by decide) (by decide),
    by decide⟩

/-- C27: when the marker is empty or decodes, the persistence listing returns
an error, and the encryption of the next marker, where it is needed, does not
fail, ListRun sets the error code InternalError in the request context and
returns a nil error with a response whose RunList holds the brief of each run
of the list that the persistence call returned, in the same order. -/
theorem ListRun_swallows_listing_error (env : Env) (ctx : RequestContext) (marker : String)
    (maxKeys : Int) (userFilter fsFilter runFilter nameFilter : List String) (w : World)
    (pk : Int) (runList : List Run) (err : GoError)
    (hmarker : (if marker ≠ "" then env.DecryptPk marker else (0, none)) = (pk, none))
    (hlist : env.models_ListRun w.calls pk maxKeys (listRunUserFilter env ctx userFilter)
      fsFilter runFilter nameFilter = (runList, some err))
    (henc : ∀ pk1, (env.EncryptPk pk1).2 = none) :
    (ListRun env ctx marker maxKeys userFilter fsFilter runFilter nameFilter w).2.1 = none ∧
    (ListRun env ctx marker maxKeys userFilter fsFilter runFilter nameFilter w).2.2.1 =
      { ctx with ErrorCode := InternalError } ∧
    (ListRun env ctx marker maxKeys userFilter fsFilter runFilter nameFilter w).1.RunList =
      runList.map modelToListResp ∧
    (ListRun env ctx marker maxKeys userFilter fsFilter runFilter nameFilter w).1.MaxKeys =
      maxKeys := by
  unfold ListRun
  rw [hmarker]
  simp only [hlist]
  split
  · simp
  · rename_i run _
    split
    · rcases hE : env.EncryptPk run.Pk with ⟨m, e⟩
      have := henc run.Pk
      rw [hE] at this
      simp only at this
      subst this
      simp
    · simp

theorem ListRun_swallows_listing_error_witness :
    (ListRun sampleEnvBadList { UserName := "alice" } "" 50 [] [] [] [] {}).2.1 = none ∧
    (ListRun sampleEnvBadList { UserName := "alice" } "" 50 [] [] [] [] {}).2.2.1 =
      { UserName := "alice", ErrorCode := InternalError } ∧
    (ListRun sampleEnvBadList { UserName := "alice" } "" 50 [] [] [] [] {}).1.RunList =
      [{ ID := "run-000001", UserName := "alice" }, { ID := "run-000002", UserName := "alice" }] ∧
    (ListRun sampleEnvBadList { UserName := "alice" } "" 50 [] [] [] [] {}).1.MaxKeys = 50 :=
  ListRun_swallows_listing_error sampleEnvBadList { UserName := "alice" } "" 50 [] [] [] [] {} 0
    [{ Pk := 1, ID := "run-000001", UserName := "alice" },
     { Pk := 2, ID := "run-000002", UserName := "alice" }] ⟨"db is down"⟩
    (by decide) (by decide) (fun _ => rfl)

/-- C28: with the type constants pairwise distinct as the switch of the source
requires, checkLinkURLFormat for type local never reads past the end of the
split URL and returns an error exactly when the split on "/" has fewer than 3
segments or its third segment is "" or "root"; for hdfs and sftp it returns an
error exactly when there are fewer than 4 segments; for a type other than
hdfs, sftp, local and s3 it returns nil.  The properties are unchanged in all
these cases. -/
theorem checkLinkURLFormat_rejects_iff (env : LinkEnv) (hHDFS : env.Local ≠ env.HDFS)
    (hSFTP : env.Local ≠ env.SFTP) (url : String)
    (properties : Option (List (String × String))) :
    (∃ err, checkLinkURLFormat env env.Local url properties = some (err, properties) ∧
      (err ≠ none ↔ ((strings_Split_slash url).length < 3 ∨
        (strings_Split_slash url).get? 2 = some "" ∨
        (strings_Split_slash url).get? 2 = some "root"))) ∧
    (∀ fsType, fsType = env.HDFS ∨ fsType = env.SFTP →
      ∃ err, checkLinkURLFormat env fsType url properties = some (err, properties) ∧
        (err ≠ none ↔ (strings_Split_slash url).length < 4)) ∧
    (∀ fsType, fsType ≠ env.HDFS → fsType ≠ env.SFTP → fsType ≠ env.Local → fsType ≠ env.S3 →
      checkLinkURLFormat env fsType url properties = some (none, properties)) := by
  refine ⟨?_, ?_, ?_⟩
  · by_cases hlen : (strings_Split_slash url).length < 3
    · refine ⟨some (env.InvalidField "url" (env.Local ++ " address format is wrong")), ?_, ?_⟩
      · simp only [checkLinkURLFormat, hHDFS, hSFTP, false_or, if_false, if_true, hlen]
      · simp [hlen]
    · have hlt : 2 < (strings_Split_slash url).length := by omega
      rcases hseg : (strings_Split_slash url).get? 2 with _ | seg
      · rw [List.get?_eq_none] at hseg
        omega
      · by_cases hs : seg = "" ∨ seg = "root"
        · refine ⟨some (env.InvalidField "url"
            (env.Local ++ " path can not be empty or use root path")), ?_, ?_⟩
          · simp only [checkLinkURLFormat, hHDFS, hSFTP, false_or, if_false, if_true, hlen, hseg,
              hs]
          · simp only [hlen, false_or, Option.some.injEq]
            simpa using hs
        · refine ⟨none, ?_, ?_⟩
          · simp only [checkLinkURLFormat, hHDFS, hSFTP, false_or, if_false, if_true, hlen, hseg,
              hs]
          · simp only [hlen, false_or, Option.some.injEq]
            simpa using hs
  · intro fsType hty
    by_cases hlen : (strings_Split_slash url).length < 4
    · refine ⟨some (env.InvalidField "url" (fsType ++ " url format is wrong")), ?_, ?_⟩
      · simp only [checkLinkURLFormat, hty, if_true, hlen]
      · simp [hlen]
    · refine ⟨none, ?_, ?_⟩
      · simp only [checkLinkURLFormat, hty, if_true, hlen, if_false]
      · simp [hlen]
  · intro fsType h1 h2 h3 h4
    simp [checkLinkURLFormat, h1, h2, h3, h4]

theorem checkLinkURLFormat_rejects_iff_witness :
    sampleLinkEnv.Local ≠ sampleLinkEnv.HDFS ∧ sampleLinkEnv.Local ≠ sampleLinkEnv.SFTP ∧
    strings_Split_slash "local://root" = ["local:", "", "root"] ∧
    strings_Split_slash "local://home/data" = ["local:", "", "home", "data"] ∧
    strings_Split_slash "local:/" = ["local:", ""] ∧
    (∃ err, checkLinkURLFormat sampleLinkEnv "local" "local://root" none = some (err, none) ∧
      err ≠ none) ∧
    (∃ err, checkLinkURLFormat sampleLinkEnv "local" "local:/" none = some (err, none) ∧
      err ≠ none) ∧
    checkLinkURLFormat sampleLinkEnv "local" "local://home/data" none = some (none, none) ∧
    (∃ err, checkLinkURLFormat sampleLinkEnv "hdfs" "hdfs://host" none = some (err, none) ∧
      err ≠ none) ∧
    checkLinkURLFormat sampleLinkEnv "sftp" "sftp://host/data" none = some (none, none) ∧
    checkLinkURLFormat sampleLinkEnv "mock" "" none = some (none, none) :=
  ⟨by decide, by decide, by decide, by decide, by decide,
    (fun h => h.imp (fun _ h1 => ⟨h1.1, h1.2.2 (Or.inr (Or.inr (by decide)))⟩))
      (checkLinkURLFormat_rejects_iff sampleLinkEnv (by decide) (by decide) "local://root" none).1,
    (fun h => h.imp (fun _ h1 => ⟨h1.1, h1.2.2 (Or.inl (by decide))⟩))
      (checkLinkURLFormat_rejects_iff sampleLinkEnv (by decide) (by decide) "local:/" none).1,
    by decide,
    (fun h => h.imp (fun _ h1 => ⟨h1.1, h1.2.2 (by decide)⟩))
      ((checkLinkURLFormat_rejects_iff sampleLinkEnv (by decide) (by decide) "hdfs://host"
        none).2.1 "hdfs" (Or.inl rfl)),
    by decide,
    (checkLinkURLFormat_rejects_iff sampleLinkEnv (by decide) (by decide) "" none).2.2 "mock"
      (by decide) (by decide) (by decide) (by decide)⟩

/-- C29: for type hdfs and properties whose keytab data is empty or absent,
checkLinkProperties leaves the properties unchanged and returns nil exactly
when the user and the group property are both non-empty; with an empty or
absent user it returns the error "not correct hdfs properties", with a user
and an empty group the error "key[group] cannot be empty".  These three
outcomes are all there are, so the return of "key[user] cannot be empty" in
the hdfs case is never executed. -/
theorem checkLinkProperties_hdfs_without_keytab (env : LinkEnv) (props : List (String × String))
    (hkeytab : propGet props env.KeyTabData = "") :
    ((checkLinkProperties env env.HDFS props).1 = none ↔
      (propGet props env.UserKey ≠ "" ∧ propGet props env.Group ≠ "")) ∧
    (propGet props env.UserKey = "" →
      checkLinkProperties env env.HDFS props =
        (some (env.InvalidField "properties" "not correct hdfs properties"), props)) ∧
    checkLinkProperties env env.HDFS props =
      (if propGet props env.UserKey = "" then
        (some (env.InvalidField "properties" "not correct hdfs properties"), props)
      else if propGet props env.Group = "" then
        (some (env.InvalidField "properties" "key[group] cannot be empty"), props)
      else (none, props)) := by
  by_cases hu : propGet props env.UserKey = ""
  · simp [checkLinkProperties, hkeytab, hu]
  · by_cases hg : propGet props env.Group = ""
    · simp [checkLinkProperties, hkeytab, hu, hg]
    · simp [checkLinkProperties, hkeytab, hu, hg]

theorem checkLinkProperties_hdfs_without_keytab_witness :
    propGet [("group", "g")] sampleLinkEnv.KeyTabData = "" ∧
    (checkLinkProperties sampleLinkEnv "hdfs" [("user", "u"), ("group", "g")]).1 = none ∧
    checkLinkProperties sampleLinkEnv "hdfs" [("group", "g")] =
      (some ⟨"invalid field properties: not correct hdfs properties"⟩, [("group", "g")]) ∧
    checkLinkProperties sampleLinkEnv "hdfs" [("user", "u")] =
      (some ⟨"invalid field properties: key[group] cannot be empty"⟩, [("user", "u")]) :=
  ⟨by decide,
    (checkLinkProperties_hdfs_without_keytab sampleLinkEnv [("user", "u"), ("group", "g")]
      (by decide)).1.2 (by decide),
    (checkLinkProperties_hdfs_without_keytab sampleLinkEnv [("group", "g")] (by decide)).2.1
      (by decide),
    by decide⟩

/-- Every attempt of getFSClient that returns asks the file system service once. -/
theorem attempts_getFSClient (env : FsEnv) (fh : FsHandler) (calls cs : List FsCall)
    (r : Option FSClient × Option GoError) (h : getFSClient env fh calls = some (r, cs)) :
    attempts cs = attempts calls + 1 := by
  unfold getFSClient at h
  rcases hfs : env.GetFileSystem calls fh.fsID with ⟨fsModel, _ | e⟩
  · rw [hfs] at h
    simp only at h
    rcases hl : env.GetLink (calls ++ [FsCall.GetFileSystem fh.fsID]) fh.fsID with ⟨ll, _ | e⟩
    · rw [hl] at h
      simp only [NewFSClient, newFSClientWithFsMeta] at h
      split at h
      · simp only [Option.some.injEq, Prod.mk.injEq] at h
        rw [← h.2]
        simp [attempts, List.filter_append]
      · split at h
        · exact absurd h (by simp)
        · simp only [Option.some.injEq, Prod.mk.injEq] at h
          rw [← h.2]
          simp [attempts, List.filter_append]
    · rw [hl] at h
      simp only [Option.some.injEq, Prod.mk.injEq] at h
      rw [← h.2]
      simp [attempts, List.filter_append]
  · rw [hfs] at h
    simp only [Option.some.injEq, Prod.mk.injEq] at h
    rw [← h.2]
    simp [attempts, List.filter_append]

/-- Sleeping is not an attempt. -/
theorem attempts_sleep (calls : List FsCall) (n : Nat) :
    attempts (calls ++ [FsCall.time_Sleep n]) = attempts calls := by
  simp [attempts, List.filter_append]

/-- C30: NewFsHandlerWithServer makes at most 3 attempts (maxRetryCount) to
build the client.  If the first attempt that returns a nil error is attempt 1,
2 or 3, the function returns a handler with the client of that attempt and a
nil error, and makes no call after that attempt.  If all 3 attempts return an
error it returns a nil handler and the error of the third attempt.  Whenever
it returns, the handler is nil exactly when the error is non-nil, and that is
exactly when all 3 attempts failed. -/
theorem NewFsHandlerWithServer_retries (env : FsEnv) (fsID fsHost : String) (fsPort : Int)
    (logEntry : Option String) (calls : List FsCall) :
    (∀ c cs1, getFSClient env { fsID := fsID } calls = some ((c, none), cs1) →
      NewFsHandlerWithServer env fsID fsHost fsPort logEntry calls =
        some ((some { fsID := fsID, fsClient := c, log := logEntry }, none), cs1)) ∧
    (∀ c1 e1 cs1, getFSClient env { fsID := fsID } calls = some ((c1, some e1), cs1) →
      (∀ c cs2, getFSClient env { fsID := fsID } (cs1 ++ [FsCall.time_Sleep sleepMillisecond]) =
          some ((c, none), cs2) →
        NewFsHandlerWithServer env fsID fsHost fsPort logEntry calls =
          some ((some { fsID := fsID, fsClient := c, log := logEntry }, none), cs2)) ∧
      (∀ c2 e2 cs2, getFSClient env { fsID := fsID }
          (cs1 ++ [FsCall.time_Sleep sleepMillisecond]) = some ((c2, some e2), cs2) →
        (∀ c cs3, getFSClient env { fsID := fsID }
            (cs2 ++ [FsCall.time_Sleep sleepMillisecond]) = some ((c, none), cs3) →
          NewFsHandlerWithServer env fsID fsHost fsPort logEntry calls =
            some ((some { fsID := fsID, fsClient := c, log := logEntry }, none), cs3)) ∧
        (∀ c3 e3 cs3, getFSClient env { fsID := fsID }
            (cs2 ++ [FsCall.time_Sleep sleepMillisecond]) = some ((c3, some e3), cs3) →
          NewFsHandlerWithServer env fsID fsHost fsPort logEntry calls =
            some ((none, some e3), cs3 ++ [FsCall.time_Sleep sleepMillisecond])))) ∧
    (∀ handler err cs,
      NewFsHandlerWithServer env fsID fsHost fsPort logEntry calls = some ((handler, err), cs) →
      attempts cs ≤ attempts calls + 3 ∧
      (handler = none ↔ err ≠ none) ∧
      ((handler = none ∧ err ≠ none) ↔
        ∃ c1 e1 cs1 c2 e2 cs2 c3 e3 cs3,
          getFSClient env { fsID := fsID } calls = some ((c1, some e1), cs1) ∧
          getFSClient env { fsID := fsID } (cs1 ++ [FsCall.time_Sleep sleepMillisecond]) =
            some ((c2, some e2), cs2) ∧
          getFSClient env { fsID := fsID } (cs2 ++ [FsCall.time_Sleep sleepMillisecond]) =
            some ((c3, some e3), cs3) ∧
          err = some e3)) := by
  refine ⟨?_, ?_, ?_⟩
  · intro c cs1 h1
    simp [NewFsHandlerWithServer, maxRetryCount, NewFsHandlerWithServer_loop, h1]
  · intro c1 e1 cs1 h1
    refine ⟨?_, ?_⟩
    · intro c cs2 h2
      simp [NewFsHandlerWithServer, maxRetryCount, NewFsHandlerWithServer_loop, h1, h2]
    · intro c2 e2 cs2 h2
      refine ⟨?_, ?_⟩
      · intro c cs3 h3
        simp [NewFsHandlerWithServer, maxRetryCount, NewFsHandlerWithServer_loop, h1, h2, h3]
      · intro c3 e3 cs3 h3
        simp [NewFsHandlerWithServer, maxRetryCount, NewFsHandlerWithServer_loop, h1, h2, h3]
  · intro handler err cs hres
    rcases h1 : getFSClient env { fsID := fsID } calls with _ | ⟨⟨c1, _ | e1⟩, cs1⟩
    · simp [NewFsHandlerWithServer, maxRetryCount, NewFsHandlerWithServer_loop, h1] at hres
    · have a1 := attempts_getFSClient env _ _ _ _ h1
      simp [NewFsHandlerWithServer, maxRetryCount, NewFsHandlerWithServer_loop, h1] at hres
      obtain ⟨⟨rfl, rfl⟩, rfl⟩ := hres
      refine ⟨by omega, by simp, by simp⟩
    · have a1 := attempts_getFSClient env _ _ _ _ h1
      rcases h2 : getFSClient env { fsID := fsID } (cs1 ++ [FsCall.time_Sleep sleepMillisecond])
        with _ | ⟨⟨c2, _ | e2⟩, cs2⟩
      · simp [NewFsHandlerWithServer, maxRetryCount, NewFsHandlerWithServer_loop, h1, h2] at hres
      · have a2 := attempts_getFSClient env _ _ _ _ h2
        rw [attempts_sleep] at a2
        simp [NewFsHandlerWithServer, maxRetryCount, NewFsHandlerWithServer_loop, h1, h2] at hres
        obtain ⟨⟨rfl, rfl⟩, rfl⟩ := hres
        refine ⟨by omega, by simp, by simp⟩
      · have a2 := attempts_getFSClient env _ _ _ _ h2
        rw [attempts_sleep] at a2
        rcases h3 : getFSClient env { fsID := fsID }
          (cs2 ++ [FsCall.time_Sleep sleepMillisecond]) with _ | ⟨⟨c3, _ | e3⟩, cs3⟩
        · simp [NewFsHandlerWithServer, maxRetryCount, NewFsHandlerWithServer_loop, h1, h2,
            h3] at hres
        · have a3 := attempts_getFSClient env _ _ _ _ h3
          rw [attempts_sleep] at a3
          simp [NewFsHandlerWithServer, maxRetryCount, NewFsHandlerWithServer_loop, h1, h2,
            h3] at hres
          obtain ⟨⟨rfl, rfl⟩, rfl⟩ := hres
          refine ⟨by omega, by simp, by simp⟩
        · have a3 := attempts_getFSClient env _ _ _ _ h3
          rw [attempts_sleep] at a3
          simp [NewFsHandlerWithServer, maxRetryCount, NewFsHandlerWithServer_loop, h1, h2,
            h3] at hres
          obtain ⟨⟨rfl, rfl⟩, rfl⟩ := hres
          exact ⟨by rw [attempts_sleep]; omega, by simp,
            fun _ => ⟨c1, e1, cs1, c2, e2, cs2, c3, e3, cs3, rfl, h2, h3, rfl⟩,
            fun _ => ⟨rfl, by simp⟩⟩

theorem NewFsHandlerWithServer_retries_witness :
    NewFsHandlerWithServer (sampleFsEnv 2) "fs-root-data" "localhost" 8083 (some "log") [] =
      some ((some
          { fsID := "fs-root-data", fsClient := some (FSClient.MockClient "/mnt/data"),
            log := some "log" }, none),
        [FsCall.GetFileSystem "fs-root-data", FsCall.time_Sleep 100,
          FsCall.GetFileSystem "fs-root-data", FsCall.time_Sleep 100,
          FsCall.GetFileSystem "fs-root-data", FsCall.GetLink "fs-root-data"]) ∧
    NewFsHandlerWithServer (sampleFsEnv 5) "fs-root-data" "localhost" 8083 (some "log") [] =
      some ((none, some ⟨"database is down, attempt 3"⟩),
        [FsCall.GetFileSystem "fs-root-data", FsCall.time_Sleep 100,
          FsCall.GetFileSystem "fs-root-data", FsCall.time_Sleep 100,
          FsCall.GetFileSystem "fs-root-data"] ++ [FsCall.time_Sleep sleepMillisecond]) :=
  ⟨(((NewFsHandlerWithServer_retries (sampleFsEnv 2) "fs-root-data" "localhost" 8083 (some "log")
      []).2.1 none ⟨"database is down, attempt 1"⟩ [FsCall.GetFileSystem "fs-root-data"]
      (by decide)).2 none ⟨"database is down, attempt 2"⟩
      [FsCall.GetFileSystem "fs-root-data", FsCall.time_Sleep 100,
        FsCall.GetFileSystem "fs-root-data"] (by decide)).1
      (some (FSClient.MockClient "/mnt/data"))
      [FsCall.GetFileSystem "fs-root-data", FsCall.time_Sleep 100,
        FsCall.GetFileSystem "fs-root-data", FsCall.time_Sleep 100,
        FsCall.GetFileSystem "fs-root-data", FsCall.GetLink "fs-root-data"] (by decide),
    (((NewFsHandlerWithServer_retries (sampleFsEnv 5) "fs-root-data" "localhost" 8083 (some "log")
      []).2.1 none ⟨"database is down, attempt 1"⟩ [FsCall.GetFileSystem "fs-root-data"]
      (by decide)).2 none ⟨"database is down, attempt 2"⟩
      [FsCall.GetFileSystem "fs-root-data", FsCall.time_Sleep 100,
        FsCall.GetFileSystem "fs-root-data"] (by decide)).2
      none ⟨"database is down, attempt 3"⟩
      [FsCall.GetFileSystem "fs-root-data", FsCall.time_Sleep 100,
        FsCall.GetFileSystem "fs-root-data", FsCall.time_Sleep 100,
        FsCall.GetFileSystem "fs-root-data"] (by decide)⟩

/-- The value that `mapGet` finds in a map whose values were replaced one by one. -/
theorem mapGet_map_value {α β : Type} (m : List (String × α)) (g : String × α → β) (k : String) :
    mapGet (m.map (fun e => (e.1, g e))) k = (mapGet m k).map (fun v => g (k, v)) := by
  induction m with
  | nil => simp [mapGet]
  | cons e rest ih =>
    obtain ⟨k0, v0⟩ := e
    by_cases h : k0 = k
    · subst h
      simp [mapGet]
    · simp [mapGet, h, ih]

/-- C22: for every runtime whose steps have all reached a terminal state, the
aggregate status is Succeeded exactly when the terminal state of every step is
Succeeded or Skipped, and it is Failed whenever some step is Failed. -/
theorem aggregateStatus_succeeded_iff (steps : RuntimeView)
    (hterminal : ∀ e ∈ steps, e.2.Status ∈ StepTerminalStatus) :
    (aggregateStatus steps = some StatusRunSucceeded ↔
      ∀ e ∈ steps, e.2.Status = StatusJobSucceeded ∨ e.2.Status = StatusJobSkipped) ∧
    ((∃ e ∈ steps, e.2.Status = StatusJobFailed) → aggregateStatus steps = some StatusRunFailed) := by
  have hall : steps.all (fun e => decide (e.2.Status ∈ StepTerminalStatus)) = true := by
    rw [List.all_eq_true]
    intro e he
    exact decide_eq_true (hterminal e he)
  have hne1 : StatusRunFailed ≠ StatusRunSucceeded := by decide
  have hne2 : StatusRunTerminated ≠ StatusRunSucceeded := by decide
  have hne3 : StatusJobFailed ≠ StatusJobSucceeded := by decide
  have hne4 : StatusJobFailed ≠ StatusJobSkipped := by decide
  have hne5 : StatusJobTerminated ≠ StatusJobSucceeded := by decide
  have hne6 : StatusJobTerminated ≠ StatusJobSkipped := by decide
  constructor
  · unfold aggregateStatus
    rw [if_pos hall]
    by_cases hf : steps.any (fun e => decide (e.2.Status = StatusJobFailed)) = true
    · rw [if_pos hf]
      rw [List.any_eq_true] at hf
      obtain ⟨e, he, hst⟩ := hf
      have hst1 : e.2.Status = StatusJobFailed := of_decide_eq_true hst
      constructor
      · intro h
        exact absurd (Option.some.inj h) hne1
      · intro h
        rcases h e he with h1 | h1
        · exact absurd (hst1.symm.trans h1) hne3
        · exact absurd (hst1.symm.trans h1) hne4
    · rw [if_neg hf]
      by_cases ht : steps.any (fun e => decide (e.2.Status = StatusJobTerminated)) = true
      · rw [if_pos ht]
        rw [List.any_eq_true] at ht
        obtain ⟨e, he, hst⟩ := ht
        have hst1 : e.2.Status = StatusJobTerminated := of_decide_eq_true hst
        constructor
        · intro h
          exact absurd (Option.some.inj h) hne2
        · intro h
          rcases h e he with h1 | h1
          · exact absurd (hst1.symm.trans h1) hne5
          · exact absurd (hst1.symm.trans h1) hne6
      · rw [if_neg ht]
        by_cases hs : steps.all (fun e => isTerminalSuccessful e.2.Status) = true
        · rw [if_pos hs]
          rw [List.all_eq_true] at hs
          constructor
          · intro _ e he
            have := hs e he
            simpa [isTerminalSuccessful] using this
          · intro _
            rfl
        · rw [if_neg hs]
          constructor
          · intro h
            exact absurd h (by simp)
          · intro h
            apply absurd _ hs
            rw [List.all_eq_true]
            intro e he
            simpa [isTerminalSuccessful] using h e he
  · rintro ⟨e, he, hst⟩
    unfold aggregateStatus
    rw [if_pos hall]
    have hf : steps.any (fun e => decide (e.2.Status = StatusJobFailed)) = true := by
      rw [List.any_eq_true]
      exact ⟨e, he, decide_eq_true hst⟩
    rw [if_pos hf]

theorem aggregateStatus_succeeded_iff_witness :
    aggregateStatus [("data_preprocess", { JobID := "mockJobID", Status := StatusJobSucceeded }),
      ("main", { JobID := "mockJobID", Status := StatusJobSucceeded }),
      ("validate", { JobID := "mockJobID", Status := StatusJobSkipped })] =
        some StatusRunSucceeded ∧
    aggregateStatus [("data_preprocess", { JobID := "mockJobID", Status := StatusJobSucceeded }),
      ("main", { JobID := "mockJobID", Status := StatusJobFailed }),
      ("validate", { JobID := "mockJobID", Status := StatusJobCancelled })] =
        some StatusRunFailed :=
  ⟨(aggregateStatus_succeeded_iff _ (by decide)).1.2 (by decide),
    (aggregateStatus_succeeded_iff _ (by decide)).2
      ⟨("main", { JobID := "mockJobID", Status := StatusJobFailed }), by decide, rfl⟩⟩

/-- An entry that `mapGet` finds is an entry of the map. -/
theorem mem_of_mapGet_eq_some {α : Type} (m : List (String × α)) (k : String) (v : α)
    (h : mapGet m k = some v) : (k, v) ∈ m := by
  induction m with
  | nil => simp [mapGet] at h
  | cons e rest ih =>
    obtain ⟨k0, v0⟩ := e
    by_cases hk : k0 = k
    · simp only [mapGet, hk, if_true, Option.some.injEq] at h
      simp [hk, h]
    · simp only [mapGet, hk, if_false] at h
      exact List.mem_cons_of_mem _ (ih h)

theorem replaceRunParam_of_target (entrypoints : List (String × WorkflowSourceStep))
    (key : String) (value : ParamValue) (s n : String)
    (h : overrideTarget entrypoints key = some (s, n)) :
    replaceRunParam entrypoints key value = (setStepParam entrypoints s n value, none) ∧
      declares entrypoints s n = true := by
  unfold overrideTarget at h
  unfold replaceRunParam
  rcases hsp : splitAtDot key.data [] with _ | ⟨s1, n1⟩
  · rw [hsp] at h
    simp only at h ⊢
    have hfun : (fun stepName => match mapGet entrypoints stepName with
        | some step => decide (key ∈ mapKeys step.Parameters)
        | none => false) = (fun stepName => declares entrypoints stepName key) := rfl
    rw [hfun]
    rcases hf : (mapKeys entrypoints).filter (fun stepName => declares entrypoints stepName key)
      with _ | ⟨a, _ | ⟨b, l⟩⟩
    · rw [hf] at h; simp at h
    · rw [hf] at h
      simp only [Option.some.injEq, Prod.mk.injEq] at h
      obtain ⟨rfl, rfl⟩ := h
      refine ⟨rfl, ?_⟩
      have hmem : a ∈ (mapKeys entrypoints).filter
          (fun stepName => declares entrypoints stepName key) := by rw [hf]; simp
      exact (List.mem_filter.mp hmem).2
    · rw [hf] at h; simp at h
  · rw [hsp] at h
    simp only at h ⊢
    by_cases hd : declares entrypoints s1 n1 = true
    · simp only [hd, if_true, Option.some.injEq, Prod.mk.injEq] at h
      obtain ⟨rfl, rfl⟩ := h
      refine ⟨?_, hd⟩
      unfold declares at hd
      rcases hg : mapGet entrypoints s1 with _ | step
      · rw [hg] at hd; simp at hd
      · rw [hg] at hd
        simp only [decide_eq_true_eq] at hd
        simp [hd]
    · simp [hd] at h

theorem replaceRunParam_of_no_target (entrypoints : List (String × WorkflowSourceStep))
    (key : String) (value : ParamValue) (h : overrideTarget entrypoints key = none) :
    (replaceRunParam entrypoints key value).2 ≠ none := by
  unfold overrideTarget at h
  unfold replaceRunParam
  rcases hsp : splitAtDot key.data [] with _ | ⟨s1, n1⟩
  · rw [hsp] at h
    simp only at h ⊢
    have hfun : (fun stepName => match mapGet entrypoints stepName with
        | some step => decide (key ∈ mapKeys step.Parameters)
        | none => false) = (fun stepName => declares entrypoints stepName key) := rfl
    rw [hfun]
    rcases hf : (mapKeys entrypoints).filter (fun stepName => declares entrypoints stepName key)
      with _ | ⟨a, _ | ⟨b, l⟩⟩
    · simp
    · rw [hf] at h; simp at h
    · simp
  · rw [hsp] at h
    simp only at h ⊢
    by_cases hd : declares entrypoints s1 n1 = true
    · simp [hd] at h
    · unfold declares at hd
      rcases hg : mapGet entrypoints s1 with _ | step
      · simp
      · rw [hg] at hd
        simp only [decide_eq_true_eq] at hd
        simp [hd]

theorem setStepParam_of_declares (entrypoints : List (String × WorkflowSourceStep))
    (s n : String) (value : ParamValue) (h : declares entrypoints s n = true) :
    ∃ step, mapGet entrypoints s = some step ∧ n ∈ mapKeys step.Parameters ∧
      setStepParam entrypoints s n value =
        mapSet entrypoints s { step with Parameters := mapSet step.Parameters n value } := by
  unfold declares at h
  rcases hg : mapGet entrypoints s with _ | step
  · rw [hg] at h; simp at h
  · rw [hg] at h
    simp only [decide_eq_true_eq] at h
    exact ⟨step, rfl, h, by simp [setStepParam, hg]⟩

theorem mapKeys_setStepParam (entrypoints : List (String × WorkflowSourceStep))
    (s n : String) (value : ParamValue) (h : declares entrypoints s n = true) :
    mapKeys (setStepParam entrypoints s n value) = mapKeys entrypoints := by
  obtain ⟨step, hg, _, heq⟩ := setStepParam_of_declares entrypoints s n value h
  rw [heq]
  exact mapKeys_mapSet_of_mem _ _ _ ((mapGet_isSome_iff _ _).mp ⟨step, hg⟩)

theorem declares_setStepParam (entrypoints : List (String × WorkflowSourceStep))
    (s n : String) (value : ParamValue) (h : declares entrypoints s n = true) (s1 n1 : String) :
    declares (setStepParam entrypoints s n value) s1 n1 = declares entrypoints s1 n1 := by
  obtain ⟨step, hg, hn, heq⟩ := setStepParam_of_declares entrypoints s n value h
  rw [heq]
  unfold declares
  rw [mapGet_mapSet]
  by_cases hs : s = s1
  · subst hs
    rw [if_pos rfl, hg]
    simp only
    rw [mapKeys_mapSet_of_mem _ _ _ hn]
  · rw [if_neg hs]

theorem overrideTarget_setStepParam (entrypoints : List (String × WorkflowSourceStep))
    (s n : String) (value : ParamValue) (h : declares entrypoints s n = true) (key : String) :
    overrideTarget (setStepParam entrypoints s n value) key = overrideTarget entrypoints key := by
  unfold overrideTarget
  rw [mapKeys_setStepParam _ _ _ _ h]
  have hfun : (fun stepName => declares (setStepParam entrypoints s n value) stepName key) =
      (fun stepName => declares entrypoints stepName key) := by
    funext stepName
    exact declares_setStepParam _ _ _ _ h _ _
  rw [hfun]
  rcases splitAtDot key.data [] with _ | ⟨s1, n1⟩
  · rfl
  · simp only [declares_setStepParam _ _ _ _ h]

theorem paramOf_setStepParam (entrypoints : List (String × WorkflowSourceStep))
    (s n : String) (value : ParamValue) (h : declares entrypoints s n = true) (s1 n1 : String) :
    paramOf (setStepParam entrypoints s n value) s1 n1 =
      if s1 = s ∧ n1 = n then some value else paramOf entrypoints s1 n1 := by
  obtain ⟨step, hg, hn, heq⟩ := setStepParam_of_declares entrypoints s n value h
  rw [heq]
  unfold paramOf
  rw [mapGet_mapSet]
  by_cases hs : s = s1
  · subst hs
    rw [if_pos rfl, hg]
    simp only [true_and]
    rw [mapGet_mapSet]
    by_cases hn1 : n = n1
    · subst hn1; simp
    · have hn2 : ¬ n1 = n := fun hh => hn1 hh.symm
      simp [hn1, hn2]
  · have hs2 : ¬ s1 = s := fun hh => hs hh.symm
    simp [hs, hs2]

/-- When all the overrides are applied, each of them names a declared
parameter of the source. -/
theorem replaceRunParams_targets (params : List (String × ParamValue)) :
    ∀ (entrypoints entrypoints1 : List (String × WorkflowSourceStep)),
      replaceRunParams entrypoints params = (entrypoints1, none) →
      ∀ e ∈ params, overrideTarget entrypoints e.1 ≠ none := by
  induction params with
  | nil => intro _ _ _ e he; simp at he
  | cons p rest ih =>
    obtain ⟨key, value⟩ := p
    intro entrypoints entrypoints1 hrep e he
    rcases ht : overrideTarget entrypoints key with _ | ⟨s, n⟩
    · have hfail := replaceRunParam_of_no_target entrypoints key value ht
      unfold replaceRunParams at hrep
      rcases hr : replaceRunParam entrypoints key value with ⟨eps, _ | err⟩
      · rw [hr] at hfail; simp at hfail
      · rw [hr] at hrep; simp at hrep
    · obtain ⟨hr, hd⟩ := replaceRunParam_of_target entrypoints key value s n ht
      unfold replaceRunParams at hrep
      rw [hr] at hrep
      simp only at hrep
      rcases List.mem_cons.mp he with rfl | hmem
      · simp [ht]
      · have := ih _ _ hrep e hmem
        rwa [overrideTarget_setStepParam _ _ _ _ hd] at this

/-- A parameter that no override names keeps its value. -/
theorem replaceRunParams_paramOf_untouched (params : List (String × ParamValue)) (s n : String) :
    ∀ (entrypoints entrypoints1 : List (String × WorkflowSourceStep)),
      replaceRunParams entrypoints params = (entrypoints1, none) →
      (∀ e ∈ params, overrideTarget entrypoints e.1 ≠ some (s, n)) →
      paramOf entrypoints1 s n = paramOf entrypoints s n := by
  induction params with
  | nil =>
    intro entrypoints entrypoints1 hrep _
    simp only [replaceRunParams, Prod.mk.injEq, and_true] at hrep
    rw [hrep]
  | cons p rest ih =>
    obtain ⟨key, value⟩ := p
    intro entrypoints entrypoints1 hrep hno
    have hsome := replaceRunParams_targets _ _ _ hrep (key, value) (List.mem_cons_self _ _)
    rcases ht : overrideTarget entrypoints key with _ | ⟨s0, n0⟩
    · exact absurd ht hsome
    · obtain ⟨hr, hd⟩ := replaceRunParam_of_target entrypoints key value s0 n0 ht
      unfold replaceRunParams at hrep
      rw [hr] at hrep
      simp only at hrep
      have hne : ¬ (s = s0 ∧ n = n0) := by
        rintro ⟨rfl, rfl⟩
        exact hno (key, value) (List.mem_cons_self _ _) ht
      rw [ih _ _ hrep, paramOf_setStepParam _ _ _ _ hd, if_neg hne]
      intro e he
      rw [overrideTarget_setStepParam _ _ _ _ hd]
      exact hno e (List.mem_cons_of_mem _ he)

/-- A parameter that an override names, and on whose value the overrides that
name it agree, has that value after the overrides. -/
theorem replaceRunParams_paramOf (params : List (String × ParamValue)) (s n : String)
    (value : ParamValue) :
    ∀ (entrypoints entrypoints1 : List (String × WorkflowSourceStep)),
      replaceRunParams entrypoints params = (entrypoints1, none) →
      (∃ e ∈ params, overrideTarget entrypoints e.1 = some (s, n)) →
      (∀ e ∈ params, overrideTarget entrypoints e.1 = some (s, n) → e.2 = value) →
      paramOf entrypoints1 s n = some value := by
  induction params with
  | nil => intro _ _ _ hex; simp at hex
  | cons p rest ih =>
    obtain ⟨key, value0⟩ := p
    intro entrypoints entrypoints1 hrep hex hagree
    have hsome := replaceRunParams_targets _ _ _ hrep (key, value0) (List.mem_cons_self _ _)
    rcases ht : overrideTarget entrypoints key with _ | ⟨s0, n0⟩
    · exact absurd ht hsome
    · obtain ⟨hr, hd⟩ := replaceRunParam_of_target entrypoints key value0 s0 n0 ht
      unfold replaceRunParams at hrep
      rw [hr] at hrep
      simp only at hrep
      by_cases hrest : ∃ e ∈ rest, overrideTarget entrypoints e.1 = some (s, n)
      · apply ih _ _ hrep
        · obtain ⟨e, he, hte⟩ := hrest
          exact ⟨e, he, by rw [overrideTarget_setStepParam _ _ _ _ hd]; exact hte⟩
        · intro e he hte
          rw [overrideTarget_setStepParam _ _ _ _ hd] at hte
          exact hagree e (List.mem_cons_of_mem _ he) hte
      · have hhead : overrideTarget entrypoints key = some (s, n) := by
          obtain ⟨e, he, hte⟩ := hex
          rcases List.mem_cons.mp he with rfl | hmem
          · exact hte
          · exact absurd ⟨e, hmem, hte⟩ hrest
        have hv : value0 = value := hagree (key, value0) (List.mem_cons_self _ _) hhead
        rw [ht] at hhead
        simp only [Option.some.injEq, Prod.mk.injEq] at hhead
        obtain ⟨rfl, rfl⟩ := hhead
        rw [replaceRunParams_paramOf_untouched rest s0 n0 _ _ hrep, paramOf_setStepParam _ _ _ _ hd]
        · simp [hv]
        · intro e he hte
          rw [overrideTarget_setStepParam _ _ _ _ hd] at hte
          exact hrest ⟨e, he, hte⟩

/-- Normalization keeps a direct value. -/
theorem normalizeParams_direct (params : List (String × ParamValue)) (n : String)
    (v : ParamScalar) :
    ∀ out, normalizeParams params = (out, none) →
      mapGet params n = some (ParamValue.direct v) → mapGet out n = some (ParamValue.direct v) := by
  induction params with
  | nil => intro out _ h; simp [mapGet] at h
  | cons p rest ih =>
    obtain ⟨name, pv⟩ := p
    intro out hnorm hget
    cases pv with
    | direct v0 =>
      unfold normalizeParams at hnorm
      rcases hr : normalizeParams rest with ⟨out1, _ | err⟩
      · rw [hr] at hnorm
        simp only [Prod.mk.injEq, and_true] at hnorm
        subst hnorm
        by_cases hk : name = n
        · simp only [mapGet, hk, if_true] at hget ⊢
          exact hget
        · simp only [mapGet, hk, if_false] at hget ⊢
          exact ih _ hr hget
      · rw [hr] at hnorm; simp at hnorm
    | dict type default =>
      unfold normalizeParams at hnorm
      rcases hc : checkDictParam name type default with ⟨v1, _ | err⟩
      · rw [hc] at hnorm
        simp only at hnorm
        rcases hr : normalizeParams rest with ⟨out1, _ | err⟩
        · rw [hr] at hnorm
          simp only [Prod.mk.injEq, and_true] at hnorm
          subst hnorm
          by_cases hk : name = n
          · simp [mapGet, hk] at hget
          · simp only [mapGet, hk, if_false] at hget ⊢
            exact ih _ hr hget
        · rw [hr] at hnorm; simp at hnorm
      · rw [hc] at hnorm; simp at hnorm

theorem normalizeStep_direct (step : WorkflowSourceStep) (n : String) (v : ParamScalar)
    (h : mapGet step.Parameters n = some (ParamValue.direct v)) :
    mapGet (normalizeStep step).Parameters n = some (ParamValue.direct v) := by
  unfold normalizeStep
  rcases hr : normalizeParams step.Parameters with ⟨out, _ | err⟩
  · exact normalizeParams_direct _ _ _ _ hr h
  · exact h

/-- A validate that returns no error has applied all the overrides and holds
the source with the run steps normalized. -/
theorem validate_none_entrypoints (bwf : BaseWorkflow) (h : (validate bwf).2 = none) :
    ∃ entrypoints, replaceRunParams bwf.Source.EntryPoints bwf.Params = (entrypoints, none) ∧
      (validate bwf).1.Source.EntryPoints = entrypoints.map (fun e =>
        (e.1, if e.1 ∈ mapKeys (getRunSteps (bwf.withEntryPoints entrypoints)) then
          normalizeStep e.2 else e.2)) := by
  unfold validate at h ⊢
  rcases hrep : replaceRunParams bwf.Source.EntryPoints bwf.Params with ⟨eps, _ | err⟩
  · rw [hrep] at h
    simp only at h ⊢
    rcases hv : validateRunSteps (bwf.withEntryPoints eps) with _ | err
    · refine ⟨eps, rfl, ?_⟩
      simp only [BaseWorkflow.withEntryPoints]
      apply List.map_congr_left
      intro e _
      split <;> rfl
    · rw [hv] at h; simp at h
  · rw [hrep] at h; simp at h

/-- The key `step.name` of a declared parameter names that parameter. -/
theorem overrideTarget_of_dotted (entrypoints : List (String × WorkflowSourceStep))
    (key s n : String) (step : WorkflowSourceStep) (hsplit : splitAtDot key.data [] = some (s, n))
    (hget : mapGet entrypoints s = some step) (hmem : n ∈ mapKeys step.Parameters) :
    overrideTarget entrypoints key = some (s, n) := by
  simp [overrideTarget, hsplit, declares, hget, hmem]

/-- A bare name that names a parameter names the one of every step that declares it. -/
theorem overrideTarget_of_bare (entrypoints : List (String × WorkflowSourceStep))
    (key s : String) (step : WorkflowSourceStep) (hsplit : splitAtDot key.data [] = none)
    (hget : mapGet entrypoints s = some step) (hmem : key ∈ mapKeys step.Parameters)
    (hsome : overrideTarget entrypoints key ≠ none) :
    overrideTarget entrypoints key = some (s, key) := by
  have hin : s ∈ (mapKeys entrypoints).filter (fun stepName => declares entrypoints stepName key) := by
    rw [List.mem_filter]
    exact ⟨(mapGet_isSome_iff _ _).mp ⟨step, hget⟩, by simp [declares, hget, hmem]⟩
  unfold overrideTarget at hsome ⊢
  rw [hsplit] at hsome ⊢
  simp only at hsome ⊢
  rcases hf : (mapKeys entrypoints).filter (fun stepName => declares entrypoints stepName key)
    with _ | ⟨a, _ | ⟨b, l⟩⟩
  · rw [hf] at hin; simp at hin
  · rw [hf] at hin
    simp only [List.mem_singleton] at hin
    rw [hin]
  · rw [hf] at hsome; simp at hsome

/-- A bare name that no step declares names no parameter. -/
theorem overrideTarget_of_undeclared (entrypoints : List (String × WorkflowSourceStep))
    (key : String) (hsplit : splitAtDot key.data [] = none)
    (hno : ∀ s step, mapGet entrypoints s = some step → key ∉ mapKeys step.Parameters) :
    overrideTarget entrypoints key = none := by
  have hf : (mapKeys entrypoints).filter (fun stepName => declares entrypoints stepName key) =
      [] := by
    rw [List.filter_eq_nil_iff]
    intro s _
    unfold declares
    rcases hg : mapGet entrypoints s with _ | step
    · simp
    · simpa using hno s step hg
  simp [overrideTarget, hsplit, hf]

/-- C21 (the claim as stated fails): with the overrides `model` = a and
`main.model` = b of one request, both of which name the declared parameter
`model` of step main, validate returns no error and the parameter holds one
of the two values, whatever the order in which the overrides are applied, so
the other override is not the value of the parameter; and an override of
`model` whose value is a DictParam is accepted and stored as the default of
the DictParam, not as the value of the override. -/
theorem validate_applies_overrides_counterexample :
    ((validate sampleConflictWorkflow).2 = none ∧
      ("model", ParamValue.direct (ParamScalar.str "a")) ∈ sampleConflictWorkflow.Params ∧
      splitAtDot "model".data [] = none ∧
      declares sampleConflictWorkflow.Source.EntryPoints "main" "model" = true ∧
      paramOf (validate sampleConflictWorkflow).1.Source.EntryPoints "main" "model" =
        some (ParamValue.direct (ParamScalar.str "b")) ∧
      paramOf (validate sampleConflictWorkflow).1.Source.EntryPoints "main" "model" ≠
        some (ParamValue.direct (ParamScalar.str "a"))) ∧
    ((validate sampleConflictWorkflow1).2 = none ∧
      ("main.model", ParamValue.direct (ParamScalar.str "b")) ∈ sampleConflictWorkflow1.Params ∧
      splitAtDot "main.model".data [] = some ("main", "model") ∧
      declares sampleConflictWorkflow1.Source.EntryPoints "main" "model" = true ∧
      paramOf (validate sampleConflictWorkflow1).1.Source.EntryPoints "main" "model" =
        some (ParamValue.direct (ParamScalar.str "a")) ∧
      paramOf (validate sampleConflictWorkflow1).1.Source.EntryPoints "main" "model" ≠
        some (ParamValue.direct (ParamScalar.str "b"))) ∧
    ((validate sampleDictOverrideWorkflow).2 = none ∧
      ("model", ParamValue.dict "string" (some (ParamScalar.str "zz"))) ∈
        sampleDictOverrideWorkflow.Params ∧
      declares sampleDictOverrideWorkflow.Source.EntryPoints "main" "model" = true ∧
      paramOf (validate sampleDictOverrideWorkflow).1.Source.EntryPoints "main" "model" =
        some (ParamValue.direct (ParamScalar.str "zz")) ∧
      paramOf (validate sampleDictOverrideWorkflow).1.Source.EntryPoints "main" "model" ≠
        some (ParamValue.dict "string" (some (ParamScalar.str "zz")))) := by
  decide

/-- C21 (amended): when validate returns no error, for every override of the
request with a direct value, not a DictParam, whose key is `step.name` of a
declared parameter, or a bare name that a step declares as a parameter, that
parameter of that step is the value of the override, unchanged, in the source
that validate leaves, provided the overrides of the request that name this
parameter agree on the value.  An override whose bare name no step declares
makes validate return an error. -/
theorem validate_applies_overrides (bwf : BaseWorkflow) :
    ((validate bwf).2 = none →
      ∀ key v s n, (key, ParamValue.direct v) ∈ bwf.Params →
        (∀ e ∈ bwf.Params, overrideTarget bwf.Source.EntryPoints e.1 = some (s, n) →
          e.2 = ParamValue.direct v) →
        ((splitAtDot key.data [] = some (s, n) ∨ (splitAtDot key.data [] = none ∧ n = key)) ∧
          ∃ step, mapGet bwf.Source.EntryPoints s = some step ∧ n ∈ mapKeys step.Parameters) →
        ∃ step1, mapGet (validate bwf).1.Source.EntryPoints s = some step1 ∧
          mapGet step1.Parameters n = some (ParamValue.direct v)) ∧
    (∀ key value, (key, value) ∈ bwf.Params → splitAtDot key.data [] = none →
      (∀ s step, mapGet bwf.Source.EntryPoints s = some step → key ∉ mapKeys step.Parameters) →
      (validate bwf).2 ≠ none) := by
  constructor
  · intro hok key v s n hmem hagree hkey
    obtain ⟨eps1, hrep, heps⟩ := validate_none_entrypoints bwf hok
    have hsome := replaceRunParams_targets _ _ _ hrep (key, ParamValue.direct v) hmem
    have htarget : overrideTarget bwf.Source.EntryPoints key = some (s, n) := by
      obtain ⟨hform, step, hget, hdecl⟩ := hkey
      rcases hform with hsplit | ⟨hsplit, rfl⟩
      · exact overrideTarget_of_dotted _ _ _ _ _ hsplit hget hdecl
      · exact overrideTarget_of_bare _ _ _ _ hsplit hget hdecl hsome
    have hparam := replaceRunParams_paramOf bwf.Params s n (ParamValue.direct v) _ _ hrep
      ⟨(key, ParamValue.direct v), hmem, htarget⟩ hagree
    unfold paramOf at hparam
    rcases hg : mapGet eps1 s with _ | step1
    · rw [hg] at hparam; simp at hparam
    · rw [hg] at hparam
      simp only at hparam
      rw [heps, mapGet_map_value eps1 (fun e =>
        if e.1 ∈ mapKeys (getRunSteps (bwf.withEntryPoints eps1)) then normalizeStep e.2
        else e.2) s, hg]
      refine ⟨_, rfl, ?_⟩
      simp only
      split
      · exact normalizeStep_direct _ _ _ hparam
      · exact hparam
  · intro key value hmem hsplit hno hok
    obtain ⟨eps1, hrep, _⟩ := validate_none_entrypoints bwf hok
    exact replaceRunParams_targets _ _ _ hrep (key, value) hmem
      (overrideTarget_of_undeclared _ _ hsplit hno)

theorem validate_applies_overrides_witness :
    (validate sampleOverrideWorkflow).2 = none ∧
    (∃ step1, mapGet (validate sampleOverrideWorkflow).1.Source.EntryPoints "main" = some step1 ∧
      mapGet step1.Parameters "model" = some (ParamValue.direct (ParamScalar.str "correct"))) ∧
    (∃ step1, mapGet (validate sampleOverrideWorkflow).1.Source.EntryPoints "main" = some step1 ∧
      mapGet step1.Parameters "model" = some (ParamValue.direct (ParamScalar.str "correct"))) ∧
    (validate sampleUnknownOverrideWorkflow).2 ≠ none :=
  ⟨by decide,
    (validate_applies_overrides sampleOverrideWorkflow).1 (by decide) "model"
      (ParamScalar.str "correct") "main" "model" (by decide) (by decide)
      ⟨Or.inr ⟨by decide, rfl⟩, (sampleSource.EntryPoints.get ⟨1, by decide⟩).2, by decide,
        by decide⟩,
    (validate_applies_overrides sampleOverrideWorkflow).1 (by decide) "main.model"
      (ParamScalar.str "correct") "main" "model" (by decide) (by decide)
      ⟨Or.inl (by decide), (sampleSource.EntryPoints.get ⟨1, by decide⟩).2, by decide,
        by decide⟩,
    (validate_applies_overrides sampleUnknownOverrideWorkflow).2 "p1"
      (ParamValue.direct (ParamScalar.str "correct")) (by decide) (by decide)
      (fun s step h =>
        (by decide : ∀ e ∈ sampleSource.EntryPoints, "p1" ∉ mapKeys e.2.Parameters) (s, step)
          (mem_of_mapGet_eq_some _ _ _ h))⟩

end PaddleFlow
